import Mathlib

/-!
Verification development for the card hierarchy / ordering engine of the
md-divider repository (src/src/services/CardManager.ts, src/unnamed/part_005
SaveDataManager, src/src/renderer/contexts/AppContext.tsx history logic).

The TypeScript source is shallowly embedded: the card store (a `Map` in
insertion order) becomes a `List Card`; `Map.set` becomes an in-place
replace-or-append; JavaScript's stable `Array.prototype.sort` over the
`displayOrder` comparator becomes a stable merge sort; `Array.prototype.splice`
is modelled with JavaScript's index clamping rules.  `Date` fields
(createdAt / updatedAt / statusUpdatedAt) carry no logic relevant to the
verified claims and are omitted from the embedded record.  The unbounded
recursion of `getDescendantCards` is modelled with an explicit fuel bound
(the store size), which coincides with the JavaScript behaviour on all
acyclic stores.
-/

namespace MdDivider

/-- JavaScript whitespace test used by `String.prototype.trim`
(ASCII whitespace plus NBSP and BOM cover every character occurring here). -/
def jsWhitespace (c : Char) : Bool :=
  c = ' ' ∨ c = '\t' ∨ c = '\n' ∨ c = '\r' ∨ c = '\x0b' ∨ c = '\x0c' ∨
  c = ' ' ∨ c = '﻿'

/-- `content.trim()` on the underlying character list: drop leading and
trailing whitespace. -/
def jsTrimChars (l : List Char) : List Char :=
  ((l.dropWhile jsWhitespace).reverse.dropWhile jsWhitespace).reverse

/-- JavaScript `String.prototype.trim`. -/
def jsTrim (s : String) : String :=
  ⟨jsTrimChars s.data⟩

/-- Lexicographic strict comparison of JavaScript strings (`a < b`);
on the ASCII version strings appearing here this agrees with the
UTF-16 code-unit comparison JavaScript performs. -/
def jsCharsLt : List Char → List Char → Bool
  | _, [] => false
  | [], _ :: _ => true
  | a :: as, b :: bs => if a < b then true else if b < a then false else jsCharsLt as bs

def jsStrLt (a b : String) : Bool :=
  jsCharsLt a.data b.data

/-- `Array.prototype.splice(start, deleteCount)` restricted to the call sites
in the source, where `start` is a valid non-negative index: returns the
removed elements and the remaining array. -/
def spliceRemove (l : List α) (start count : Nat) : List α × List α :=
  ((l.drop start).take count, l.take start ++ l.drop (start + count))

/-- `Array.prototype.splice(start, 0, ...items)` with JavaScript's index
normalisation: a negative `start` counts from the end (clamped at 0), a
too-large `start` is clamped to the length. -/
def spliceInsert (l : List α) (start : Int) (items : List α) : List α :=
  let k : Nat := if start < 0 then (max ((l.length : Int) + start) 0).toNat
                 else min start.toNat l.length
  l.take k ++ items ++ l.drop k

/-! ### Data model (src/unnamed/part_000, current revision of models/Card.ts) -/

inductive CardStatus where
  | unprocessed
  | processing
  | processed
deriving DecidableEq, Repr

inductive DisplayAttribute where
  | heading
  | mainContent
  | miscellaneous
deriving DecidableEq, Repr

inductive SemanticAttribute where
  | none
  | text
  | figure
  | table
  | test
  | question
deriving DecidableEq, Repr

/-- The `Card` record.  `Date` fields are omitted (no verified claim mentions
them); every other field of the TypeScript interface is present.  Optional
TypeScript fields become `Option`s. -/
structure Card where
  id : String
  position : Int
  content : String
  status : CardStatus
  originalContent : String
  hasChanges : Bool
  originalPosition : Int
  displayOrder : Int
  displayAttribute : DisplayAttribute
  semanticAttribute : SemanticAttribute
  contents : String
  contentsTag : String
  figureId : Option String := none
  figureData : Option String := none
  tableId : Option String := none
  tableData : Option String := none
  testId : Option String := none
  testPrereq : Option String := none
  testStep : Option String := none
  testCons : Option String := none
  testSpec : Option String := none
  qaId : Option String := none
  question : Option String := none
  answer : Option String := none
  hierarchyLevel : Int
  parentId : Option String
deriving DecidableEq, Repr

/-- `CardUpdatePayload`.  A field value `none` means the key is absent from
the payload object; for the fields that callers in the source ever set to the
explicit value `undefined` (the attribute detail fields cleared by
`clearUnusedAttributeFields`, and `parentId`), the payload distinguishes
"key present with value `undefined`" (`some none`) from "key absent"
(`none`), because object spread copies present-but-undefined keys. -/
structure CardUpdatePayload where
  content : Option String := none
  status : Option CardStatus := none
  position : Option Int := none
  displayOrder : Option Int := none
  displayAttribute : Option DisplayAttribute := none
  semanticAttribute : Option SemanticAttribute := none
  contents : Option String := none
  contentsTag : Option String := none
  figureId : Option (Option String) := none
  figureData : Option (Option String) := none
  tableId : Option (Option String) := none
  tableData : Option (Option String) := none
  testId : Option (Option String) := none
  testPrereq : Option (Option String) := none
  testStep : Option (Option String) := none
  testCons : Option (Option String) := none
  testSpec : Option (Option String) := none
  qaId : Option (Option String) := none
  question : Option (Option String) := none
  answer : Option (Option String) := none
  hierarchyLevel : Option Int := none
  parentId : Option (Option String) := none
deriving DecidableEq, Repr

/-! ### The card store

`CardManager.cards : Map<string, Card>` iterates in insertion order; it is
modelled as a `List Card` in insertion order.  `Map.get` finds the entry with
the given id, `Map.set` replaces the entry in place (or appends a new one). -/

abbrev State := List Card

/-- `this.cards.get(id)`: the (unique) entry stored under `id`. -/
def getCard : State → String → Option Card
  | [], _ => none
  | c :: rest, id => if c.id = id then some c else getCard rest id

/-- `this.cards.set(c.id, c)`: replace the existing entry in place, or append. -/
def setCard : State → Card → State
  | [], c => [c]
  | x :: xs, c => if x.id = c.id then c :: xs else x :: setCard xs c

/-- `getAllCards({ sortOrder: 'displayOrder', sortDirection: 'asc' })`:
`Array.from(this.cards.values())` (insertion order) stably sorted by the
comparator `(a, b) => a.displayOrder - b.displayOrder`. -/
def sortedCards (s : State) : List Card :=
  List.insertionSort (fun a b => a.displayOrder ≤ b.displayOrder) s

/-! ### CardManager operations (src/src/services/CardManager.ts) -/

/-- `createCard(content, position)`.  The source assigns `this.generateId()`
(a timestamp/random string); the generated id is supplied as a parameter. -/
def createCard (s : State) (id content : String) (position : Int) : Card × State :=
  let trimmedContent := jsTrim content
  let card : Card :=
    { id := id
      position := position
      content := trimmedContent
      status := .unprocessed
      originalContent := trimmedContent
      hasChanges := false
      originalPosition := position
      displayOrder := position
      displayAttribute := .mainContent
      semanticAttribute := .text
      contents := trimmedContent
      contentsTag := ""
      hierarchyLevel := 1
      parentId := none }
  (card, setCard s card)

/-- The argument of `createCardFromData`: `Partial<Card> & { content, position,
originalContent }`.  `none` = field absent/undefined. -/
structure CardData where
  id : Option String := none
  position : Int
  content : String
  status : Option CardStatus := none
  originalContent : String
  hasChanges : Option Bool := none
  originalPosition : Option Int := none
  displayOrder : Option Int := none
  displayAttribute : Option DisplayAttribute := none
  semanticAttribute : Option SemanticAttribute := none
  contents : Option String := none
  contentsTag : Option String := none
  figureId : Option String := none
  figureData : Option String := none
  tableId : Option String := none
  tableData : Option String := none
  testId : Option String := none
  testPrereq : Option String := none
  testStep : Option String := none
  testCons : Option String := none
  testSpec : Option String := none
  qaId : Option String := none
  question : Option String := none
  answer : Option String := none
  hierarchyLevel : Option Int := none
  parentId : Option String := none
deriving DecidableEq, Repr

/-- `createCardFromData(cardData)`.  `freshId` stands for the
`this.generateId()` fallback.  The `cardData.id || ...` and
`cardData.contents || ...` defaults use JavaScript truthiness, so the empty
string also falls back. -/
def createCardFromData (s : State) (freshId : String) (cardData : CardData) :
    Card × State :=
  let card : Card :=
    { id := match cardData.id with
            | some i => if i = "" then freshId else i
            | none => freshId
      position := cardData.position
      content := jsTrim cardData.content
      status := cardData.status.getD .unprocessed
      originalContent := jsTrim cardData.originalContent
      hasChanges := decide (jsTrim cardData.content ≠ jsTrim cardData.originalContent)
      originalPosition := cardData.originalPosition.getD cardData.position
      displayOrder := cardData.displayOrder.getD cardData.position
      displayAttribute := cardData.displayAttribute.getD .mainContent
      semanticAttribute := cardData.semanticAttribute.getD .text
      contents := match cardData.contents with
                  | some c => if c = "" then jsTrim cardData.content else c
                  | none => jsTrim cardData.content
      contentsTag := cardData.contentsTag.getD ""
      figureId := cardData.figureId
      figureData := cardData.figureData
      tableId := cardData.tableId
      tableData := cardData.tableData
      testId := cardData.testId
      testPrereq := cardData.testPrereq
      testStep := cardData.testStep
      testCons := cardData.testCons
      testSpec := cardData.testSpec
      qaId := cardData.qaId
      question := cardData.question
      answer := cardData.answer
      hierarchyLevel := cardData.hierarchyLevel.getD 1
      parentId := cardData.parentId }
  (card, setCard s card)

/-- `{...card, ...updates}`: object spread of the payload over the card
(present keys override, including present-but-undefined detail keys). -/
def mergePayload (card : Card) (updates : CardUpdatePayload) : Card :=
  { card with
    content := updates.content.getD card.content
    status := updates.status.getD card.status
    position := updates.position.getD card.position
    displayOrder := updates.displayOrder.getD card.displayOrder
    displayAttribute := updates.displayAttribute.getD card.displayAttribute
    semanticAttribute := updates.semanticAttribute.getD card.semanticAttribute
    contents := updates.contents.getD card.contents
    contentsTag := updates.contentsTag.getD card.contentsTag
    figureId := updates.figureId.getD card.figureId
    figureData := updates.figureData.getD card.figureData
    tableId := updates.tableId.getD card.tableId
    tableData := updates.tableData.getD card.tableData
    testId := updates.testId.getD card.testId
    testPrereq := updates.testPrereq.getD card.testPrereq
    testStep := updates.testStep.getD card.testStep
    testCons := updates.testCons.getD card.testCons
    testSpec := updates.testSpec.getD card.testSpec
    qaId := updates.qaId.getD card.qaId
    question := updates.question.getD card.question
    answer := updates.answer.getD card.answer
    hierarchyLevel := updates.hierarchyLevel.getD card.hierarchyLevel
    parentId := updates.parentId.getD card.parentId }

/-- `updateCard(id, updates)`: merge, re-trim content and recompute
`hasChanges` when the payload carries content, store, return the new card
(`null` if the id is unknown). -/
def updateCard (s : State) (id : String) (updates : CardUpdatePayload) :
    Option Card × State :=
  match getCard s id with
  | none => (none, s)
  | some card =>
    let merged := mergePayload card updates
    let updatedCard :=
      match updates.content with
      | some raw =>
        let newContent := jsTrim raw
        { merged with content := newContent
                      hasChanges := decide (newContent ≠ card.originalContent) }
      | none => merged
    (some updatedCard, setCard s updatedCard)

/-- `clearUnusedAttributeFields`: first set every detail key of the payload to
the explicit value `undefined`, then `delete` (make absent again) the keys the
new attribute combination keeps. -/
def clearUnusedAttributeFields (updates : CardUpdatePayload)
    (displayAttribute : DisplayAttribute) (semanticAttribute : SemanticAttribute) :
    CardUpdatePayload :=
  let u := { updates with
    figureId := some none, figureData := some none
    tableId := some none, tableData := some none
    testId := some none, testPrereq := some none, testStep := some none
    testCons := some none, testSpec := some none
    qaId := some none, question := some none, answer := some none }
  match displayAttribute with
  | .mainContent =>
    match semanticAttribute with
    | .figure => { u with figureId := none, figureData := none }
    | .table => { u with tableId := none, tableData := none }
    | .test => { u with testId := none, testPrereq := none, testStep := none,
                        testCons := none, testSpec := none }
    | .question => { u with qaId := none, question := none, answer := none }
    | _ => u
  | _ => u

/-- `updateCardAttribute(id, displayAttribute, semanticAttribute)`. -/
def updateCardAttribute (s : State) (id : String)
    (displayAttribute : DisplayAttribute) (semanticAttribute : SemanticAttribute) :
    Option Card × State :=
  match getCard s id with
  | none => (none, s)
  | some _ =>
    let updates : CardUpdatePayload :=
      { displayAttribute := some displayAttribute
        semanticAttribute := some semanticAttribute }
    updateCard s id (clearUnusedAttributeFields updates displayAttribute semanticAttribute)

/-- `getChildCards(parentId)`: cards whose `parentId` equals the argument,
sorted by `displayOrder` (the empty string is falsy and yields `[]`). -/
def getChildCards (s : State) (parentId : String) : List Card :=
  if parentId = "" then []
  else List.insertionSort (fun a b => a.displayOrder ≤ b.displayOrder)
         (s.filter (fun c => c.parentId = some parentId))

/-- `getDescendantCards(parentId)`, recursion bounded by fuel: children first,
then every child's descendants appended (`child.id` must be truthy). -/
def getDescendantCardsFuel (s : State) : Nat → String → List Card
  | 0, _ => []
  | fuel + 1, parentId =>
    let children := getChildCards s parentId
    children ++ children.flatMap (fun child =>
      if child.id = "" then [] else getDescendantCardsFuel s fuel child.id)

/-- `getDescendantCards(parentId)` with the canonical fuel (the store size);
on every acyclic store this equals the unbounded JavaScript recursion. -/
def getDescendantCards (s : State) (parentId : String) : List Card :=
  getDescendantCardsFuel s s.length parentId

/-- `getParentCard(cardId)` (an empty-string `parentId` is falsy). -/
def getParentCard (s : State) (cardId : String) : Option Card :=
  match getCard s cardId with
  | none => none
  | some card =>
    match card.parentId with
    | none => none
    | some p => if p = "" then none else getCard s p

/-- `adjustGroupHierarchy(parentCardId, levelDiff)`: shift every descendant by
`levelDiff`, clamped at level 1 (clearing `parentId` on clamp).  The
descendant list is the `getCardGroupInfo(...).descendants` snapshot (empty
when the id is unknown). -/
def adjustGroupHierarchy (s : State) (parentCardId : String) (levelDiff : Int) :
    State :=
  let descendants :=
    match getCard s parentCardId with
    | none => []
    | some _ => getDescendantCards s parentCardId
  descendants.foldl (fun st descendant =>
    let newLevel := max 1 (descendant.hierarchyLevel + levelDiff)
    let updatedDescendant := { descendant with
      hierarchyLevel := newLevel
      parentId := if newLevel = 1 then none else descendant.parentId }
    setCard st updatedDescendant) s

/-- `findParentForLevel`: scan backwards from `currentIndex - 1` for the first
card at `targetLevel - 1`, giving up on the first strictly shallower card. -/
def findParentForLevelAux (arr : List Card) (targetLevel : Int) :
    Nat → Option Card
  | 0 => none
  | j + 1 =>
    match arr.get? j with
    | none => none
    | some potentialParent =>
      if potentialParent.hierarchyLevel = targetLevel - 1 then some potentialParent
      else if potentialParent.hierarchyLevel < targetLevel - 1 then none
      else findParentForLevelAux arr targetLevel j

def findParentForLevel (arr : List Card) (targetLevel : Int) (currentIndex : Nat) :
    Option Card :=
  if targetLevel ≤ 1 then none
  else findParentForLevelAux arr targetLevel currentIndex

/-- The loop body of `adjustFollowingCardsHierarchy`: walk the sorted array
from `i` on, re-levelling each card deeper than `oldLevel` (and re-deriving
its parent), stopping at the first card at most as deep as `oldLevel`.  The
store and the in-memory array are updated in lockstep, as in the source.
The fuel is at least the number of remaining indices. -/
def adjustFollowingGo (oldLevel levelDiff : Int) :
    Nat → State → List Card → Nat → State
  | 0, st, _, _ => st
  | fuel + 1, st, arr, i =>
    match arr.get? i with
    | none => st
    | some followingCard =>
      if followingCard.hierarchyLevel > oldLevel then
        let adjustedLevel := max 1 (followingCard.hierarchyLevel + levelDiff)
        let newParentId :=
          if adjustedLevel = 1 then none
          else (findParentForLevel arr adjustedLevel i).map (fun p => p.id)
        let updatedCard := { followingCard with
          hierarchyLevel := adjustedLevel, parentId := newParentId }
        adjustFollowingGo oldLevel levelDiff fuel
          (setCard st updatedCard) (arr.set i updatedCard) (i + 1)
      else st

/-- `adjustFollowingCardsHierarchy(cardId, oldLevel, newLevel)`. -/
def adjustFollowingCardsHierarchy (s : State) (cardId : String)
    (oldLevel newLevel : Int) : State :=
  let allCards := sortedCards s
  match allCards.findIdx? (fun c => c.id = cardId) with
  | none => s
  | some cardIndex =>
    if cardIndex + 1 ≥ allCards.length then s
    else adjustFollowingGo oldLevel (newLevel - oldLevel) allCards.length
           s allCards (cardIndex + 1)

/-- `indentCard(cardId)`. -/
def indentCard (s : State) (cardId : String) : Bool × State :=
  match getCard s cardId with
  | none => (false, s)
  | some card =>
    let allCards := sortedCards s
    match allCards.findIdx? (fun c => c.id = cardId) with
    | none => (false, s)      -- currentIndex === -1, caught by `<= 0`
    | some 0 => (false, s)    -- the first card cannot be indented
    | some (i + 1) =>
      match allCards.get? i with
      | none => (false, s)    -- unreachable: i + 1 is a valid index
      | some previousCard =>
        if previousCard.hierarchyLevel < card.hierarchyLevel - 1 then (false, s)
        else
          let oldLevel := card.hierarchyLevel
          let newLevel := previousCard.hierarchyLevel + 1
          let levelDiff := newLevel - oldLevel
          let s1 := (updateCard s cardId
            { hierarchyLevel := some newLevel
              parentId := some (some previousCard.id) }).2
          let s2 := adjustGroupHierarchy s1 cardId levelDiff
          (true, adjustFollowingCardsHierarchy s2 cardId oldLevel newLevel)

/-- `outdentCard(cardId)`. -/
def outdentCard (s : State) (cardId : String) : Bool × State :=
  match getCard s cardId with
  | none => (false, s)
  | some card =>
    if card.hierarchyLevel ≤ 1 then (false, s)
    else
      match getParentCard s cardId with
      | none => (false, s)
      | some parentCard =>
        let oldLevel := card.hierarchyLevel
        let newLevel := card.hierarchyLevel - 1
        let levelDiff := newLevel - oldLevel
        let s1 := (updateCard s cardId
          { hierarchyLevel := some newLevel
            parentId := some parentCard.parentId }).2
        let s2 := adjustGroupHierarchy s1 cardId levelDiff
        (true, adjustFollowingCardsHierarchy s2 cardId oldLevel newLevel)

/-- `determineTargetHierarchyLevel(targetIndex, allCards)`. -/
def determineTargetHierarchyLevel (targetIndex : Nat) (allCards : List Card) :
    Int × Option String :=
  let prevCard := if targetIndex > 0 then allCards.get? (targetIndex - 1) else none
  let nextCard := allCards.get? targetIndex
  match prevCard with
  | some prev =>
    match nextCard with
    | some next =>
      if prev.hierarchyLevel < next.hierarchyLevel ∧ next.parentId = some prev.id then
        (next.hierarchyLevel, some prev.id)
      else
        let targetLevel := min prev.hierarchyLevel next.hierarchyLevel
        if targetLevel = 1 then (1, none)
        else (targetLevel,
              if prev.hierarchyLevel = targetLevel then prev.parentId else next.parentId)
    | none => (prev.hierarchyLevel, prev.parentId)
  | none =>
    match nextCard with
    | some next => (next.hierarchyLevel, next.parentId)
    | none => (1, none)

/-- `adjustCardHierarchy(card, newLevel, newParentId)`: returns the adjusted
moved card (not yet stored) and the store with the descendants re-levelled. -/
def adjustCardHierarchy (s : State) (card : Card) (newLevel : Int)
    (newParentId : Option String) : Card × State :=
  let levelDiff := newLevel - card.hierarchyLevel
  let updatedCard := { card with hierarchyLevel := newLevel, parentId := newParentId }
  let descendants := getDescendantCards s card.id
  let s' := descendants.foldl (fun st descendant =>
    let newDescendantLevel := max 1 (descendant.hierarchyLevel + levelDiff)
    let updatedDescendant := { descendant with
      hierarchyLevel := newDescendantLevel
      parentId := if newDescendantLevel = 1 then none else descendant.parentId }
    setCard st updatedDescendant) s
  (updatedCard, s')

/-- `getCardGroupForMove(cardId)`: the card followed by all its descendants. -/
def getCardGroupForMove (s : State) (cardId : String) : List Card :=
  match getCard s cardId with
  | none => []
  | some card => card :: getDescendantCards s cardId

/-- `recalculateDisplayOrder(cards)`: store every card of the list with
`displayOrder :=` its index. -/
def recalcFrom (s : State) : List Card → Int → State
  | [], _ => s
  | c :: rest, k => recalcFrom (setCard s { c with displayOrder := k }) rest (k + 1)

def recalculateDisplayOrder (s : State) (cards : List Card) : State :=
  recalcFrom s cards 0

/-- `moveCardGroupToPosition(cardId, targetIndex)`. -/
def moveCardGroupToPosition (s : State) (cardId : String) (targetIndex : Int) :
    Bool × State :=
  let cardGroup := getCardGroupForMove s cardId
  if cardGroup.isEmpty then (false, s)
  else
    let allCards := sortedCards s
    match allCards.findIdx? (fun c => c.id = cardId) with
    | none => (false, s)
    | some currentIndex =>
      if targetIndex < 0 ∨ targetIndex > allCards.length then (false, s)
      else
        let hierarchyInfo := determineTargetHierarchyLevel targetIndex.toNat allCards
        let movedGroup := (spliceRemove allCards currentIndex cardGroup.length).1
        let rest := (spliceRemove allCards currentIndex cardGroup.length).2
        let adjustedTargetIndex : Int :=
          if targetIndex > currentIndex then targetIndex - cardGroup.length
          else targetIndex
        let arr2 := spliceInsert rest adjustedTargetIndex movedGroup
        match movedGroup.head? with
        | none => (false, s)   -- unreachable: currentIndex is a valid index
        | some movedCard =>
          let adjustedCard :=
            (adjustCardHierarchy s movedCard hierarchyInfo.1 hierarchyInfo.2).1
          let s1 :=
            (adjustCardHierarchy s movedCard hierarchyInfo.1 hierarchyInfo.2).2
          let arr3 :=
            match arr2.findIdx? (fun c => c.id = cardId) with
            | none => arr2
            | some movedCardIndex =>
              let arrA := arr2.set movedCardIndex adjustedCard
              (getDescendantCards s1 cardId).foldl (fun arr descendant =>
                match arr.findIdx? (fun c => c.id = descendant.id) with
                | none => arr
                | some descendantIndex =>
                  match getCard s1 descendant.id with
                  | none => arr
                  | some updatedDescendant => arr.set descendantIndex updatedDescendant)
                arrA
          (true, recalculateDisplayOrder s1 arr3)

inductive Dir where
  | up
  | down
deriving DecidableEq, Repr

/-- `moveCardWithHierarchyIntegrity(cardId, direction)`.  The backward `while`
loop in the source breaks on its first iteration, so it is a single step. -/
def moveCardWithHierarchyIntegrity (s : State) (cardId : String) (direction : Dir) :
    Bool × State :=
  let cardGroup := getCardGroupForMove s cardId
  if cardGroup.isEmpty then (false, s)
  else
    let allCards := sortedCards s
    match allCards.findIdx? (fun c => c.id = cardId) with
    | none => (false, s)
    | some currentIndex =>
      match direction with
      | .up =>
        if currentIndex > 0 then
          match allCards.get? (currentIndex - 1) with
          | none => (false, s)   -- unreachable
          | some prevCard =>
            let prevDescendants := getDescendantCards s prevCard.id
            let targetIndex : Int :=
              (currentIndex : Int) - 1 - prevDescendants.length
            moveCardGroupToPosition s cardId targetIndex
        else (false, s)
      | .down =>
        if currentIndex + cardGroup.length < allCards.length then
          let checkIndex := currentIndex + cardGroup.length
          match allCards.get? checkIndex with
          | none => (false, s)   -- unreachable under the guard
          | some nextCard =>
            let nextDescendants := getDescendantCards s nextCard.id
            let nextGroupSize := 1 + nextDescendants.length
            let targetIndex0 : Int := (checkIndex : Int) + nextGroupSize
            let targetIndex :=
              if targetIndex0 > (allCards.length : Int) then (allCards.length : Int)
              else targetIndex0
            moveCardGroupToPosition s cardId targetIndex
        else (false, s)

/-- `moveCard(cardId, direction)` delegates to the hierarchy-preserving move. -/
def moveCard (s : State) (cardId : String) (direction : Dir) : Bool × State :=
  moveCardWithHierarchyIntegrity s cardId direction

/-- `moveCardToPosition(cardId, targetIndex)` delegates to the group move. -/
def moveCardToPosition (s : State) (cardId : String) (targetIndex : Int) :
    Bool × State :=
  moveCardGroupToPosition s cardId targetIndex

/-! ### Public mutation sequences -/

/-- One `replace(/X+/g, R)` pass: every maximal run of characters satisfying
`p` becomes the single character `rep` (the run's last character is kept,
replaced by `rep`; the earlier ones are dropped). -/
def collapseRuns (p : Char → Bool) (rep : Char) : List Char → List Char
  | [] => []
  | c :: rest =>
    if p c then
      match rest with
      | [] => [rep]
      | d :: _ =>
        if p d then collapseRuns p rep rest else rep :: collapseRuns p rep rest
    else c :: collapseRuns p rep rest

/-- `TextProcessor.cleanParagraph` (src/src/main/main.ts): `trim()`, then
`replace(/\n+/g, '\n')`, then `replace(/[ \t]+/g, ' ')`. -/
def cleanParagraph (s : String) : String :=
  ⟨collapseRuns (fun c => c = ' ' ∨ c = '\t') ' '
    (collapseRuns (fun c => c = '\n') '\n' (jsTrim s).data)⟩

/-- `TextProcessor.splitIntoParagraphs` (src/src/main/main.ts) from the point
where `text.split(/\n\s*\n/)` has produced the raw chunks (the parameter):
each chunk is cleaned, empty results are skipped, and the kept paragraphs get
`position := position++` starting from 0.  (The function's early return `[]`
on empty or whitespace-only `text` coincides with this loop, since every
chunk of such a text cleans to the empty string.) -/
def splitIntoParagraphs (rawParagraphs : List String) : List (String × Nat) :=
  (rawParagraphs.foldl
    (fun (acc : List (String × Nat) × Nat) rawParagraph =>
      let content := cleanParagraph rawParagraph
      if content.length > 0 then (acc.1 ++ [(content, acc.2)], acc.2 + 1)
      else acc)
    ([], 0)).1

/-- The bulk creation performed by `AppContext.loadFile`: one
`createCard(paragraph.content, paragraph.position)` call per paragraph of
`TextProcessor.splitIntoParagraphs(content)`, in order.  `items` pairs each
`generateId()` result with the cleaned paragraph content; the positions are
the consecutive indices 0, 1, 2, … that `splitIntoParagraphs` assigns
(theorems `splitIntoParagraphs_positions` and
`loadFileCards_eq_bulkCreateFromSplit` below). -/
def bulkCreateFromSplit (items : List (String × String)) : State :=
  items.enum.foldl (fun st p => (createCard st p.2.1 p.2.2 (p.1 : Int)).2) []

/-- `AppContext.loadFile` on the split document itself: the fold of
`createCard` over `splitIntoParagraphs` output zipped with the `generateId()`
results. -/
def loadFileCards (ids : List String) (rawParagraphs : List String) : State :=
  (ids.zip (splitIntoParagraphs rawParagraphs)).foldl
    (fun st p => (createCard st p.1 p.2.1 ((p.2.2 : Nat) : Int)).2) []

theorem splitIntoParagraphs_loop :
    ∀ (raws : List String) (acc : List (String × Nat)) (n : Nat),
      (raws.foldl
        (fun (acc : List (String × Nat) × Nat) rawParagraph =>
          let content := cleanParagraph rawParagraph
          if content.length > 0 then (acc.1 ++ [(content, acc.2)], acc.2 + 1)
          else acc)
        (acc, n)) =
      (acc ++ (List.enumFrom n ((raws.map cleanParagraph).filter
          (fun c => c.length > 0))).map (fun p => (p.2, p.1)),
       n + ((raws.map cleanParagraph).filter (fun c => c.length > 0)).length) := by
  intro raws
  induction raws with
  | nil => intro acc n; simp
  | cons r t ih =>
    intro acc n
    rw [List.foldl_cons]
    dsimp only
    by_cases h : (cleanParagraph r).length > 0
    · rw [if_pos h, ih]
      simp only [List.map_cons, List.filter_cons]
      rw [if_pos (by simpa using h)]
      simp only [List.enumFrom_cons, List.map_cons, List.length_cons]
      rw [Prod.mk.injEq]
      constructor
      · simp [List.append_assoc]
      · omega
    · rw [if_neg h, ih]
      simp only [List.map_cons, List.filter_cons]
      rw [if_neg (by simpa using h)]

/-- The split loop keeps the non-empty cleaned paragraphs in order and numbers
them 0, 1, 2, … -/
theorem splitIntoParagraphs_eq (raws : List String) :
    splitIntoParagraphs raws =
      (List.enum ((raws.map cleanParagraph).filter
        (fun c => c.length > 0))).map (fun p => (p.2, p.1)) := by
  unfold splitIntoParagraphs
  rw [splitIntoParagraphs_loop raws [] 0]
  rw [List.nil_append]
  rfl

/-- The positions `splitIntoParagraphs` assigns are exactly 0 … N−1. -/
theorem splitIntoParagraphs_positions (raws : List String) :
    (splitIntoParagraphs raws).map Prod.snd =
      List.range (splitIntoParagraphs raws).length := by
  rw [splitIntoParagraphs_eq, List.map_map, List.length_map]
  rw [show (Prod.snd ∘ fun p : Nat × String => (p.2, p.1)) = Prod.fst from rfl]
  rw [List.enum_map_fst, List.enum_length]

theorem zip_enumFrom_swap :
    ∀ (ids : List String) (l : List String) (n : Nat),
      ids.zip ((List.enumFrom n l).map (fun p => (p.2, p.1))) =
      (List.enumFrom n (ids.zip l)).map (fun q => (q.2.1, (q.2.2, q.1))) := by
  intro ids
  induction ids with
  | nil => intro l n; rfl
  | cons a as ih =>
    intro l n
    cases l with
    | nil => rfl
    | cons b bs =>
      simp only [List.enumFrom_cons, List.map_cons, List.zip_cons_cons]
      rw [ih]

/-- `bulkCreateFromSplit` is `loadFileCards`: creating the cards from the
split paragraphs is the enumerated bulk creation over the id/content pairs. -/
theorem loadFileCards_eq_bulkCreateFromSplit (ids : List String)
    (raws : List String) :
    loadFileCards ids raws =
      bulkCreateFromSplit (ids.zip ((splitIntoParagraphs raws).map Prod.fst)) := by
  unfold loadFileCards bulkCreateFromSplit
  rw [splitIntoParagraphs_eq, List.map_map]
  rw [show (Prod.fst ∘ fun p : Nat × String => (p.2, p.1)) = Prod.snd from rfl]
  rw [List.enum_map_snd]
  rw [show List.enum ((raws.map cleanParagraph).filter
      (fun c => c.length > 0)) =
    List.enumFrom 0 ((raws.map cleanParagraph).filter
      (fun c => c.length > 0)) from rfl]
  rw [zip_enumFrom_swap ids _ 0, List.foldl_map]
  rfl

/-- The public mutating operations of the façade (after bulk creation). -/
inductive Op where
  | indent (cardId : String)
  | outdent (cardId : String)
  | move (cardId : String) (direction : Dir)
  | moveToPosition (cardId : String) (targetIndex : Int)
  | update (cardId : String) (updates : CardUpdatePayload)
  | updateAttribute (cardId : String) (displayAttribute : DisplayAttribute)
      (semanticAttribute : SemanticAttribute)

def applyOp (s : State) : Op → State
  | .indent cardId => (indentCard s cardId).2
  | .outdent cardId => (outdentCard s cardId).2
  | .move cardId direction => (moveCard s cardId direction).2
  | .moveToPosition cardId targetIndex => (moveCardToPosition s cardId targetIndex).2
  | .update cardId updates => (updateCard s cardId updates).2
  | .updateAttribute cardId displayAttribute semanticAttribute =>
      (updateCardAttribute s cardId displayAttribute semanticAttribute).2

/-- A store reached by bulk creation from a split document followed by a
sequence of public mutations. -/
def runOps (items : List (String × String)) (ops : List Op) : State :=
  ops.foldl applyOp (bulkCreateFromSplit items)

/-! ### The invariants named by the specification -/

/-- The multiset of `displayOrder` values. -/
def displayOrders (s : State) : Multiset Int :=
  (s.map Card.displayOrder : List Int)

/-- Spec invariant 1: the `displayOrder` values are exactly 0 … N−1. -/
def orderPermutation (s : State) : Prop :=
  displayOrders s = (((List.range s.length).map (fun n : Nat => (n : Int))) : List Int)

/-- Spec invariant 2: `hierarchyLevel = 1 ↔ no parent`, and a present parent
is a live card exactly one level up. -/
def levelParentConsistent (s : State) : Prop :=
  ∀ c ∈ s, (c.hierarchyLevel = 1 ↔ c.parentId = none) ∧
    ∀ p ∈ c.parentId,
      ∃ q ∈ s, q.id = p ∧ q.hierarchyLevel = c.hierarchyLevel - 1

/-- Spec invariant 3: the descendants of every card occupy exactly the
display positions immediately following the card. -/
def subtreeContiguous (s : State) : Prop :=
  ∀ c ∈ s,
    (((getDescendantCards s c.id).map Card.displayOrder : List Int) : Multiset Int) =
      (((List.range (getDescendantCards s c.id).length).map
          (fun n : Nat => c.displayOrder + 1 + (n : Int))) : List Int)

/-- The implicit content/trimming invariant of claim C10. -/
def contentInvariant (c : Card) : Prop :=
  jsTrim c.content = c.content ∧ jsTrim c.originalContent = c.originalContent ∧
    c.hasChanges = decide (c.content ≠ c.originalContent)

def storeContentInvariant (s : State) : Prop :=
  ∀ c ∈ s, contentInvariant c

instance (s : State) : Decidable (orderPermutation s) := by
  unfold orderPermutation; infer_instance

instance (s : State) : Decidable (levelParentConsistent s) := by
  unfold levelParentConsistent; infer_instance

instance (s : State) : Decidable (subtreeContiguous s) := by
  unfold subtreeContiguous; infer_instance

instance (c : Card) : Decidable (contentInvariant c) := by
  unfold contentInvariant; infer_instance

instance (s : State) : Decidable (storeContentInvariant s) := by
  unfold storeContentInvariant; infer_instance

/-! ### History manager (src/src/renderer/contexts/AppContext.tsx)

The undo/redo stacks hold deep clones of the sorted card list.  `cloneCards`
only renews the `Date` objects, which are not part of the embedded record, so
it is the identity here. -/

def cloneCards (cards : List Card) : List Card := cards

/-- The full `Card` passed (as a `Partial<Card>`) to `createCardFromData` by
`restoreCards`: every key is present. -/
def cardToData (c : Card) : CardData :=
  { id := some c.id
    position := c.position
    content := c.content
    status := some c.status
    originalContent := c.originalContent
    hasChanges := some c.hasChanges
    originalPosition := some c.originalPosition
    displayOrder := some c.displayOrder
    displayAttribute := some c.displayAttribute
    semanticAttribute := some c.semanticAttribute
    contents := some c.contents
    contentsTag := some c.contentsTag
    figureId := c.figureId
    figureData := c.figureData
    tableId := c.tableId
    tableData := c.tableData
    testId := c.testId
    testPrereq := c.testPrereq
    testStep := c.testStep
    testCons := c.testCons
    testSpec := c.testSpec
    qaId := c.qaId
    question := c.question
    answer := c.answer
    hierarchyLevel := some c.hierarchyLevel
    parentId := c.parentId }

/-- `restoreCards(cards)`: `cardManager.clear()` then `createCardFromData`
per snapshot card.  The `generateId()` fallback (only reachable for an empty
snapshot id) is passed as the empty string. -/
def restoreCards (cards : List Card) : State :=
  cards.foldl (fun st c => (createCardFromData st "" (cardToData c)).2) []

structure History where
  undoStack : List (List Card) := []
  redoStack : List (List Card) := []
deriving DecidableEq, Repr

/-- `stack.push(x); if (stack.length > 10) stack.shift();` with the newest
snapshot at the head of the list (so `shift` drops the last element). -/
def capPush (snapshot : List Card) (stack : List (List Card)) :
    List (List Card) :=
  let stack' := snapshot :: stack
  if stack'.length > 10 then stack'.dropLast else stack'

/-- The public operations together with their success result, as the
AppContext callbacks observe it (`updateCard`/`updateCardAttribute` succeed
when they return a card). -/
def applyOpB (s : State) : Op → Bool × State
  | .indent cardId => indentCard s cardId
  | .outdent cardId => outdentCard s cardId
  | .move cardId direction => moveCard s cardId direction
  | .moveToPosition cardId targetIndex => moveCardToPosition s cardId targetIndex
  | .update cardId updates =>
      let r := updateCard s cardId updates
      (r.1.isSome, r.2)
  | .updateAttribute cardId displayAttribute semanticAttribute =>
      let r := updateCardAttribute s cardId displayAttribute semanticAttribute
      (r.1.isSome, r.2)

/-- An AppContext mutation callback: snapshot the sorted store, run the
operation, and on success push the snapshot onto the undo stack (capped at
10) and clear the redo stack. -/
def performMutation (s : State) (h : History) (op : Op) : State × History :=
  let snapshot := cloneCards (sortedCards s)
  let r := applyOpB s op
  if r.1 then
    (r.2, { undoStack := capPush snapshot h.undoStack, redoStack := [] })
  else (r.2, h)

/-- `undo()`. -/
def undoStep (s : State) (h : History) : State × History :=
  match h.undoStack with
  | [] => (s, h)
  | snapshot :: rest =>
    let current := cloneCards (sortedCards s)
    (restoreCards snapshot,
     { undoStack := rest, redoStack := current :: h.redoStack })

/-- `redo()`. -/
def redoStep (s : State) (h : History) : State × History :=
  match h.redoStack with
  | [] => (s, h)
  | snapshot :: rest =>
    let current := cloneCards (sortedCards s)
    (restoreCards snapshot,
     { undoStack := capPush current h.undoStack, redoStack := rest })

/-- The observation the undo/redo round-trip claim compares: content, display
order, hierarchy level and parent. -/
def observation (c : Card) : String × Int × Int × Option String :=
  (c.content, c.displayOrder, c.hierarchyLevel, c.parentId)

def observations (s : State) : Multiset (String × Int × Int × Option String) :=
  (s.map observation : List (String × Int × Int × Option String))

/-! ### Save-data validation (src/unnamed/part_005, SaveDataManager)

JSON values are embedded structurally: an absent/undefined field is `none`.
Error and warning messages are represented by codes carrying the 1-based
message parameters that matter (the card index); the message text itself is
irrelevant to the claims.  `JSON.parse` and `Date` parsing are outside the
model: `parseSaveData` is embedded from the point where the JSON value is
already structured, and the `new Date(...)` validity test for
`statusUpdatedAt` (which can only produce a warning) is a parameter. -/

def SAVE_DATA_VERSION : String := "1.2.0"

structure JsonCard where
  id : Option String := none
  position : Option Int := none
  content : Option String := none
  status : Option String := none
  createdAt : Option String := none
  updatedAt : Option String := none
  originalContent : Option String := none
  hasChanges : Option Bool := none
  statusUpdatedAt : Option String := none
  displayAttribute : Option String := none
  semanticAttribute : Option String := none
  contents : Option String := none
  contentsTag : Option String := none
  hierarchyLevel : Option Int := none
  parentId : Option String := none
deriving DecidableEq, Repr

/-- A parsed save-data document.  `cards = none` models a `cards` field that
is not an array; `collapsedCardIds = some none` models a present value that is
not an array, and a `none` element of the list models a non-string element. -/
structure JsonDoc where
  version : Option String := none
  originalFile : Option String := none
  timestamp : Option String := none
  cards : Option (List JsonCard) := none
  collapsedCardIds : Option (Option (List (Option String))) := none
deriving DecidableEq, Repr

inductive VErr where
  | invalidData
  | missingVersion
  | missingOriginalFile
  | missingTimestamp
  | cardsNotArray
  | cardMissingId (cardNo : Nat)
  | cardBadPosition (cardNo : Nat)
  | cardBadStatus (cardNo : Nat)
  | cardMissingDates (cardNo : Nat)
  | cardBadDisplayAttribute (cardNo : Nat)
  | cardBadSemanticAttribute (cardNo : Nat)
  | cardBadHierarchyLevel (cardNo : Nat)
  | cardMissingParent (cardNo : Nat)
  | cardParentRequired (cardNo : Nat)
  | collapsedNotArray
  | collapsedBadElement
deriving DecidableEq, Repr

inductive VWarn where
  | emptyContent (cardNo : Nat)
  | missingOriginalContent (cardNo : Nat)
  | missingHasChanges (cardNo : Nat)
  | badStatusDate (cardNo : Nat)
  | missingDisplayAttribute (cardNo : Nat)
  | missingSemanticAttribute (cardNo : Nat)
  | missingContents (cardNo : Nat)
  | missingContentsTag (cardNo : Nat)
  | missingCollapsed
  | versionMismatch
deriving DecidableEq, Repr

structure SaveDataValidationResult where
  isValid : Bool
  errors : List VErr
  warnings : List VWarn
deriving DecidableEq, Repr

/-- JavaScript truthiness of an optional string (absent, `undefined` and the
empty string are falsy). -/
def truthyStr (o : Option String) : Bool :=
  match o with
  | some s => s ≠ ""
  | none => false

/-- `data.version === eqv || (data.version && data.version > gtv)`. -/
def versionGate (version : Option String) (eqv gtv : String) : Bool :=
  match version with
  | some v => v = eqv ∨ (v ≠ "" ∧ jsStrLt gtv v)
  | none => false

/-- The error pushes of one iteration of the card-validation loop
(`index` is 0-based, the messages carry `index + 1`). -/
def cardErrors (version : Option String) (cards : List JsonCard)
    (index : Nat) (card : JsonCard) : List VErr :=
  (if truthyStr card.id then [] else [.cardMissingId (index + 1)]) ++
  (if card.position.isSome then [] else [.cardBadPosition (index + 1)]) ++
  (if card.status = some "unprocessed" ∨ card.status = some "processing" ∨
      card.status = some "processed" then [] else [.cardBadStatus (index + 1)]) ++
  (if truthyStr card.createdAt ∧ truthyStr card.updatedAt then []
   else [.cardMissingDates (index + 1)]) ++
  (if versionGate version "1.3.0" "1.2.0" then
    (if truthyStr card.displayAttribute then
      (if card.displayAttribute = some "heading" ∨ card.displayAttribute = some "main" ∨
          card.displayAttribute = some "misc" then []
       else [.cardBadDisplayAttribute (index + 1)])
     else []) ++
    (if truthyStr card.semanticAttribute then
      (if card.semanticAttribute = some "none" ∨ card.semanticAttribute = some "text" ∨
          card.semanticAttribute = some "figure" ∨ card.semanticAttribute = some "table" ∨
          card.semanticAttribute = some "test" ∨ card.semanticAttribute = some "question"
       then [] else [.cardBadSemanticAttribute (index + 1)])
     else [])
   else []) ++
  (if versionGate version "1.4.0" "1.3.0" then
    (match card.hierarchyLevel with
     | some l => if l < 1 then [.cardBadHierarchyLevel (index + 1)] else []
     | none => [.cardBadHierarchyLevel (index + 1)]) ++
    (match card.parentId with
     | some p =>
       if p = "" then
         -- an empty-string parentId is falsy: falls into the level check
         (match card.hierarchyLevel with
          | some l => if l > 1 then [.cardParentRequired (index + 1)] else []
          | none => [])
       else if cards.any (fun c => c.id = some p) then []
       else [.cardMissingParent (index + 1)]
     | none =>
       match card.hierarchyLevel with
       | some l => if l > 1 then [.cardParentRequired (index + 1)] else []
       | none => [])
   else [])

/-- The warning pushes of one iteration of the card-validation loop. -/
def cardWarnings (dateOk : String → Bool) (version : Option String)
    (index : Nat) (card : JsonCard) : List VWarn :=
  (if truthyStr card.content then [] else [.emptyContent (index + 1)]) ++
  (if versionGate version "1.1.0" "1.0.0" then
    (if card.originalContent.isSome then [] else [.missingOriginalContent (index + 1)]) ++
    (if card.hasChanges.isSome then [] else [.missingHasChanges (index + 1)])
   else []) ++
  (if versionGate version "1.2.0" "1.1.0" then
    (match card.statusUpdatedAt with
     | some d => if dateOk d then [] else [.badStatusDate (index + 1)]
     | none => [])
   else []) ++
  (if versionGate version "1.3.0" "1.2.0" then
    (if truthyStr card.displayAttribute then [] else [.missingDisplayAttribute (index + 1)]) ++
    (if truthyStr card.semanticAttribute then [] else [.missingSemanticAttribute (index + 1)]) ++
    (if card.contents.isSome then [] else [.missingContents (index + 1)]) ++
    (if card.contentsTag.isSome then [] else [.missingContentsTag (index + 1)])
   else [])

/-- `SaveDataManager.validateSaveData(data)`; `none` stands for a value that
is not an object. -/
def validateSaveData (dateOk : String → Bool) (data : Option JsonDoc) :
    SaveDataValidationResult :=
  match data with
  | none => { isValid := false, errors := [.invalidData], warnings := [] }
  | some d =>
    let baseErrors :=
      (if truthyStr d.version then [] else [VErr.missingVersion]) ++
      (if truthyStr d.originalFile then [] else [VErr.missingOriginalFile]) ++
      (if truthyStr d.timestamp then [] else [VErr.missingTimestamp])
    let cardPartErrors :=
      match d.cards with
      | none => [VErr.cardsNotArray]
      | some cards =>
        (cards.enum.map (fun p => cardErrors d.version cards p.1 p.2)).flatten
    let cardPartWarnings :=
      match d.cards with
      | none => []
      | some cards =>
        (cards.enum.map (fun p => cardWarnings dateOk d.version p.1 p.2)).flatten
    let collapsedErrors :=
      match d.collapsedCardIds with
      | none => []
      | some none => [VErr.collapsedNotArray]
      | some (some elems) =>
        if elems.any (fun e => e.isNone) then [VErr.collapsedBadElement] else []
    let collapsedWarnings :=
      match d.collapsedCardIds with
      | none => if versionGate d.version "1.5.0" "1.4.0" then [VWarn.missingCollapsed] else []
      | some _ => []
    let versionWarnings :=
      if d.version = some SAVE_DATA_VERSION then [] else [VWarn.versionMismatch]
    let errors := baseErrors ++ cardPartErrors ++ collapsedErrors
    { isValid := errors.isEmpty
      errors := errors
      warnings := cardPartWarnings ++ collapsedWarnings ++ versionWarnings }

/-- The backward-compatibility defaults `parseSaveData` applies to each card
record once validation succeeded (`new Date(...)` conversions are identities
in this model; a falsy `statusUpdatedAt` becomes `undefined`). -/
def parseCardDefaults (card : JsonCard) : JsonCard :=
  { card with
    originalContent := match card.originalContent with
                       | some v => some v
                       | none => card.content
    hasChanges := some (card.hasChanges.getD false)
    statusUpdatedAt := match card.statusUpdatedAt with
                       | some d => if d = "" then none else some d
                       | none => none
    displayAttribute := some (card.displayAttribute.getD "main")
    semanticAttribute := some (card.semanticAttribute.getD "text")
    contents := match card.contents with
                | some v => some v
                | none => card.content
    contentsTag := some (card.contentsTag.getD "")
    hierarchyLevel := some (card.hierarchyLevel.getD 1)
    parentId := card.parentId }

/-- `SaveDataManager.parseSaveData`, from the point where `JSON.parse` has
already produced the structured value: on a valid document the card list with
defaults applied (and the normalised collapsed-id list), otherwise `null`. -/
def parseSaveData (dateOk : String → Bool) (data : Option JsonDoc) :
    Option (List JsonCard × List (Option String)) × SaveDataValidationResult :=
  let validation := validateSaveData dateOk data
  if validation.isValid then
    match data with
    | some d =>
      (some ((d.cards.getD []).map parseCardDefaults,
             match d.collapsedCardIds with
             | some (some elems) => elems
             | _ => []),
       validation)
    | none => (none, validation)
  else (none, validation)

/-! ## Lemma library -/

/-! ### Idempotence of trimming -/

/-- Dropping trailing elements satisfying `p`. -/
def dropTrail (p : α → Bool) (l : List α) : List α :=
  (l.reverse.dropWhile p).reverse

theorem dropWhile_dropWhile (p : α → Bool) (l : List α) :
    (l.dropWhile p).dropWhile p = l.dropWhile p := by
  induction l with
  | nil => rfl
  | cons a t ih =>
    by_cases h : p a
    · simp [List.dropWhile_cons, h, ih]
    · simp [List.dropWhile_cons, h]

theorem dropTrail_dropTrail (p : α → Bool) (l : List α) :
    dropTrail p (dropTrail p l) = dropTrail p l := by
  unfold dropTrail
  rw [List.reverse_reverse, dropWhile_dropWhile]

theorem dropTrail_nil (p : α → Bool) : dropTrail p ([] : List α) = [] := rfl

theorem dropTrail_eq_nil_iff (p : α → Bool) (l : List α) :
    dropTrail p l = [] ↔ ∀ x ∈ l, p x := by
  unfold dropTrail
  rw [List.reverse_eq_nil_iff, List.dropWhile_eq_nil_iff]
  constructor
  · intro h x hx; exact h x (List.mem_reverse.mpr hx)
  · intro h x hx; exact h x (List.mem_reverse.mp hx)

theorem dropTrail_cons [DecidableEq α] (p : α → Bool) (a : α) (t : List α) :
    dropTrail p (a :: t) =
      if t.reverse.dropWhile p = [] then (if p a then [] else [a])
      else a :: dropTrail p t := by
  unfold dropTrail
  rw [List.reverse_cons, List.dropWhile_append]
  by_cases h : t.reverse.dropWhile p = []
  · rw [if_pos h]
    have hempty : (t.reverse.dropWhile p).isEmpty = true := by
      rw [List.isEmpty_iff]; exact h
    rw [hempty, if_pos rfl]
    by_cases hp : p a
    · rw [List.dropWhile_cons, if_pos hp, if_pos hp]; rfl
    · rw [List.dropWhile_cons, if_neg hp, if_neg hp]; rfl
  · rw [if_neg h]
    have hempty : (t.reverse.dropWhile p).isEmpty = false := by
      cases hq : t.reverse.dropWhile p with
      | nil => exact absurd hq h
      | cons x xs => rfl
    rw [hempty]
    simp only [Bool.false_eq_true, if_false, List.reverse_append,
      List.reverse_cons, List.reverse_nil, List.nil_append, List.singleton_append]

theorem dropTrail_reverse_nil_iff (p : α → Bool) (t : List α) :
    t.reverse.dropWhile p = [] ↔ dropTrail p t = [] := by
  unfold dropTrail
  rw [List.reverse_eq_nil_iff]

theorem dropWhile_dropTrail_comm [DecidableEq α] (p : α → Bool) (l : List α) :
    (dropTrail p l).dropWhile p = dropTrail p (l.dropWhile p) := by
  induction l with
  | nil => rfl
  | cons a t ih =>
    by_cases hnil : t.reverse.dropWhile p = []
    · have hnil' : dropTrail p t = [] := (dropTrail_reverse_nil_iff p t).mp hnil
      have hall : ∀ x ∈ t, p x = true := (dropTrail_eq_nil_iff p t).mp hnil'
      have hwt : t.dropWhile p = [] := (List.dropWhile_eq_nil_iff).mpr hall
      by_cases hp : p a
      · have e1 : List.dropWhile p (dropTrail p (a :: t)) = [] := by
          rw [dropTrail_cons, if_pos hnil, if_pos hp]; rfl
        have e2 : dropTrail p (List.dropWhile p (a :: t)) = [] := by
          rw [List.dropWhile_cons, if_pos hp, hwt]; rfl
        rw [e1, e2]
      · have e1 : List.dropWhile p (dropTrail p (a :: t)) = [a] := by
          rw [dropTrail_cons, if_pos hnil, if_neg hp, List.dropWhile_cons, if_neg hp]
        have e2 : dropTrail p (List.dropWhile p (a :: t)) = [a] := by
          rw [List.dropWhile_cons, if_neg hp, dropTrail_cons, if_pos hnil, if_neg hp]
        rw [e1, e2]
    · by_cases hp : p a
      · have e1 : List.dropWhile p (dropTrail p (a :: t)) =
            List.dropWhile p (dropTrail p t) := by
          rw [dropTrail_cons, if_neg hnil, List.dropWhile_cons, if_pos hp]
        have e2 : dropTrail p (List.dropWhile p (a :: t)) =
            dropTrail p (List.dropWhile p t) := by
          rw [List.dropWhile_cons, if_pos hp]
        rw [e1, e2, ih]
      · have e1 : List.dropWhile p (dropTrail p (a :: t)) = a :: dropTrail p t := by
          rw [dropTrail_cons, if_neg hnil, List.dropWhile_cons, if_neg hp]
        have e2 : dropTrail p (List.dropWhile p (a :: t)) = a :: dropTrail p t := by
          rw [List.dropWhile_cons, if_neg hp, dropTrail_cons, if_neg hnil]
        rw [e1, e2]

theorem jsTrimChars_eq (l : List Char) :
    jsTrimChars l = dropTrail jsWhitespace (l.dropWhile jsWhitespace) := rfl

theorem jsTrimChars_idem (l : List Char) :
    jsTrimChars (jsTrimChars l) = jsTrimChars l := by
  rw [jsTrimChars_eq, jsTrimChars_eq]
  rw [dropWhile_dropTrail_comm, dropWhile_dropWhile, dropTrail_dropTrail]

theorem jsTrim_idem (s : String) : jsTrim (jsTrim s) = jsTrim s := by
  unfold jsTrim
  exact congrArg String.mk (jsTrimChars_idem s.data)

/-! ### Store primitives -/

theorem getCard_setCard (s : State) (c : Card) (z : String) :
    getCard (setCard s c) z = if z = c.id then some c else getCard s z := by
  induction s with
  | nil =>
    by_cases h : z = c.id
    · simp [setCard, getCard, h]
    · have : ¬(c.id = z) := fun h' => h h'.symm
      simp [setCard, getCard, h, this]
  | cons a t ih =>
    by_cases ha : a.id = c.id
    · by_cases hz : z = c.id
      · simp [setCard, ha, getCard, hz]
      · have h1 : ¬(c.id = z) := fun h' => hz h'.symm
        have h2 : ¬(a.id = z) := by rw [ha]; exact h1
        simp [setCard, ha, getCard, hz, h1, h2]
    · by_cases hz : a.id = z
      · have h1 : ¬(z = c.id) := fun h => ha (hz.trans h)
        simp [setCard, ha, getCard, hz, h1]
      · simpa [setCard, ha, getCard, hz] using ih

theorem mem_setCard (s : State) (c : Card) :
    ∀ x ∈ setCard s c, x = c ∨ x ∈ s := by
  induction s with
  | nil => intro x hx; simp [setCard] at hx; exact Or.inl hx
  | cons a t ih =>
    intro x hx
    by_cases ha : a.id = c.id
    · simp only [setCard, if_pos ha] at hx
      rcases List.mem_cons.mp hx with h | h
      · exact Or.inl h
      · exact Or.inr (List.mem_cons_of_mem _ h)
    · simp only [setCard, if_neg ha] at hx
      rcases List.mem_cons.mp hx with h | h
      · exact Or.inr (by simp [h])
      · rcases ih x h with h' | h'
        · exact Or.inl h'
        · exact Or.inr (List.mem_cons_of_mem _ h')

theorem setCard_map_of_agree (f : Card → β) (s : State) (c : Card)
    (hmem : c.id ∈ s.map Card.id)
    (hagree : ∀ x ∈ s, x.id = c.id → f x = f c) :
    (setCard s c).map f = s.map f := by
  induction s with
  | nil => simp at hmem
  | cons a t ih =>
    by_cases ha : a.id = c.id
    · have := hagree a (by simp) ha
      simp [setCard, ha, this]
    · have hmem' : c.id ∈ t.map Card.id := by
        rcases List.mem_map.mp hmem with ⟨x, hx, hid⟩
        rcases List.mem_cons.mp hx with hx | hx
        · exact absurd (hx ▸ hid) ha
        · exact List.mem_map.mpr ⟨x, hx, hid⟩
      have hagree' : ∀ x ∈ t, x.id = c.id → f x = f c := fun x hx =>
        hagree x (List.mem_cons_of_mem _ hx)
      simp [setCard, ha, ih hmem' hagree']

theorem setCard_map_id_of_mem (s : State) (c : Card)
    (hmem : c.id ∈ s.map Card.id) :
    (setCard s c).map Card.id = s.map Card.id :=
  setCard_map_of_agree Card.id s c hmem (fun _ _ h => h)

theorem setCard_append_of_not_mem (s : State) (c : Card)
    (hmem : c.id ∉ s.map Card.id) : setCard s c = s ++ [c] := by
  induction s with
  | nil => rfl
  | cons a t ih =>
    have ha : ¬(a.id = c.id) := fun h => hmem (by simp [h])
    have hmem' : c.id ∉ t.map Card.id := fun h => hmem (by simp [h])
    simp [setCard, ha, ih hmem']

theorem getCard_eq_none_iff (s : State) (z : String) :
    getCard s z = none ↔ z ∉ s.map Card.id := by
  induction s with
  | nil => simp [getCard]
  | cons a t ih =>
    by_cases ha : a.id = z
    · simp [getCard, ha]
    · have : ¬ z = a.id := fun h => ha h.symm
      simp [getCard, ha, ih, this]

theorem getCard_eq_some (s : State) (z : String) (c : Card)
    (h : getCard s z = some c) : c ∈ s ∧ c.id = z := by
  induction s with
  | nil => simp [getCard] at h
  | cons a t ih =>
    by_cases ha : a.id = z
    · rw [getCard, if_pos ha] at h
      obtain rfl : a = c := Option.some_injective _ h
      exact ⟨by simp, ha⟩
    · rw [getCard, if_neg ha] at h
      obtain ⟨h1, h2⟩ := ih h
      exact ⟨List.mem_cons_of_mem _ h1, h2⟩

theorem getCard_of_nodup (s : State) (c : Card)
    (hnd : (s.map Card.id).Nodup) (hmem : c ∈ s) :
    getCard s c.id = some c := by
  induction s with
  | nil => simp at hmem
  | cons a t ih =>
    rcases List.mem_cons.mp hmem with h | h
    · subst h; simp [getCard]
    · have hne : ¬(a.id = c.id) := by
        intro hid
        have : c.id ∈ t.map Card.id := List.mem_map.mpr ⟨c, h, rfl⟩
        rw [List.map_cons, List.nodup_cons] at hnd
        exact hnd.1 (hid ▸ this)
      have hnd' : (t.map Card.id).Nodup := by
        rw [List.map_cons, List.nodup_cons] at hnd; exact hnd.2
      simpa [getCard, hne] using ih hnd' h

theorem eq_of_same_id_of_nodup (s : State) (x y : Card)
    (hnd : (s.map Card.id).Nodup) (hx : x ∈ s) (hy : y ∈ s)
    (hid : x.id = y.id) : x = y := by
  have h1 := getCard_of_nodup s x hnd hx
  have h2 := getCard_of_nodup s y hnd hy
  rw [hid] at h1
  rw [h1] at h2
  exact Option.some_injective _ h2

theorem sortedCards_perm (s : State) : (sortedCards s).Perm s :=
  List.perm_insertionSort _ s

theorem mem_sortedCards (s : State) (x : Card) :
    x ∈ sortedCards s ↔ x ∈ s :=
  (sortedCards_perm s).mem_iff

theorem sortedCards_map_perm (f : Card → β) (s : State) :
    ((sortedCards s).map f).Perm (s.map f) :=
  (sortedCards_perm s).map f

theorem sortedCards_length (s : State) : (sortedCards s).length = s.length :=
  (sortedCards_perm s).length_eq

theorem sortedCards_nodup_id (s : State) (hnd : (s.map Card.id).Nodup) :
    ((sortedCards s).map Card.id).Nodup :=
  (sortedCards_map_perm Card.id s).nodup_iff.mpr hnd

/-! ### (id, displayOrder) preservation by the hierarchy phases

The hierarchy-only phases (`updateCard` without a `displayOrder` payload,
`adjustGroupHierarchy`, `adjustFollowingCardsHierarchy`,
`adjustCardHierarchy`) replace stored cards by cards with the same id and the
same `displayOrder`; the projection below is therefore invariant. -/

def idOrder (c : Card) : String × Int := (c.id, c.displayOrder)

theorem map_id_of_map_idOrder {s s' : State}
    (h : s'.map idOrder = s.map idOrder) : s'.map Card.id = s.map Card.id := by
  have h1 := congrArg (List.map Prod.fst) h
  simpa [List.map_map, Function.comp, idOrder] using h1

theorem map_displayOrder_of_map_idOrder {s s' : State}
    (h : s'.map idOrder = s.map idOrder) :
    s'.map Card.displayOrder = s.map Card.displayOrder := by
  have h1 := congrArg (List.map Prod.snd) h
  simpa [List.map_map, Function.comp, idOrder] using h1

theorem setCard_idOrder_of_pair_mem (s : State) (c : Card)
    (hnd : (s.map Card.id).Nodup) (hmem : idOrder c ∈ s.map idOrder) :
    (setCard s c).map idOrder = s.map idOrder := by
  obtain ⟨y, hy, hyeq⟩ := List.mem_map.mp hmem
  have hid : y.id = c.id := congrArg Prod.fst hyeq
  apply setCard_map_of_agree
  · exact List.mem_map.mpr ⟨y, hy, hid⟩
  · intro x hx hxid
    have hxy : x = y := eq_of_same_id_of_nodup s x y hnd hx hy (hxid.trans hid.symm)
    rw [hxy, hyeq]

theorem foldl_set_idOrder (g : State → Card → State)
    (hg : ∀ st d, ∃ u : Card, g st d = setCard st u ∧ idOrder u = idOrder d) :
    ∀ (ds : List Card) (s0 : State), (s0.map Card.id).Nodup →
      (∀ d ∈ ds, idOrder d ∈ s0.map idOrder) →
      (ds.foldl g s0).map idOrder = s0.map idOrder := by
  intro ds
  induction ds with
  | nil => intro s0 _ _; rfl
  | cons d t ih =>
    intro s0 hnd hmem
    rw [List.foldl_cons]
    obtain ⟨u, hgu, hupair⟩ := hg s0 d
    rw [hgu]
    have hpair : idOrder u ∈ s0.map idOrder := by
      rw [hupair]; exact hmem d (by simp)
    have hstep : (setCard s0 u).map idOrder = s0.map idOrder :=
      setCard_idOrder_of_pair_mem s0 u hnd hpair
    have hnd' : ((setCard s0 u).map Card.id).Nodup := by
      rw [map_id_of_map_idOrder hstep]; exact hnd
    have hmem' : ∀ x ∈ t, idOrder x ∈ (setCard s0 u).map idOrder := by
      intro x hx; rw [hstep]; exact hmem x (List.mem_cons_of_mem _ hx)
    rw [ih (setCard s0 u) hnd' hmem', hstep]

theorem getChildCards_subset (s : State) (pid : String) :
    ∀ x ∈ getChildCards s pid, x ∈ s := by
  intro x hx
  unfold getChildCards at hx
  by_cases h : pid = ""
  · rw [if_pos h] at hx; simp at hx
  · rw [if_neg h] at hx
    have := (List.perm_insertionSort _
      (s.filter (fun c => c.parentId = some pid))).mem_iff.mp hx
    exact List.mem_of_mem_filter this

theorem getDescendantCardsFuel_subset (s : State) :
    ∀ (fuel : Nat) (pid : String), ∀ x ∈ getDescendantCardsFuel s fuel pid, x ∈ s := by
  intro fuel
  induction fuel with
  | zero => intro pid x hx; simp [getDescendantCardsFuel] at hx
  | succ n ih =>
    intro pid x hx
    unfold getDescendantCardsFuel at hx
    rcases List.mem_append.mp hx with h | h
    · exact getChildCards_subset s pid x h
    · rcases List.mem_flatMap.mp h with ⟨child, _, hx2⟩
      by_cases hcid : child.id = ""
      · rw [if_pos hcid] at hx2; simp at hx2
      · rw [if_neg hcid] at hx2; exact ih child.id x hx2

theorem getDescendantCards_subset (s : State) (pid : String) :
    ∀ x ∈ getDescendantCards s pid, x ∈ s :=
  getDescendantCardsFuel_subset s s.length pid

theorem adjustGroupHierarchy_idOrder (s : State) (pid : String) (diff : Int)
    (hnd : (s.map Card.id).Nodup) :
    (adjustGroupHierarchy s pid diff).map idOrder = s.map idOrder := by
  unfold adjustGroupHierarchy
  cases hc : getCard s pid with
  | none => rfl
  | some _ =>
    refine foldl_set_idOrder _ ?_ _ s hnd ?_
    · intro st d; exact ⟨_, rfl, rfl⟩
    · intro d hd
      exact List.mem_map.mpr ⟨d, getDescendantCards_subset s pid d hd, rfl⟩

theorem adjustCardHierarchy_idOrder (s : State) (card : Card) (newLevel : Int)
    (newParentId : Option String) (hnd : (s.map Card.id).Nodup) :
    ((adjustCardHierarchy s card newLevel newParentId).2).map idOrder =
      s.map idOrder := by
  unfold adjustCardHierarchy
  refine foldl_set_idOrder _ ?_ _ s hnd ?_
  · intro st d; exact ⟨_, rfl, rfl⟩
  · intro d hd
    exact List.mem_map.mpr ⟨d, getDescendantCards_subset s card.id d hd, rfl⟩

theorem updateCard_idOrder (s : State) (id : String) (p : CardUpdatePayload)
    (hnd : (s.map Card.id).Nodup) (hp : p.displayOrder = none) :
    ((updateCard s id p).2).map idOrder = s.map idOrder := by
  unfold updateCard
  cases hc : getCard s id with
  | none => rfl
  | some card =>
    obtain ⟨hmem, hcid⟩ := getCard_eq_some s id card hc
    have hord : (mergePayload card p).displayOrder = card.displayOrder := by
      simp [mergePayload, hp]
    cases hpc : p.content with
    | some raw =>
      apply setCard_idOrder_of_pair_mem _ _ hnd
      exact List.mem_map.mpr ⟨card, hmem, by simp [idOrder, mergePayload, hp]⟩
    | none =>
      apply setCard_idOrder_of_pair_mem _ _ hnd
      exact List.mem_map.mpr ⟨card, hmem, by simp [idOrder, mergePayload, hp]⟩

theorem adjustFollowingGo_idOrder (oldLevel levelDiff : Int) :
    ∀ (fuel : Nat) (st : State) (arr : List Card) (i : Nat),
      (st.map Card.id).Nodup →
      (∀ x ∈ arr, idOrder x ∈ st.map idOrder) →
      (adjustFollowingGo oldLevel levelDiff fuel st arr i).map idOrder =
        st.map idOrder := by
  intro fuel
  induction fuel with
  | zero => intro st arr i _ _; rfl
  | succ n ih =>
    intro st arr i hnd hmem
    unfold adjustFollowingGo
    cases hg : arr.get? i with
    | none => rfl
    | some followingCard =>
      dsimp only
      by_cases hlev : followingCard.hierarchyLevel > oldLevel
      · rw [if_pos hlev]
        have hfc : followingCard ∈ arr := by
          obtain ⟨hlt, hget⟩ := List.get?_eq_some.mp hg
          exact hget ▸ List.get_mem arr i hlt
        have hpair : idOrder followingCard ∈ st.map idOrder := hmem followingCard hfc
        have hstep : ∀ u : Card, idOrder u = idOrder followingCard →
            (setCard st u).map idOrder = st.map idOrder := fun u hu =>
          setCard_idOrder_of_pair_mem st u hnd (hu ▸ hpair)
        have h1 := hstep { followingCard with
          hierarchyLevel := max 1 (followingCard.hierarchyLevel + levelDiff)
          parentId := if max 1 (followingCard.hierarchyLevel + levelDiff) = 1 then none
                      else (findParentForLevel arr (max 1 (followingCard.hierarchyLevel + levelDiff)) i).map
                        (fun p => p.id) } rfl
        have hnd' : ((setCard st { followingCard with
            hierarchyLevel := max 1 (followingCard.hierarchyLevel + levelDiff)
            parentId := if max 1 (followingCard.hierarchyLevel + levelDiff) = 1 then none
                        else (findParentForLevel arr (max 1 (followingCard.hierarchyLevel + levelDiff)) i).map
                          (fun p => p.id) }).map Card.id).Nodup := by
          rw [map_id_of_map_idOrder h1]; exact hnd
        have hmem' : ∀ x ∈ arr.set i { followingCard with
            hierarchyLevel := max 1 (followingCard.hierarchyLevel + levelDiff)
            parentId := if max 1 (followingCard.hierarchyLevel + levelDiff) = 1 then none
                        else (findParentForLevel arr (max 1 (followingCard.hierarchyLevel + levelDiff)) i).map
                          (fun p => p.id) },
            idOrder x ∈ (setCard st { followingCard with
              hierarchyLevel := max 1 (followingCard.hierarchyLevel + levelDiff)
              parentId := if max 1 (followingCard.hierarchyLevel + levelDiff) = 1 then none
                          else (findParentForLevel arr (max 1 (followingCard.hierarchyLevel + levelDiff)) i).map
                            (fun p => p.id) }).map idOrder := by
          intro x hx
          rw [h1]
          rcases List.mem_or_eq_of_mem_set hx with h | h
          · exact hmem x h
          · rw [h]; exact hpair
        rw [ih _ _ _ hnd' hmem', h1]
      · rw [if_neg hlev]

theorem adjustFollowingCardsHierarchy_idOrder (s : State) (cardId : String)
    (oldLevel newLevel : Int) (hnd : (s.map Card.id).Nodup) :
    (adjustFollowingCardsHierarchy s cardId oldLevel newLevel).map idOrder =
      s.map idOrder := by
  simp only [adjustFollowingCardsHierarchy]
  cases hf : (sortedCards s).findIdx? (fun c => c.id = cardId) with
  | none => rfl
  | some cardIndex =>
    dsimp only
    by_cases hlen : cardIndex + 1 ≥ (sortedCards s).length
    · rw [if_pos hlen]
    · rw [if_neg hlen]
      refine adjustFollowingGo_idOrder _ _ _ s (sortedCards s) _ hnd ?_
      intro x hx
      exact List.mem_map.mpr ⟨x, (mem_sortedCards s x).mp hx, rfl⟩

theorem clearUnused_displayOrder (u : CardUpdatePayload)
    (da : DisplayAttribute) (sa : SemanticAttribute) :
    (clearUnusedAttributeFields u da sa).displayOrder = u.displayOrder := by
  cases da <;> cases sa <;> rfl

theorem indentCard_idOrder (s : State) (cardId : String)
    (hnd : (s.map Card.id).Nodup) :
    ((indentCard s cardId).2).map idOrder = s.map idOrder := by
  unfold indentCard
  cases hc : getCard s cardId with
  | none => rfl
  | some card =>
    dsimp only
    cases hf : (sortedCards s).findIdx? (fun c => c.id = cardId) with
    | none => rfl
    | some j =>
      cases j with
      | zero => rfl
      | succ i =>
        dsimp only
        cases hgp : (sortedCards s).get? i with
        | none => rfl
        | some previousCard =>
          dsimp only
          by_cases hguard : previousCard.hierarchyLevel < card.hierarchyLevel - 1
          · rw [if_pos hguard]
          · rw [if_neg hguard]
            show (adjustFollowingCardsHierarchy
              (adjustGroupHierarchy
                ((updateCard s cardId
                  { hierarchyLevel := some (previousCard.hierarchyLevel + 1)
                    parentId := some (some previousCard.id) }).2)
                cardId (previousCard.hierarchyLevel + 1 - card.hierarchyLevel))
              cardId card.hierarchyLevel (previousCard.hierarchyLevel + 1)).map idOrder =
              s.map idOrder
            have h1 : ((updateCard s cardId
                { hierarchyLevel := some (previousCard.hierarchyLevel + 1)
                  parentId := some (some previousCard.id) }).2).map idOrder =
                s.map idOrder := updateCard_idOrder s cardId _ hnd rfl
            have hnd1 : (((updateCard s cardId
                { hierarchyLevel := some (previousCard.hierarchyLevel + 1)
                  parentId := some (some previousCard.id) }).2).map Card.id).Nodup := by
              rw [map_id_of_map_idOrder h1]; exact hnd
            have h2 := adjustGroupHierarchy_idOrder _ cardId
              (previousCard.hierarchyLevel + 1 - card.hierarchyLevel) hnd1
            have hnd2 : ((adjustGroupHierarchy
                ((updateCard s cardId
                  { hierarchyLevel := some (previousCard.hierarchyLevel + 1)
                    parentId := some (some previousCard.id) }).2)
                cardId (previousCard.hierarchyLevel + 1 - card.hierarchyLevel)).map
                  Card.id).Nodup := by
              rw [map_id_of_map_idOrder h2]; exact hnd1
            have h3 := adjustFollowingCardsHierarchy_idOrder _ cardId
              card.hierarchyLevel (previousCard.hierarchyLevel + 1) hnd2
            rw [h3, h2, h1]

theorem outdentCard_idOrder (s : State) (cardId : String)
    (hnd : (s.map Card.id).Nodup) :
    ((outdentCard s cardId).2).map idOrder = s.map idOrder := by
  unfold outdentCard
  cases hc : getCard s cardId with
  | none => rfl
  | some card =>
    dsimp only
    by_cases hlev : card.hierarchyLevel ≤ 1
    · rw [if_pos hlev]
    · rw [if_neg hlev]
      cases hp : getParentCard s cardId with
      | none => rfl
      | some parentCard =>
        dsimp only
        show (adjustFollowingCardsHierarchy
          (adjustGroupHierarchy
            ((updateCard s cardId
              { hierarchyLevel := some (card.hierarchyLevel - 1)
                parentId := some parentCard.parentId }).2)
            cardId (card.hierarchyLevel - 1 - card.hierarchyLevel))
          cardId card.hierarchyLevel (card.hierarchyLevel - 1)).map idOrder =
          s.map idOrder
        have h1 : ((updateCard s cardId
            { hierarchyLevel := some (card.hierarchyLevel - 1)
              parentId := some parentCard.parentId }).2).map idOrder =
            s.map idOrder := updateCard_idOrder s cardId _ hnd rfl
        have hnd1 : (((updateCard s cardId
            { hierarchyLevel := some (card.hierarchyLevel - 1)
              parentId := some parentCard.parentId }).2).map Card.id).Nodup := by
          rw [map_id_of_map_idOrder h1]; exact hnd
        have h2 := adjustGroupHierarchy_idOrder _ cardId
          (card.hierarchyLevel - 1 - card.hierarchyLevel) hnd1
        have hnd2 : ((adjustGroupHierarchy
            ((updateCard s cardId
              { hierarchyLevel := some (card.hierarchyLevel - 1)
                parentId := some parentCard.parentId }).2)
            cardId (card.hierarchyLevel - 1 - card.hierarchyLevel)).map Card.id).Nodup := by
          rw [map_id_of_map_idOrder h2]; exact hnd1
        have h3 := adjustFollowingCardsHierarchy_idOrder _ cardId
          card.hierarchyLevel (card.hierarchyLevel - 1) hnd2
        rw [h3, h2, h1]

/-! ### recalculateDisplayOrder -/

theorem getCard_recalcFrom_not_mem (arr : List Card) :
    ∀ (s : State) (k : Int) (z : String), z ∉ arr.map Card.id →
      getCard (recalcFrom s arr k) z = getCard s z := by
  induction arr with
  | nil => intro s k z _; rfl
  | cons c t ih =>
    intro s k z h
    have hz : ¬ z = c.id := fun he => h (by simp [he])
    have ht : z ∉ t.map Card.id := fun he => h (by simp [he])
    show getCard (recalcFrom (setCard s { c with displayOrder := k }) t (k + 1)) z =
      getCard s z
    rw [ih _ _ _ ht, getCard_setCard, if_neg hz]

theorem recalcFrom_map_id (arr : List Card) :
    ∀ (s : State) (k : Int), (∀ c ∈ arr, c.id ∈ s.map Card.id) →
      (recalcFrom s arr k).map Card.id = s.map Card.id := by
  induction arr with
  | nil => intro s k _; rfl
  | cons c t ih =>
    intro s k hmem
    show (recalcFrom (setCard s { c with displayOrder := k }) t (k + 1)).map Card.id =
      s.map Card.id
    have hc : c.id ∈ s.map Card.id := hmem c (by simp)
    have hset : (setCard s { c with displayOrder := k }).map Card.id = s.map Card.id :=
      setCard_map_id_of_mem s _ hc
    rw [ih _ _ (fun x hx => by
      rw [hset]; exact hmem x (List.mem_cons_of_mem _ hx)), hset]

theorem getCard_recalcFrom_mem (arr : List Card) :
    ∀ (s : State) (k : Int) (j : Nat) (h : j < arr.length),
      (arr.map Card.id).Nodup →
      getCard (recalcFrom s arr k) (arr.get ⟨j, h⟩).id =
        some { arr.get ⟨j, h⟩ with displayOrder := k + j } := by
  induction arr with
  | nil => intro s k j h _; exact absurd h (by simp)
  | cons c t ih =>
    intro s k j h hnd
    rw [List.map_cons, List.nodup_cons] at hnd
    cases j with
    | zero =>
      show getCard (recalcFrom (setCard s { c with displayOrder := k }) t (k + 1)) c.id =
        some { c with displayOrder := k + (0 : Nat) }
      rw [getCard_recalcFrom_not_mem t _ _ _ hnd.1, getCard_setCard, if_pos rfl]
      norm_num
    | succ j' =>
      have hj' : j' < t.length := Nat.lt_of_succ_lt_succ h
      show getCard (recalcFrom (setCard s { c with displayOrder := k }) t (k + 1))
        (t.get ⟨j', hj'⟩).id = some { t.get ⟨j', hj'⟩ with displayOrder := k + (j' + 1 : Nat) }
      rw [ih _ _ j' hj' hnd.2]
      have : k + 1 + (j' : Int) = k + ((j' + 1 : Nat) : Int) := by push_cast; ring
      rw [this]

theorem filter_shift_orders (t_ids : List String) (c : Card) :
    ∀ (s : State), (s.map Card.id).Nodup → c.id ∈ s.map Card.id →
      c.id ∉ t_ids →
      displayOrders ((setCard s c).filter (fun x => decide (x.id ∉ t_ids))) =
        c.displayOrder ::ₘ
          displayOrders (s.filter (fun x => decide (x.id ∉ c.id :: t_ids))) := by
  intro s
  induction s with
  | nil => intro _ hmem _; simp at hmem
  | cons a u ih =>
    intro hnd hmem hct
    rw [List.map_cons, List.nodup_cons] at hnd
    by_cases ha : a.id = c.id
    · have hsc : setCard (a :: u) c = c :: u := by simp [setCard, ha]
      rw [hsc]
      have hkeep : (decide (c.id ∉ t_ids)) = true := by simp [hct]
      have hdropa : (decide (a.id ∉ c.id :: t_ids)) = false := by simp [ha]
      rw [List.filter_cons, hkeep, List.filter_cons, hdropa]
      have hcongr : u.filter (fun x => decide (x.id ∉ t_ids)) =
          u.filter (fun x => decide (x.id ∉ c.id :: t_ids)) := by
        apply List.filter_congr
        intro x hx
        have hxne : x.id ≠ c.id := by
          intro he
          exact hnd.1 (ha ▸ he ▸ List.mem_map.mpr ⟨x, hx, rfl⟩)
        simp [hxne]
      rw [hcongr]
      rfl
    · have hsc : setCard (a :: u) c = a :: setCard u c := by simp [setCard, ha]
      rw [hsc]
      have hcu : c.id ∈ u.map Card.id := by
        rcases List.mem_map.mp hmem with ⟨x, hx, hid⟩
        rcases List.mem_cons.mp hx with hx | hx
        · exact absurd (hx ▸ hid) ha
        · exact List.mem_map.mpr ⟨x, hx, hid⟩
      have hrec := ih hnd.2 hcu hct
      by_cases hak : a.id ∉ t_ids
      · have h1 : (decide (a.id ∉ t_ids)) = true := by simp [hak]
        have h2 : (decide (a.id ∉ c.id :: t_ids)) = true := by simp [hak, ha]
        rw [List.filter_cons, h1, List.filter_cons, h2]
        show a.displayOrder ::ₘ
            displayOrders ((setCard u c).filter (fun x => decide (x.id ∉ t_ids))) =
          c.displayOrder ::ₘ (a.displayOrder ::ₘ
            displayOrders (u.filter (fun x => decide (x.id ∉ c.id :: t_ids))))
        rw [hrec, Multiset.cons_swap]
      · have h1 : (decide (a.id ∉ t_ids)) = false := by
          simpa using not_not.mp (fun hh => hak hh)
        have h2 : (decide (a.id ∉ c.id :: t_ids)) = false := by
          have : a.id ∈ t_ids := not_not.mp (fun hh => hak hh)
          simp [this]
        rw [List.filter_cons, h1, List.filter_cons, h2]
        exact hrec

theorem recalcFrom_orders (arr : List Card) :
    ∀ (s : State) (k : Int),
      (arr.map Card.id).Nodup → (s.map Card.id).Nodup →
      (∀ c ∈ arr, c.id ∈ s.map Card.id) →
      displayOrders (recalcFrom s arr k) =
        displayOrders (s.filter (fun x => decide (x.id ∉ arr.map Card.id))) +
          (((List.range arr.length).map (fun n : Nat => k + (n : Int))) : List Int) := by
  induction arr with
  | nil =>
    intro s k _ _ _
    have : s.filter (fun x => decide (x.id ∉ ([] : List Card).map Card.id)) = s := by
      apply List.filter_eq_self.mpr
      intro x _
      simp
    rw [this]
    simp [recalcFrom]
  | cons c t ih =>
    intro s k hnda hnds hmem
    rw [List.map_cons, List.nodup_cons] at hnda
    have hc : c.id ∈ s.map Card.id := hmem c (by simp)
    have hset : (setCard s { c with displayOrder := k }).map Card.id = s.map Card.id :=
      setCard_map_id_of_mem s _ hc
    show displayOrders (recalcFrom (setCard s { c with displayOrder := k }) t (k + 1)) = _
    rw [ih (setCard s { c with displayOrder := k }) (k + 1) hnda.2
      (by rw [hset]; exact hnds)
      (fun x hx => by rw [hset]; exact hmem x (List.mem_cons_of_mem _ hx))]
    have hshift := filter_shift_orders (t.map Card.id) { c with displayOrder := k }
      s hnds hc hnda.1
    rw [hshift]
    have hrange : (((List.range (t.length + 1)).map (fun n : Nat => k + (n : Int))) :
        Multiset Int) =
        k ::ₘ (((List.range t.length).map (fun n : Nat => k + 1 + (n : Int))) : List Int) := by
      rw [List.range_succ_eq_map]
      simp only [List.map_cons, List.map_map]
      have : ((fun n : Nat => k + (n : Int)) ∘ Nat.succ) = (fun n : Nat => k + 1 + (n : Int)) := by
        funext n
        show k + ((n + 1 : Nat) : Int) = k + 1 + (n : Int)
        push_cast
        ring
      rw [this]
      simp [Multiset.cons_coe]
    show _ = displayOrders (s.filter (fun x => decide (x.id ∉ c.id :: t.map Card.id))) +
      (((List.range (t.length + 1)).map (fun n : Nat => k + (n : Int))) : List Int)
    rw [hrange]
    have : ({ c with displayOrder := k } : Card).displayOrder = k := rfl
    rw [this]
    rw [Multiset.cons_add, Multiset.add_cons]

theorem recalc_displayOrders (s : State) (arr : List Card)
    (hnda : (arr.map Card.id).Nodup) (hnds : (s.map Card.id).Nodup)
    (hperm : (arr.map Card.id).Perm (s.map Card.id)) :
    displayOrders (recalculateDisplayOrder s arr) =
      (((List.range arr.length).map (fun n : Nat => (n : Int))) : List Int) := by
  unfold recalculateDisplayOrder
  rw [recalcFrom_orders arr s 0 hnda hnds
    (fun c hc => hperm.mem_iff.mp (List.mem_map.mpr ⟨c, hc, rfl⟩))]
  have hempty : s.filter (fun x => decide (x.id ∉ arr.map Card.id)) = [] := by
    rw [List.filter_eq_nil_iff]
    intro x hx
    have : x.id ∈ arr.map Card.id := hperm.mem_iff.mpr (List.mem_map.mpr ⟨x, hx, rfl⟩)
    simp [this]
  rw [hempty]
  have : ((List.range arr.length).map (fun n : Nat => (0 : Int) + (n : Int))) =
      ((List.range arr.length).map (fun n : Nat => (n : Int))) := by
    apply List.map_congr_left
    intro n _
    ring
  rw [this]
  simp [displayOrders]

/-! ### Splice and array-refresh machinery for the group move -/

theorem spliceRemove_perm (l : List α) (st c : Nat) :
    ((spliceRemove l st c).1 ++ (spliceRemove l st c).2).Perm l := by
  show (((l.drop st).take c) ++ (l.take st ++ l.drop (st + c))).Perm l
  have step1 : (((l.drop st).take c) ++ (l.take st ++ l.drop (st + c))).Perm
      ((l.take st ++ ((l.drop st).take c)) ++ l.drop (st + c)) := by
    rw [← List.append_assoc]
    exact (List.perm_append_comm).append_right _
  have step2 : (l.take st ++ ((l.drop st).take c)) ++ l.drop (st + c) = l := by
    rw [List.append_assoc]
    have h1 : l.drop (st + c) = (l.drop st).drop c := by rw [List.drop_drop]
    rw [h1, List.take_append_drop, List.take_append_drop]
  have step3 : ((l.take st ++ ((l.drop st).take c)) ++ l.drop (st + c)).Perm l := by
    rw [step2]
  exact step1.trans step3

theorem spliceInsert_perm (l : List α) (start : Int) (items : List α) :
    (spliceInsert l start items).Perm (items ++ l) := by
  have h : ∀ K : Nat, ((l.take K ++ items) ++ l.drop K).Perm (items ++ l) := by
    intro K
    have h1 : ((l.take K ++ items) ++ l.drop K).Perm
        ((items ++ l.take K) ++ l.drop K) :=
      (List.perm_append_comm).append_right _
    have h2 : (items ++ l.take K) ++ l.drop K = items ++ l := by
      rw [List.append_assoc, List.take_append_drop]
    exact h2 ▸ h1
  show (l.take _ ++ items ++ l.drop _).Perm (items ++ l)
  exact h _

theorem list_set_self (l : List α) (i : Nat) (a : α) (h : l[i]? = some a) :
    l.set i a = l := by
  apply List.ext_getElem?
  intro j
  by_cases hij : i = j
  · subst hij
    have hlt : i < l.length := by
      by_contra hge
      rw [List.getElem?_eq_none (Nat.le_of_not_lt hge)] at h
      exact Option.noConfusion h
    rw [List.getElem?_set_self hlt, h]
  · rw [List.getElem?_set_ne hij]

theorem map_id_set_found (arr : List Card) (pid : String) (di : Nat) (u : Card)
    (hf : arr.findIdx? (fun c => c.id = pid) = some di) (hu : u.id = pid) :
    (arr.set di u).map Card.id = arr.map Card.id := by
  obtain ⟨hlt, hp, _⟩ := List.findIdx?_eq_some_iff_getElem.mp hf
  rw [List.map_set]
  apply list_set_self
  have hid : arr[di].id = pid := by simpa using hp
  rw [List.getElem?_map, List.getElem?_eq_getElem hlt]
  simp [hu, hid]

theorem refresh_fold_map_id (s1 : State) (ds : List Card) :
    ∀ (arr : List Card),
      ((ds.foldl (fun arr descendant =>
        match arr.findIdx? (fun c => c.id = descendant.id) with
        | none => arr
        | some descendantIndex =>
          match getCard s1 descendant.id with
          | none => arr
          | some updatedDescendant => arr.set descendantIndex updatedDescendant)
        arr).map Card.id) = arr.map Card.id := by
  induction ds with
  | nil => intro arr; rfl
  | cons d t ih =>
    intro arr
    rw [List.foldl_cons]
    cases hf : arr.findIdx? (fun c => c.id = d.id) with
    | none => exact ih arr
    | some di =>
      cases hg : getCard s1 d.id with
      | none => exact ih arr
      | some u =>
        exact (ih (arr.set di u)).trans
          (map_id_set_found arr d.id di u hf (getCard_eq_some s1 d.id u hg).2)

theorem movedGroup_head_id (l : List Card) (cardId : String) (ci len : Nat)
    (movedCard : Card)
    (hf : l.findIdx? (fun c => c.id = cardId) = some ci)
    (hh : ((l.drop ci).take len).head? = some movedCard) :
    movedCard.id = cardId := by
  obtain ⟨hlt, hp, _⟩ := List.findIdx?_eq_some_iff_getElem.mp hf
  rw [List.head?_take] at hh
  by_cases hlen : len = 0
  · rw [if_pos hlen] at hh; exact Option.noConfusion hh
  · rw [if_neg hlen, List.head?_drop, List.getElem?_eq_getElem hlt] at hh
    have : l[ci] = movedCard := Option.some_injective _ hh
    rw [← this]
    simpa using hp

theorem recalc_spec (s s1 : State) (arr3 : List Card)
    (hnd : (s.map Card.id).Nodup)
    (hids1 : s1.map Card.id = s.map Card.id)
    (hperm3 : (arr3.map Card.id).Perm (s.map Card.id)) :
    (recalculateDisplayOrder s1 arr3).map Card.id = s.map Card.id ∧
    displayOrders (recalculateDisplayOrder s1 arr3) =
      (((List.range s.length).map (fun n : Nat => (n : Int))) : List Int) := by
  have hnd1 : (s1.map Card.id).Nodup := by rw [hids1]; exact hnd
  have hnd3 : (arr3.map Card.id).Nodup := hperm3.nodup_iff.mpr hnd
  have hmem : ∀ c ∈ arr3, c.id ∈ s1.map Card.id := by
    intro c hc
    rw [hids1]
    exact hperm3.mem_iff.mp (List.mem_map.mpr ⟨c, hc, rfl⟩)
  constructor
  · rw [recalculateDisplayOrder] at *
    rw [recalcFrom_map_id arr3 s1 0 hmem, hids1]
  · have hlen : arr3.length = s.length := by
      have h := hperm3.length_eq
      simpa using h
    rw [← hlen]
    refine recalc_displayOrders s1 arr3 hnd3 hnd1 ?_
    rw [hids1]
    exact hperm3

theorem arr2_map_id_perm (s : State) (ci len : Nat) (adjT : Int) :
    ((spliceInsert (spliceRemove (sortedCards s) ci len).2 adjT
        (spliceRemove (sortedCards s) ci len).1).map Card.id).Perm
      (s.map Card.id) := by
  have h1 := (spliceInsert_perm (spliceRemove (sortedCards s) ci len).2 adjT
    (spliceRemove (sortedCards s) ci len).1).map Card.id
  have h2 := (spliceRemove_perm (sortedCards s) ci len).map Card.id
  have h3 := (sortedCards_perm s).map Card.id
  exact h1.trans (h2.trans h3)

theorem arr3_map_id (s1 : State) (arr2 : List Card) (cardId : String)
    (adjustedCard : Card) (hadj : adjustedCard.id = cardId) :
    (((match arr2.findIdx? (fun c => c.id = cardId) with
      | none => arr2
      | some movedCardIndex =>
        ((getDescendantCards s1 cardId).foldl (fun arr descendant =>
          match arr.findIdx? (fun c => c.id = descendant.id) with
          | none => arr
          | some descendantIndex =>
            match getCard s1 descendant.id with
            | none => arr
            | some updatedDescendant => arr.set descendantIndex updatedDescendant)
          (arr2.set movedCardIndex adjustedCard))) : List Card)).map Card.id =
      arr2.map Card.id := by
  cases hm : arr2.findIdx? (fun c => c.id = cardId) with
  | none => rfl
  | some mci =>
    exact (refresh_fold_map_id s1 _ _).trans
      (map_id_set_found arr2 cardId mci adjustedCard hm hadj)

theorem moveCardGroupToPosition_spec (s : State) (cardId : String)
    (targetIndex : Int) (hnd : (s.map Card.id).Nodup) :
    ((moveCardGroupToPosition s cardId targetIndex).2).map Card.id = s.map Card.id ∧
    ((moveCardGroupToPosition s cardId targetIndex).1 = true →
      displayOrders ((moveCardGroupToPosition s cardId targetIndex).2) =
        (((List.range s.length).map (fun n : Nat => (n : Int))) : List Int)) ∧
    ((moveCardGroupToPosition s cardId targetIndex).1 = false →
      (moveCardGroupToPosition s cardId targetIndex).2 = s) := by
  simp only [moveCardGroupToPosition]
  by_cases hempty : (getCardGroupForMove s cardId).isEmpty = true
  · rw [if_pos hempty]
    exact ⟨rfl, fun h => absurd h (by simp), fun _ => rfl⟩
  · rw [if_neg hempty]
    cases hfind : (sortedCards s).findIdx? (fun c => c.id = cardId) with
    | none => exact ⟨rfl, fun h => absurd h (by simp), fun _ => rfl⟩
    | some currentIndex =>
      dsimp only
      by_cases hbound : targetIndex < 0 ∨ targetIndex > ((sortedCards s).length : Int)
      · rw [if_pos hbound]
        exact ⟨rfl, fun h => absurd h (by simp), fun _ => rfl⟩
      · rw [if_neg hbound]
        cases hhead : ((spliceRemove (sortedCards s) currentIndex
            (getCardGroupForMove s cardId).length).1).head? with
        | none => exact ⟨rfl, fun h => absurd h (by simp), fun _ => rfl⟩
        | some movedCard =>
          dsimp only
          have hmid : movedCard.id = cardId :=
            movedGroup_head_id (sortedCards s) cardId currentIndex
              (getCardGroupForMove s cardId).length movedCard hfind hhead
          have hids1 := map_id_of_map_idOrder
            (adjustCardHierarchy_idOrder s movedCard
              (determineTargetHierarchyLevel targetIndex.toNat (sortedCards s)).1
              (determineTargetHierarchyLevel targetIndex.toNat (sortedCards s)).2 hnd)
          have harr3 := arr3_map_id
            ((adjustCardHierarchy s movedCard
              (determineTargetHierarchyLevel targetIndex.toNat (sortedCards s)).1
              (determineTargetHierarchyLevel targetIndex.toNat (sortedCards s)).2).2)
            (spliceInsert
              (spliceRemove (sortedCards s) currentIndex
                (getCardGroupForMove s cardId).length).2
              (if targetIndex > (currentIndex : Int) then
                targetIndex - (getCardGroupForMove s cardId).length
              else targetIndex)
              (spliceRemove (sortedCards s) currentIndex
                (getCardGroupForMove s cardId).length).1)
            cardId
            ((adjustCardHierarchy s movedCard
              (determineTargetHierarchyLevel targetIndex.toNat (sortedCards s)).1
              (determineTargetHierarchyLevel targetIndex.toNat (sortedCards s)).2).1)
            hmid
          have hperm3 := harr3 ▸ (arr2_map_id_perm s currentIndex
            (getCardGroupForMove s cardId).length
            (if targetIndex > (currentIndex : Int) then
              targetIndex - (getCardGroupForMove s cardId).length
            else targetIndex))
          have hspec := recalc_spec s _ _ hnd hids1 hperm3
          exact ⟨hspec.1, fun _ => hspec.2, fun h => absurd h (by simp)⟩

theorem moveCardWithHierarchyIntegrity_spec (s : State) (cardId : String)
    (direction : Dir) (hnd : (s.map Card.id).Nodup) :
    ((moveCardWithHierarchyIntegrity s cardId direction).2).map Card.id = s.map Card.id ∧
    ((moveCardWithHierarchyIntegrity s cardId direction).1 = true →
      displayOrders ((moveCardWithHierarchyIntegrity s cardId direction).2) =
        (((List.range s.length).map (fun n : Nat => (n : Int))) : List Int)) ∧
    ((moveCardWithHierarchyIntegrity s cardId direction).1 = false →
      (moveCardWithHierarchyIntegrity s cardId direction).2 = s) := by
  simp only [moveCardWithHierarchyIntegrity]
  by_cases hempty : (getCardGroupForMove s cardId).isEmpty = true
  · rw [if_pos hempty]
    exact ⟨rfl, fun h => absurd h (by simp), fun _ => rfl⟩
  · rw [if_neg hempty]
    cases hfind : (sortedCards s).findIdx? (fun c => c.id = cardId) with
    | none => exact ⟨rfl, fun h => absurd h (by simp), fun _ => rfl⟩
    | some currentIndex =>
      cases direction with
      | up =>
        dsimp only
        by_cases hpos : currentIndex > 0
        · rw [if_pos hpos]
          cases hget : (sortedCards s).get? (currentIndex - 1) with
          | none => exact ⟨rfl, fun h => absurd h (by simp), fun _ => rfl⟩
          | some prevCard =>
            exact moveCardGroupToPosition_spec s cardId _ hnd
        · rw [if_neg hpos]
          exact ⟨rfl, fun h => absurd h (by simp), fun _ => rfl⟩
      | down =>
        dsimp only
        by_cases hrange : currentIndex + (getCardGroupForMove s cardId).length <
            (sortedCards s).length
        · rw [if_pos hrange]
          cases hget : (sortedCards s).get?
              (currentIndex + (getCardGroupForMove s cardId).length) with
          | none => exact ⟨rfl, fun h => absurd h (by simp), fun _ => rfl⟩
          | some nextCard =>
            exact moveCardGroupToPosition_spec s cardId _ hnd
        · rw [if_neg hrange]
          exact ⟨rfl, fun h => absurd h (by simp), fun _ => rfl⟩

theorem updateCardAttribute_idOrder (s : State) (id : String)
    (da : DisplayAttribute) (sa : SemanticAttribute)
    (hnd : (s.map Card.id).Nodup) :
    ((updateCardAttribute s id da sa).2).map idOrder = s.map idOrder := by
  unfold updateCardAttribute
  cases hc : getCard s id with
  | none => rfl
  | some _ =>
    exact updateCard_idOrder s id _ hnd
      ((clearUnused_displayOrder _ da sa).trans rfl)

/-- The payload restriction of the amended order-permutation claim: `updateCard`
payloads may not carry a `displayOrder` key. -/
def payloadOk : Op → Bool
  | .update _ p => p.displayOrder = none
  | _ => true

theorem idOrder_preserves_orderPermutation {s s' : State}
    (h : s'.map idOrder = s.map idOrder) (hperm : orderPermutation s) :
    orderPermutation s' := by
  unfold orderPermutation displayOrders at *
  rw [map_displayOrder_of_map_idOrder h]
  have hlen : s'.length = s.length := by
    have := congrArg List.length (map_id_of_map_idOrder h)
    simpa using this
  rw [hlen]
  exact hperm

theorem applyOp_preserves (s : State) (op : Op)
    (hnd : (s.map Card.id).Nodup) (hok : payloadOk op = true)
    (hperm : orderPermutation s) :
    (applyOp s op).map Card.id = s.map Card.id ∧ orderPermutation (applyOp s op) := by
  have hmove : ∀ cardId targetIndex,
      ((moveCardGroupToPosition s cardId targetIndex).2).map Card.id = s.map Card.id ∧
      orderPermutation (moveCardGroupToPosition s cardId targetIndex).2 := by
    intro cardId targetIndex
    obtain ⟨h1, h2, h3⟩ := moveCardGroupToPosition_spec s cardId targetIndex hnd
    refine ⟨h1, ?_⟩
    cases hfst : (moveCardGroupToPosition s cardId targetIndex).1 with
    | true =>
      unfold orderPermutation
      rw [h2 hfst]
      have hlen : (moveCardGroupToPosition s cardId targetIndex).2.length = s.length := by
        have := congrArg List.length h1
        simpa using this
      rw [hlen]
    | false => rw [h3 hfst]; exact hperm
  cases op with
  | indent cardId =>
    have h := indentCard_idOrder s cardId hnd
    exact ⟨map_id_of_map_idOrder h, idOrder_preserves_orderPermutation h hperm⟩
  | outdent cardId =>
    have h := outdentCard_idOrder s cardId hnd
    exact ⟨map_id_of_map_idOrder h, idOrder_preserves_orderPermutation h hperm⟩
  | update cardId p =>
    have hp : p.displayOrder = none := of_decide_eq_true hok
    have h := updateCard_idOrder s cardId p hnd hp
    exact ⟨map_id_of_map_idOrder h, idOrder_preserves_orderPermutation h hperm⟩
  | updateAttribute cardId da sa =>
    have h := updateCardAttribute_idOrder s cardId da sa hnd
    exact ⟨map_id_of_map_idOrder h, idOrder_preserves_orderPermutation h hperm⟩
  | moveToPosition cardId targetIndex => exact hmove cardId targetIndex
  | move cardId direction =>
    show (moveCardWithHierarchyIntegrity s cardId direction).2.map Card.id = s.map Card.id ∧
      orderPermutation (moveCardWithHierarchyIntegrity s cardId direction).2
    obtain ⟨h1, h2, h3⟩ := moveCardWithHierarchyIntegrity_spec s cardId direction hnd
    refine ⟨h1, ?_⟩
    cases hfst : (moveCardWithHierarchyIntegrity s cardId direction).1 with
    | true =>
      unfold orderPermutation
      rw [h2 hfst]
      have hlen : (moveCardWithHierarchyIntegrity s cardId direction).2.length =
          s.length := by
        have := congrArg List.length h1
        simpa using this
      rw [hlen]
    | false => rw [h3 hfst]; exact hperm

/-! ### Bulk creation from a split document -/

theorem createCard_foldl_append :
    ∀ (ps : List (Nat × String × String)) (st : State),
      (∀ p ∈ ps, p.2.1 ∉ st.map Card.id) → (ps.map (fun p => p.2.1)).Nodup →
      ps.foldl (fun st p => (createCard st p.2.1 p.2.2 (p.1 : Int)).2) st =
        st ++ ps.map (fun p => (createCard [] p.2.1 p.2.2 (p.1 : Int)).1) := by
  intro ps
  induction ps with
  | nil => intro st _ _; simp
  | cons p t ih =>
    intro st hfresh hnd
    rw [List.map_cons, List.nodup_cons] at hnd
    rw [List.foldl_cons]
    have hset : (createCard st p.2.1 p.2.2 (p.1 : Int)).2 =
        st ++ [(createCard [] p.2.1 p.2.2 (p.1 : Int)).1] := by
      show setCard st _ = _
      exact setCard_append_of_not_mem st _ (hfresh p (by simp))
    rw [hset, ih _ ?_ hnd.2]
    · simp
    · intro q hq
      rw [List.map_append]
      intro hmem
      rcases List.mem_append.mp hmem with h | h
      · exact hfresh q (List.mem_cons_of_mem _ hq) h
      · have : q.2.1 = p.2.1 := by simpa using h
        exact hnd.1 (this ▸ List.mem_map.mpr ⟨q, hq, rfl⟩)

theorem bulkCreateFromSplit_eq (items : List (String × String))
    (hids : (items.map Prod.fst).Nodup) :
    bulkCreateFromSplit items =
      items.enum.map (fun p => (createCard [] p.2.1 p.2.2 (p.1 : Int)).1) := by
  unfold bulkCreateFromSplit
  have hnd : (items.enum.map (fun p => p.2.1)).Nodup := by
    have h : items.enum.map (fun p => p.2.1) = items.map Prod.fst := by
      have := List.enum_map_snd items
      calc items.enum.map (fun p => p.2.1) =
          (items.enum.map Prod.snd).map Prod.fst := by rw [List.map_map]; rfl
        _ = items.map Prod.fst := by rw [this]
    rw [h]
    exact hids
  rw [createCard_foldl_append items.enum [] (by intro p _; simp) hnd]
  simp

theorem bulkCreateFromSplit_map_id (items : List (String × String))
    (hids : (items.map Prod.fst).Nodup) :
    (bulkCreateFromSplit items).map Card.id = items.map Prod.fst := by
  rw [bulkCreateFromSplit_eq items hids, List.map_map]
  have h : (Card.id ∘ fun p : Nat × String × String =>
      (createCard [] p.2.1 p.2.2 (p.1 : Int)).1) = fun p => p.2.1 := by
    funext p; rfl
  rw [h]
  calc items.enum.map (fun p => p.2.1) =
      (items.enum.map Prod.snd).map Prod.fst := by rw [List.map_map]; rfl
    _ = items.map Prod.fst := by rw [List.enum_map_snd]

theorem bulkCreateFromSplit_orderPermutation (items : List (String × String))
    (hids : (items.map Prod.fst).Nodup) :
    orderPermutation (bulkCreateFromSplit items) := by
  unfold orderPermutation displayOrders
  rw [bulkCreateFromSplit_eq items hids, List.map_map]
  have h1 : (Card.displayOrder ∘ fun p : Nat × String × String =>
      (createCard [] p.2.1 p.2.2 (p.1 : Int)).1) = (fun p => (p.1 : Int)) := by
    funext p; rfl
  rw [h1]
  have h2 : items.enum.map (fun p : Nat × String × String => (p.1 : Int)) =
      (items.enum.map Prod.fst).map (fun n : Nat => (n : Int)) := by
    rw [List.map_map]; rfl
  rw [h2, List.enum_map_fst]
  have h3 : (items.enum.map (fun p => (createCard [] p.2.1 p.2.2 (p.1 : Int)).1)).length =
      items.length := by simp
  rw [h3]

/-! ## Claim C1: the display-order permutation invariant -/

theorem runOps_wf (items : List (String × String)) (hids : (items.map Prod.fst).Nodup) :
    ∀ (ops : List Op) (s : State), s.map Card.id = items.map Prod.fst →
      orderPermutation s → (∀ op ∈ ops, payloadOk op = true) →
      (ops.foldl applyOp s).map Card.id = items.map Prod.fst ∧
        orderPermutation (ops.foldl applyOp s) := by
  intro ops
  induction ops with
  | nil => intro s h1 h2 _; exact ⟨h1, h2⟩
  | cons op rest ih =>
    intro s h1 h2 hok
    rw [List.foldl_cons]
    have hnd : (s.map Card.id).Nodup := by rw [h1]; exact hids
    obtain ⟨ha, hb⟩ := applyOp_preserves s op hnd (hok op (by simp)) h2
    exact ih (applyOp s op) (ha.trans h1) hb
      (fun o ho => hok o (List.mem_cons_of_mem _ ho))

/-- C1 (counterexample): the claim as stated fails, because `updateCard` is a
public mutating operation and its payload may carry a `displayOrder` key, which
is merged verbatim: one `updateCard` call on a two-card store leaves display
orders {5, 1} instead of {0, 1}. -/
theorem C1_counterexample :
    ¬ orderPermutation (runOps [("a", "A"), ("b", "B")]
      [.update "a" { displayOrder := some 5 }]) := by decide

/-- C1 (amended): after bulk card creation from a split document (distinct
generated ids) and any sequence of the public mutating operations whose
`updateCard` payloads do not carry a `displayOrder` key, the multiset of
`displayOrder` values over all cards is exactly {0, …, N−1}. -/
theorem C1_order_permutation (items : List (String × String)) (ops : List Op)
    (hids : (items.map Prod.fst).Nodup)
    (hok : ∀ op ∈ ops, payloadOk op = true) :
    orderPermutation (runOps items ops) :=
  (runOps_wf items hids ops (bulkCreateFromSplit items)
    (bulkCreateFromSplit_map_id items hids)
    (bulkCreateFromSplit_orderPermutation items hids) hok).2

/-- C1 (witness): the amended invariant, evaluated on a concrete three-card
store mutated by two indents, a group move and a content update. -/
theorem C1_order_permutation_witness :
    orderPermutation (runOps [("a", "A"), ("b", "B"), ("c", "C")]
      [.indent "c", .indent "b", .move "a" .down,
       .update "b" { content := some " edited " }]) :=
  C1_order_permutation _ _ (by decide) (by decide)

/-! ## Claims C2 and C3: the hierarchy invariants fail on reachable stores -/

/-- Three cards split flat, then indent the third (making it a child of the
second), then indent the second: the double level adjustment of
`adjustGroupHierarchy` followed by `adjustFollowingCardsHierarchy`. -/
def threeFlat : List (String × String) := [("a", "A"), ("b", "B"), ("c", "C")]

def stateBeforeSecondIndent : State := runOps threeFlat [.indent "c"]

def stateAfterSecondIndent : State := runOps threeFlat [.indent "c", .indent "b"]

/-- C2: the level/parent consistency invariant holds after the first indent
but is violated by the second: card "c" ends at hierarchyLevel 4 with no
parentId (its level was adjusted once by `adjustGroupHierarchy` and again by
`adjustFollowingCardsHierarchy`, whose `findParentForLevel` then fails and
clears the parent). -/
theorem C2_level_parent_violation :
    levelParentConsistent stateBeforeSecondIndent ∧
    ¬ levelParentConsistent stateAfterSecondIndent ∧
    (getCard stateAfterSecondIndent "c").map
      (fun c => (c.hierarchyLevel, c.parentId)) = some (4, none) := by
  refine ⟨by decide, by decide, by decide⟩

/-- The split document and operation sequence on which subtree contiguity
breaks: all seven operations are public mutations from a flat six-card split. -/
def sixFlat : List (String × String) :=
  [("w", "W"), ("x", "X"), ("c", "C"), ("t", "T"), ("p", "P"), ("f", "F")]

def contigOpsPrefix : List Op :=
  [.indent "x", .indent "c", .indent "t", .outdent "t", .outdent "t",
   .moveToPosition "p" 1]

def stateContigOk : State := runOps sixFlat contigOpsPrefix

def stateContigBroken : State := runOps sixFlat (contigOpsPrefix ++ [.indent "x"])

/-- C3: subtree contiguity (and the other invariants) hold after the first six
operations, but the seventh (`indentCard "x"`) detaches card "c" (double level
shift to 5 with cleared parent) while leaving card "t" a descendant of "w"
behind it: the descendants of "w" then occupy display positions {1, 2, 4}
around the non-descendant "c" at position 3. -/
theorem C3_subtree_contiguity_violation :
    subtreeContiguous stateContigOk ∧
    ¬ subtreeContiguous stateContigBroken ∧
    ((getDescendantCards stateContigBroken "w").map
      (fun c => (c.id, c.displayOrder))) = [("p", 1), ("t", 4), ("x", 2)] ∧
    (getCard stateContigBroken "c").map
      (fun c => (c.displayOrder, c.hierarchyLevel, c.parentId)) =
      some (3, 5, none) := by
  refine ⟨by decide, by decide, by decide, by decide⟩

/-! ## Claim C4: moves and the moved subtree -/

/-- C4 (counterexample): on the reachable store `stateContigBroken` (whose
"w"-subtree is no longer contiguous), `moveCardToPosition "w" 6` succeeds but
reverses the relative display order of the subtree of "w": the subtree cards
appear in display order as w, p, x, t before the move and as t, w, p, x after
it. -/
theorem C4_counterexample :
    (moveCardToPosition stateContigBroken "w" 6).1 = true ∧
    ((sortedCards stateContigBroken).filter (fun c =>
      ((getCardGroupForMove stateContigBroken "w").map Card.id).contains c.id)).map
        Card.id = ["w", "p", "x", "t"] ∧
    ((sortedCards (moveCardToPosition stateContigBroken "w" 6).2).filter (fun c =>
      ((getCardGroupForMove stateContigBroken "w").map Card.id).contains c.id)).map
        Card.id = ["t", "w", "p", "x"] := by
  refine ⟨by decide, by decide, by decide⟩

/-! ## Claim C5: the indent contract -/

/-- C5 (counterexample): indenting card "b" (which has the descendant "c")
succeeds and changes "b" by the level delta +1 (level 1 → 2), but its
descendant "c" moves by +2 (level 2 → 4), not by the same delta: the descendant
subtree is shifted once by `adjustGroupHierarchy` and once more by
`adjustFollowingCardsHierarchy`. -/
theorem C5_counterexample :
    (indentCard stateBeforeSecondIndent "b").1 = true ∧
    (getCard stateBeforeSecondIndent "b").map Card.hierarchyLevel = some 1 ∧
    (getCard (indentCard stateBeforeSecondIndent "b").2 "b").map
      Card.hierarchyLevel = some 2 ∧
    (getCard stateBeforeSecondIndent "c").map Card.hierarchyLevel = some 2 ∧
    (getCard (indentCard stateBeforeSecondIndent "b").2 "c").map
      Card.hierarchyLevel = some 4 := by
  refine ⟨by decide, by decide, by decide, by decide, by decide⟩

/-! ## Claim C6: moveCardToPosition onto the current index -/

/-- C6 (counterexample): on the reachable store `stateAfterSecondIndent`,
card "c" sits at display index 2; `moveCardToPosition "c" 2` returns true but
rewrites the card's hierarchyLevel from 4 to 2 and its parentId from none to
"a" (the resolver output for that position), so the self-move is not a
no-op. -/
theorem C6_counterexample :
    (sortedCards stateAfterSecondIndent).findIdx? (fun c => c.id = "c") = some 2 ∧
    (moveCardToPosition stateAfterSecondIndent "c" 2).1 = true ∧
    (getCard stateAfterSecondIndent "c").map
      (fun c => (c.hierarchyLevel, c.parentId)) = some (4, none) ∧
    (getCard (moveCardToPosition stateAfterSecondIndent "c" 2).2 "c").map
      (fun c => (c.hierarchyLevel, c.parentId)) = some (2, some "a") := by
  refine ⟨by decide, by decide, by decide, by decide⟩

/-! ## Claim C7: indent then outdent -/

def twoFlatIndented : State := runOps [("a", "A"), ("b", "B")] [.indent "b"]

/-- C7 (counterexample): card "b" is at level 2 under "a"; `indentCard "b"`
succeeds again (the predecessor "a" is exactly one level up, so the indent is
a level-preserving no-op on "b"), but the immediately following
`outdentCard "b"` then moves "b" to level 1 with no parent — the state before
the indent is not restored. -/
theorem C7_counterexample :
    (getCard twoFlatIndented "b").map (fun c => (c.hierarchyLevel, c.parentId)) =
      some (2, some "a") ∧
    (indentCard twoFlatIndented "b").1 = true ∧
    (outdentCard (indentCard twoFlatIndented "b").2 "b").1 = true ∧
    (getCard (outdentCard (indentCard twoFlatIndented "b").2 "b").2 "b").map
      (fun c => (c.hierarchyLevel, c.parentId)) = some (1, none) := by
  refine ⟨by decide, by decide, by decide, by decide⟩

/-! ## Claim C9: load-time hierarchy validation is version-gated -/

/-- A save document at format version "1.0.0" whose only card has
`hierarchyLevel 2` and no `parentId`; every unconditionally-checked field is
well-formed. -/
def oldVersionDoc : JsonDoc :=
  { version := some "1.0.0"
    originalFile := some "f.txt"
    timestamp := some "t"
    cards := some [{ id := some "c1", position := some 0, content := some "x",
                     status := some "unprocessed", createdAt := some "d",
                     updatedAt := some "d", hierarchyLevel := some 2,
                     parentId := none }] }

/-- C9 (counterexample): the document contains a card with hierarchyLevel > 1
and no parentId, yet `validateSaveData` reports no error (the hierarchy checks
only run when the version equals "1.4.0" or exceeds "1.3.0") and
`parseSaveData` loads it. -/
theorem C9_counterexample :
    ((oldVersionDoc.cards.getD []).any (fun c =>
      decide ((c.hierarchyLevel.getD 1) > 1) && decide (c.parentId = none))) = true ∧
    (validateSaveData (fun _ => true) (some oldVersionDoc)).isValid = true ∧
    (validateSaveData (fun _ => true) (some oldVersionDoc)).errors = [] ∧
    ((parseSaveData (fun _ => true) (some oldVersionDoc)).1).isSome = true := by
  refine ⟨by decide, by decide, by decide, by decide⟩

/-! ## Pivot preservation through the hierarchy phases -/

theorem getCard_foldl_setCard_not_mem (f : Card → Card)
    (hf : ∀ d, (f d).id = d.id) :
    ∀ (ds : List Card) (st : State) (z : String), z ∉ ds.map Card.id →
      getCard (ds.foldl (fun st d => setCard st (f d)) st) z = getCard st z := by
  intro ds
  induction ds with
  | nil => intro st z _; rfl
  | cons d t ih =>
    intro st z hz
    have hzd : ¬ z = (f d).id := by
      rw [hf]; intro h; exact hz (by simp [h])
    have hzt : z ∉ t.map Card.id := fun h => hz (by simp [h])
    rw [List.foldl_cons, ih _ z hzt, getCard_setCard, if_neg hzd]

theorem getCard_adjustGroupHierarchy_not_desc (s : State) (pid : String)
    (diff : Int) (z : String)
    (hz : z ∉ (getDescendantCards s pid).map Card.id) :
    getCard (adjustGroupHierarchy s pid diff) z = getCard s z := by
  unfold adjustGroupHierarchy
  cases hc : getCard s pid with
  | none => rfl
  | some _ =>
    dsimp only
    exact getCard_foldl_setCard_not_mem
      (fun d => { d with
        hierarchyLevel := max 1 (d.hierarchyLevel + diff)
        parentId := if max 1 (d.hierarchyLevel + diff) = 1 then none
                    else d.parentId })
      (fun d => rfl) _ s z hz

theorem getCard_adjustFollowingGo_ne (oldLevel diff : Int) :
    ∀ (fuel : Nat) (st : State) (arr : List Card) (i : Nat) (z : String),
      (∀ j, i ≤ j → ∀ c, arr.get? j = some c → c.id ≠ z) →
      getCard (adjustFollowingGo oldLevel diff fuel st arr i) z = getCard st z := by
  intro fuel
  induction fuel with
  | zero => intro st arr i z _; rfl
  | succ n ih =>
    intro st arr i z hz
    unfold adjustFollowingGo
    cases hg : arr.get? i with
    | none => rfl
    | some fc =>
      dsimp only
      by_cases hlev : fc.hierarchyLevel > oldLevel
      · rw [if_pos hlev]
        have hne : fc.id ≠ z := hz i (Nat.le_refl i) fc hg
        have hz' : ∀ j, i + 1 ≤ j → ∀ c,
            (arr.set i { fc with
              hierarchyLevel := max 1 (fc.hierarchyLevel + diff)
              parentId := if max 1 (fc.hierarchyLevel + diff) = 1 then none
                          else (findParentForLevel arr
                                  (max 1 (fc.hierarchyLevel + diff)) i).map
                                 (fun p => p.id) }).get? j = some c → c.id ≠ z := by
          intro j hj c hc
          have hij : i ≠ j := by omega
          rw [List.get?_set_ne _ _ hij] at hc
          exact hz j (by omega) c hc
        rw [ih _ _ _ _ hz', getCard_setCard]
        exact if_neg (fun h => hne h.symm)
      · rw [if_neg hlev]

theorem getCard_adjustFollowingCardsHierarchy_pivot (s : State) (cardId : String)
    (oldLevel newLevel : Int) (hnd : (s.map Card.id).Nodup) :
    getCard (adjustFollowingCardsHierarchy s cardId oldLevel newLevel) cardId =
      getCard s cardId := by
  simp only [adjustFollowingCardsHierarchy]
  cases hf : (sortedCards s).findIdx? (fun c => c.id = cardId) with
  | none => rfl
  | some ci =>
    dsimp only
    by_cases hlen : ci + 1 ≥ (sortedCards s).length
    · rw [if_pos hlen]
    · rw [if_neg hlen]
      apply getCard_adjustFollowingGo_ne
      intro j hj c hc hceq
      obtain ⟨hlt, hp, _⟩ := List.findIdx?_eq_some_iff_getElem.mp hf
      have hpid : ((sortedCards s).get ⟨ci, hlt⟩).id = cardId := by
        simpa [List.get_eq_getElem] using hp
      obtain ⟨hjlt, hjget⟩ := List.get?_eq_some.mp hc
      have hnds : ((sortedCards s).map Card.id).Nodup := sortedCards_nodup_id s hnd
      have hcmem : c ∈ sortedCards s := hjget ▸ List.get_mem _ j hjlt
      have hpmem : (sortedCards s).get ⟨ci, hlt⟩ ∈ sortedCards s :=
        List.get_mem _ ci hlt
      have hcc : c = (sortedCards s).get ⟨ci, hlt⟩ :=
        eq_of_same_id_of_nodup (sortedCards s) c _ hnds hcmem hpmem
          (by rw [hceq, hpid])
      have hget2 : (sortedCards s).get ⟨j, hjlt⟩ = (sortedCards s).get ⟨ci, hlt⟩ :=
        hjget.trans hcc
      have hndl : (sortedCards s).Nodup := hnds.of_map
      have hfin : (⟨j, hjlt⟩ : Fin (sortedCards s).length) = ⟨ci, hlt⟩ :=
        (List.Nodup.get_inj_iff hndl).mp hget2
      have : j = ci := congrArg Fin.val hfin
      omega

theorem updateCard_hierarchyPayload (s : State) (id : String) (card : Card)
    (L : Int) (P : Option String) (h : getCard s id = some card) :
    updateCard s id { hierarchyLevel := some L, parentId := some P } =
      (some { card with hierarchyLevel := L, parentId := P },
       setCard s { card with hierarchyLevel := L, parentId := P }) := by
  simp only [updateCard, h]
  rfl

/-! ## Claim C5: the amended indent contract -/

/-- The card record that `indentCard` stores for the pivot on success. -/
def indentSuccessCard (card prev : Card) : Card :=
  { card with hierarchyLevel := prev.hierarchyLevel + 1, parentId := some prev.id }

/-- The part of claim C5 the code satisfies: the failure conditions are exact
no-ops and on success the pivot card itself gets the predecessor as parent and
level `prev + 1`.  (The claim's last conjunct — the descendants move by the
same delta — is false; see the C5 counterexample.)  The success case assumes
the pivot is not its own descendant after the re-parenting, which rules out
parent cycles through the pivot. -/
def indentContract (s : State) (cardId : String) : Prop :=
  (getCard s cardId = none → indentCard s cardId = (false, s)) ∧
  ∀ card, getCard s cardId = some card →
    ((sortedCards s).findIdx? (fun c => c.id = cardId) = some 0 →
      indentCard s cardId = (false, s)) ∧
    ∀ i prev, (sortedCards s).findIdx? (fun c => c.id = cardId) = some (i + 1) →
      (sortedCards s).get? i = some prev →
      (prev.hierarchyLevel < card.hierarchyLevel - 1 →
        indentCard s cardId = (false, s)) ∧
      (¬ prev.hierarchyLevel < card.hierarchyLevel - 1 →
        cardId ∉ (getDescendantCards (setCard s (indentSuccessCard card prev))
          cardId).map Card.id →
        (indentCard s cardId).1 = true ∧
        getCard (indentCard s cardId).2 cardId =
          some (indentSuccessCard card prev))

/-- C5: on id-duplicate-free stores, `indentCard` fails as a strict no-op in
exactly the claimed cases, and on success sets the pivot card's `parentId` to
the display predecessor's id and its `hierarchyLevel` to the predecessor's
level plus one. -/
theorem C5_indent_contract (s : State) (cardId : String)
    (hnd : (s.map Card.id).Nodup) : indentContract s cardId := by
  constructor
  · intro hc; simp [indentCard, hc]
  · intro card hc
    constructor
    · intro hf; simp [indentCard, hc, hf]
    · intro i prev hf hp
      have hp' : (sortedCards s)[i]? = some prev := by
        rw [← List.get?_eq_getElem?]; exact hp
      constructor
      · intro hguard; simp [indentCard, hc, hf, hp', hguard]
      · intro hguard hnc
        have hcardid : card.id = cardId := (getCard_eq_some s cardId card hc).2
        have hupd := updateCard_hierarchyPayload s cardId card
          (prev.hierarchyLevel + 1) (some prev.id) hc
        have hs1 : (updateCard s cardId
            { hierarchyLevel := some (prev.hierarchyLevel + 1)
              parentId := some (some prev.id) }).2 =
            setCard s (indentSuccessCard card prev) :=
          congrArg Prod.snd hupd
        have hmemid : (indentSuccessCard card prev).id ∈ s.map Card.id := by
          have : card ∈ s := (getCard_eq_some s cardId card hc).1
          exact List.mem_map.mpr ⟨card, this, hcardid.symm ▸ rfl⟩
        have hnd1 : ((setCard s (indentSuccessCard card prev)).map Card.id).Nodup := by
          rw [setCard_map_id_of_mem s _ hmemid]; exact hnd
        have hnd2 : ((adjustGroupHierarchy
            (setCard s (indentSuccessCard card prev)) cardId
            (prev.hierarchyLevel + 1 - card.hierarchyLevel)).map Card.id).Nodup := by
          rw [map_id_of_map_idOrder
            (adjustGroupHierarchy_idOrder _ cardId _ hnd1)]
          exact hnd1
        constructor
        · simp [indentCard, hc, hf, hp', hguard]
        · simp only [indentCard, hc, hf, hp, if_neg hguard, hs1]
          rw [getCard_adjustFollowingCardsHierarchy_pivot _ cardId _ _ hnd2,
            getCard_adjustGroupHierarchy_not_desc _ cardId _ cardId hnc,
            getCard_setCard]
          have : cardId = (indentSuccessCard card prev).id := by
            show cardId = card.id
            exact hcardid.symm
          rw [if_pos this]

theorem C5_indent_contract_witness :
    ((runOps threeFlat []).map Card.id).Nodup ∧
      indentContract (runOps threeFlat []) "b" :=
  ⟨by decide, C5_indent_contract (runOps threeFlat []) "b" (by decide)⟩

/-! ## Sorted order is a function of the (id, displayOrder) projection -/

theorem map_idOrder_orderedInsert (c : Card) (l : List Card) :
    (List.orderedInsert (fun a b => a.displayOrder ≤ b.displayOrder) c l).map
        idOrder =
      List.orderedInsert (fun a b => a.2 ≤ b.2) (idOrder c) (l.map idOrder) := by
  induction l with
  | nil => rfl
  | cons b t ih =>
    by_cases h : c.displayOrder ≤ b.displayOrder
    · rw [List.orderedInsert, if_pos h, List.map_cons, List.map_cons,
        List.orderedInsert, if_pos (show (idOrder c).2 ≤ (idOrder b).2 from h)]
    · rw [List.orderedInsert, if_neg h, List.map_cons, List.map_cons,
        List.orderedInsert, if_neg (show ¬ (idOrder c).2 ≤ (idOrder b).2 from h),
        ih]

theorem sortedCards_map_idOrder (s : State) :
    (sortedCards s).map idOrder =
      List.insertionSort (fun a b => a.2 ≤ b.2) (s.map idOrder) := by
  induction s with
  | nil => rfl
  | cons c t ih =>
    rw [sortedCards, List.insertionSort, List.map_cons, List.insertionSort,
      map_idOrder_orderedInsert, ← sortedCards, ih]

theorem sortedCards_map_idOrder_eq {s s' : State}
    (h : s'.map idOrder = s.map idOrder) :
    (sortedCards s').map idOrder = (sortedCards s).map idOrder := by
  rw [sortedCards_map_idOrder, sortedCards_map_idOrder, h]

theorem findIdx?_id_eq {arr arr' : List Card}
    (h : arr'.map Card.id = arr.map Card.id) (cardId : String) :
    arr'.findIdx? (fun c => c.id = cardId) =
      arr.findIdx? (fun c => c.id = cardId) := by
  have h1 : (arr'.map Card.id).findIdx? (fun x => x = cardId) =
      (arr.map Card.id).findIdx? (fun x => x = cardId) := by rw [h]
  simpa [List.findIdx?_map, Function.comp] using h1

/-- Cards at or before the pivot index in display order are untouched by
`adjustFollowingCardsHierarchy`. -/
theorem getCard_adjustFollowing_early (s : State) (cardId z : String)
    (old new : Int) (k ci : Nat)
    (hnd : ((sortedCards s).map Card.id).Nodup)
    (hk : ((sortedCards s).map Card.id).get? k = some z)
    (hf : (sortedCards s).findIdx? (fun c => c.id = cardId) = some ci)
    (hkci : k ≤ ci) :
    getCard (adjustFollowingCardsHierarchy s cardId old new) z = getCard s z := by
  simp only [adjustFollowingCardsHierarchy, hf]
  by_cases hlen : ci + 1 ≥ (sortedCards s).length
  · rw [if_pos hlen]
  · rw [if_neg hlen]
    apply getCard_adjustFollowingGo_ne
    intro j hj c hc hceq
    have hjm : ((sortedCards s).map Card.id).get? j = some z := by
      rw [List.get?_map, hc]
      exact congrArg some hceq
    have hklen : k < ((sortedCards s).map Card.id).length :=
      (List.get?_eq_some.mp hk).1
    have hkj : k = j := List.get?_inj hklen hnd (hk.trans hjm.symm)
    omega

/-- Evaluation of `indentCard` on the success path. -/
theorem indentCard_success_eq (s : State) (cardId : String) (card prev : Card)
    (i : Nat) (hc : getCard s cardId = some card)
    (hf : (sortedCards s).findIdx? (fun c => c.id = cardId) = some (i + 1))
    (hp : (sortedCards s).get? i = some prev)
    (hguard : ¬ prev.hierarchyLevel < card.hierarchyLevel - 1) :
    indentCard s cardId =
      (true,
        adjustFollowingCardsHierarchy
          (adjustGroupHierarchy (setCard s (indentSuccessCard card prev)) cardId
            (prev.hierarchyLevel + 1 - card.hierarchyLevel))
          cardId card.hierarchyLevel (prev.hierarchyLevel + 1)) := by
  have hs1 := congrArg Prod.snd (updateCard_hierarchyPayload s cardId card
    (prev.hierarchyLevel + 1) (some prev.id) hc)
  simp only [indentCard, hc, hf, hp, if_neg hguard, hs1]
  rfl

/-! ## Claim C7: the amended indent/outdent round trip -/

/-- C7: when the indented card and its display predecessor are same-level
siblings (equal `hierarchyLevel`, equal `parentId`) at level at least 1,
indenting and immediately outdenting restores the card record completely.
The membership hypotheses rule out the pivot or the predecessor being
descendants of the pivot after the re-parenting (impossible in acyclic
stores).  Without the sibling hypotheses the claim fails: see the C7
counterexample, where the predecessor is one level up. -/
theorem C7_indent_outdent (s : State) (cardId : String) (card prev : Card)
    (i : Nat)
    (hnd : (s.map Card.id).Nodup)
    (hc : getCard s cardId = some card)
    (hf : (sortedCards s).findIdx? (fun c => c.id = cardId) = some (i + 1))
    (hp : (sortedCards s).get? i = some prev)
    (hlev : prev.hierarchyLevel = card.hierarchyLevel)
    (hpar : prev.parentId = card.parentId)
    (hge1 : 1 ≤ prev.hierarchyLevel)
    (hpne : prev.id ≠ "")
    (hnc : cardId ∉ (getDescendantCards
      (setCard s (indentSuccessCard card prev)) cardId).map Card.id)
    (hncp : prev.id ∉ (getDescendantCards
      (setCard s (indentSuccessCard card prev)) cardId).map Card.id)
    (hnc2 : cardId ∉ (getDescendantCards
      (setCard (indentCard s cardId).2 card) cardId).map Card.id) :
    (indentCard s cardId).1 = true ∧
    (outdentCard (indentCard s cardId).2 cardId).1 = true ∧
    getCard (outdentCard (indentCard s cardId).2 cardId).2 cardId = some card := by
  have hguard : ¬ prev.hierarchyLevel < card.hierarchyLevel - 1 := by omega
  have hcardid : card.id = cardId := (getCard_eq_some s cardId card hc).2
  have hcmem : card ∈ s := (getCard_eq_some s cardId card hc).1
  have heval := indentCard_success_eq s cardId card prev i hc hf hp hguard
  have hsnd : (indentCard s cardId).2 =
      adjustFollowingCardsHierarchy
        (adjustGroupHierarchy (setCard s (indentSuccessCard card prev)) cardId
          (prev.hierarchyLevel + 1 - card.hierarchyLevel))
        cardId card.hierarchyLevel (prev.hierarchyLevel + 1) :=
    congrArg Prod.snd heval
  have hio1 : (setCard s (indentSuccessCard card prev)).map idOrder =
      s.map idOrder :=
    setCard_idOrder_of_pair_mem s _ hnd (List.mem_map.mpr ⟨card, hcmem, rfl⟩)
  have hnd1 : ((setCard s (indentSuccessCard card prev)).map Card.id).Nodup := by
    rw [map_id_of_map_idOrder hio1]; exact hnd
  have hio2 : (adjustGroupHierarchy (setCard s (indentSuccessCard card prev))
      cardId (prev.hierarchyLevel + 1 - card.hierarchyLevel)).map idOrder =
      s.map idOrder :=
    (adjustGroupHierarchy_idOrder _ cardId _ hnd1).trans hio1
  have hnd2 : ((adjustGroupHierarchy (setCard s (indentSuccessCard card prev))
      cardId (prev.hierarchyLevel + 1 - card.hierarchyLevel)).map Card.id).Nodup := by
    rw [map_id_of_map_idOrder hio2]; exact hnd
  have hF1 : getCard (indentCard s cardId).2 cardId =
      some (indentSuccessCard card prev) := by
    rw [hsnd,
      getCard_adjustFollowingCardsHierarchy_pivot _ cardId _ _ hnd2,
      getCard_adjustGroupHierarchy_not_desc _ cardId _ cardId hnc,
      getCard_setCard,
      if_pos (show cardId = (indentSuccessCard card prev).id from hcardid.symm)]
  have hsid : (sortedCards (adjustGroupHierarchy
      (setCard s (indentSuccessCard card prev)) cardId
      (prev.hierarchyLevel + 1 - card.hierarchyLevel))).map Card.id =
      (sortedCards s).map Card.id :=
    map_id_of_map_idOrder (sortedCards_map_idOrder_eq hio2)
  have hf2 : (sortedCards (adjustGroupHierarchy
      (setCard s (indentSuccessCard card prev)) cardId
      (prev.hierarchyLevel + 1 - card.hierarchyLevel))).findIdx?
        (fun c => c.id = cardId) = some (i + 1) := by
    rw [findIdx?_id_eq hsid]; exact hf
  have hk2 : ((sortedCards (adjustGroupHierarchy
      (setCard s (indentSuccessCard card prev)) cardId
      (prev.hierarchyLevel + 1 - card.hierarchyLevel))).map Card.id).get? i =
      some prev.id := by
    rw [hsid, List.get?_map, hp]; rfl
  have hnds2 : ((sortedCards (adjustGroupHierarchy
      (setCard s (indentSuccessCard card prev)) cardId
      (prev.hierarchyLevel + 1 - card.hierarchyLevel))).map Card.id).Nodup := by
    rw [hsid]; exact sortedCards_nodup_id s hnd
  have hprevmem : prev ∈ s := by
    obtain ⟨hilt, higet⟩ := List.get?_eq_some.mp hp
    exact (mem_sortedCards s prev).mp (higet ▸ List.get_mem _ i hilt)
  have hprevne : prev.id ≠ cardId := by
    intro h
    obtain ⟨hlt, hpp, _⟩ := List.findIdx?_eq_some_iff_getElem.mp hf
    have hpivid : ((sortedCards s).get ⟨i + 1, hlt⟩).id = cardId := by
      simpa [List.get_eq_getElem] using hpp
    obtain ⟨hilt, higet⟩ := List.get?_eq_some.mp hp
    have hpmem : (sortedCards s).get ⟨i + 1, hlt⟩ ∈ sortedCards s :=
      List.get_mem _ _ _
    have hprevmem' : prev ∈ sortedCards s := higet ▸ List.get_mem _ i hilt
    have heqc : prev = (sortedCards s).get ⟨i + 1, hlt⟩ :=
      eq_of_same_id_of_nodup (sortedCards s) _ _ (sortedCards_nodup_id s hnd)
        hprevmem' hpmem (h.trans hpivid.symm)
    have hgeq : (sortedCards s).get ⟨i, hilt⟩ = (sortedCards s).get ⟨i + 1, hlt⟩ := by
      rw [higet, ← heqc]
    have hfin := (List.Nodup.get_inj_iff ((sortedCards_nodup_id s hnd).of_map)).mp hgeq
    have : i = i + 1 := congrArg Fin.val hfin
    omega
  have hF2 : getCard (indentCard s cardId).2 prev.id = some prev := by
    rw [hsnd,
      getCard_adjustFollowing_early _ cardId prev.id _ _ i (i + 1) hnds2 hk2 hf2
        (by omega),
      getCard_adjustGroupHierarchy_not_desc _ cardId _ prev.id hncp,
      getCard_setCard,
      if_neg (show ¬ prev.id = (indentSuccessCard card prev).id from
        fun h => hprevne (h.trans hcardid)),
      getCard_of_nodup s prev hnd hprevmem]
  have hgu : ¬ (indentSuccessCard card prev).hierarchyLevel ≤ 1 := by
    show ¬ prev.hierarchyLevel + 1 ≤ 1
    omega
  have hparent : getParentCard (indentCard s cardId).2 cardId = some prev := by
    unfold getParentCard
    rw [hF1]
    show (if prev.id = "" then none
          else getCard (indentCard s cardId).2 prev.id) = some prev
    rw [if_neg hpne, hF2]
  have hupd2 := updateCard_hierarchyPayload (indentCard s cardId).2 cardId
    (indentSuccessCard card prev)
    ((indentSuccessCard card prev).hierarchyLevel - 1) prev.parentId hF1
  have hVcard : ({ (indentSuccessCard card prev) with
      hierarchyLevel := (indentSuccessCard card prev).hierarchyLevel - 1
      parentId := prev.parentId } : Card) = card := by
    show ({ card with
            hierarchyLevel := prev.hierarchyLevel + 1 - 1
            parentId := prev.parentId } : Card) = card
    rw [hpar, show prev.hierarchyLevel + 1 - 1 = prev.hierarchyLevel from by ring,
      hlev]
  have hs1' : (updateCard (indentCard s cardId).2 cardId
      { hierarchyLevel := some ((indentSuccessCard card prev).hierarchyLevel - 1)
        parentId := some prev.parentId }).2 =
      setCard (indentCard s cardId).2 card := by
    rw [congrArg Prod.snd hupd2, hVcard]
  have hout : outdentCard (indentCard s cardId).2 cardId =
      (true,
        adjustFollowingCardsHierarchy
          (adjustGroupHierarchy (setCard (indentCard s cardId).2 card) cardId
            ((indentSuccessCard card prev).hierarchyLevel - 1 -
              (indentSuccessCard card prev).hierarchyLevel))
          cardId (indentSuccessCard card prev).hierarchyLevel
          ((indentSuccessCard card prev).hierarchyLevel - 1)) := by
    simp only [outdentCard, hF1, if_neg hgu, hparent, hs1']
  have hio3 : ((indentCard s cardId).2).map idOrder = s.map idOrder :=
    indentCard_idOrder s cardId hnd
  have hnd3 : (((indentCard s cardId).2).map Card.id).Nodup := by
    rw [map_id_of_map_idOrder hio3]; exact hnd
  have hio4 : (setCard (indentCard s cardId).2 card).map idOrder =
      ((indentCard s cardId).2).map idOrder := by
    apply setCard_idOrder_of_pair_mem _ _ hnd3
    rw [hio3]
    exact List.mem_map.mpr ⟨card, hcmem, rfl⟩
  have hnd4 : ((setCard (indentCard s cardId).2 card).map Card.id).Nodup := by
    rw [map_id_of_map_idOrder hio4]; exact hnd3
  have hnd5 : ((adjustGroupHierarchy (setCard (indentCard s cardId).2 card) cardId
      ((indentSuccessCard card prev).hierarchyLevel - 1 -
        (indentSuccessCard card prev).hierarchyLevel)).map Card.id).Nodup := by
    rw [map_id_of_map_idOrder (adjustGroupHierarchy_idOrder _ cardId _ hnd4)]
    exact hnd4
  refine ⟨by rw [heval], by rw [hout], ?_⟩
  rw [hout]
  dsimp only
  rw [getCard_adjustFollowingCardsHierarchy_pivot _ cardId _ _ hnd5,
    getCard_adjustGroupHierarchy_not_desc _ cardId _ cardId hnc2,
    getCard_setCard, if_pos (show cardId = card.id from hcardid.symm)]

theorem C7_indent_outdent_witness :
    (indentCard (runOps threeFlat []) "b").1 = true ∧
    (outdentCard (indentCard (runOps threeFlat []) "b").2 "b").1 = true ∧
    getCard (outdentCard (indentCard (runOps threeFlat []) "b").2 "b").2 "b" =
      some (Option.get (getCard (runOps threeFlat []) "b") (by decide)) :=
  C7_indent_outdent (runOps threeFlat []) "b"
    (Option.get (getCard (runOps threeFlat []) "b") (by decide))
    (Option.get (getCard (runOps threeFlat []) "a") (by decide)) 0
    (by decide) (by decide) (by decide) (by decide) (by decide) (by decide)
    (by decide) (by decide) (by decide) (by decide) (by decide)

/-! ## Self-moves: splicing out and back in at the same index -/

theorem splice_self (l : List Card) (ci len : Nat) (hci : ci ≤ l.length) :
    spliceInsert (spliceRemove l ci len).2 (ci : Int)
      (spliceRemove l ci len).1 = l := by
  unfold spliceRemove spliceInsert
  dsimp only
  have hneg : ¬ ((ci : Int) < 0) := by omega
  rw [if_neg hneg]
  have hlen1 : (l.take ci).length = ci := by
    rw [List.length_take]
    omega
  have hmin : min (ci : Int).toNat (l.take ci ++ l.drop (ci + len)).length = ci := by
    rw [Int.toNat_natCast, List.length_append, hlen1]
    omega
  rw [hmin]
  rw [List.take_append_of_le_length (by omega), List.take_take,
    Nat.min_self, List.drop_append_of_le_length (by omega)]
  have hdrop : l.drop (ci + len) = (l.take ci).drop ci ++ l.drop (ci + len) := by
    rw [List.drop_take, Nat.sub_self, List.take_zero]
    rfl
  rw [← hdrop]
  have hgroup : (l.drop ci).take len ++ l.drop (ci + len) = l.drop ci := by
    have h1 : l.drop (ci + len) = (l.drop ci).drop len := by
      rw [List.drop_drop, Nat.add_comm]
    rw [h1, List.take_append_drop]
  rw [List.append_assoc, hgroup, List.take_append_drop]

theorem recalcFrom_idOrder : ∀ (arr : List Card) (st : State) (k : Int),
    (st.map Card.id).Nodup →
    (∀ j, ∀ h : j < arr.length,
      ((arr.get ⟨j, h⟩).id, k + (j : Int)) ∈ st.map idOrder) →
    (recalcFrom st arr k).map idOrder = st.map idOrder := by
  intro arr
  induction arr with
  | nil => intro st k _ _; rfl
  | cons c rest ih =>
    intro st k hnd hmem
    rw [recalcFrom]
    have h0 : (c.id, k) ∈ st.map idOrder := by
      have := hmem 0 (by simp)
      simpa using this
    have hstep : (setCard st { c with displayOrder := k }).map idOrder =
        st.map idOrder :=
      setCard_idOrder_of_pair_mem st _ hnd h0
    have hnd' : ((setCard st { c with displayOrder := k }).map Card.id).Nodup := by
      rw [map_id_of_map_idOrder hstep]; exact hnd
    have hmem' : ∀ j, ∀ h : j < rest.length,
        ((rest.get ⟨j, h⟩).id, (k + 1) + (j : Int)) ∈
          (setCard st { c with displayOrder := k }).map idOrder := by
      intro j h
      rw [hstep]
      have h2 := hmem (j + 1) (Nat.succ_lt_succ h)
      have heq : (k + 1) + (j : Int) = k + ((j + 1 : Nat) : Int) := by
        push_cast; ring
      rw [heq]
      exact h2
    rw [ih _ _ hnd' hmem', hstep]

/-! ## Claim C6: the amended moveCardToPosition contract -/

/-- C6: the failure clauses hold exactly as claimed (unknown id or
out-of-range target: `false` and strictly unchanged).  For a self-move
(`targetIndex` equal to the card's current display index) the call returns
`true`, and — provided the store's display orders are already canonical
(the j-th card in display order carries `displayOrder = j`) — every card
keeps its `displayOrder`.  The claim's stronger "changes nothing" is false:
the self-move rewrites `hierarchyLevel`/`parentId` through the position
resolver (see the C6 counterexample). -/
def moveToPositionContract (s : State) (cardId : String) (targetIndex : Int) :
    Prop :=
  (getCard s cardId = none →
    moveCardToPosition s cardId targetIndex = (false, s)) ∧
  (targetIndex < 0 ∨ targetIndex > (s.length : Int) →
    moveCardToPosition s cardId targetIndex = (false, s)) ∧
  (∀ ci, (sortedCards s).findIdx? (fun c => c.id = cardId) = some ci →
    targetIndex = (ci : Int) →
    (∀ j, ∀ h : j < (sortedCards s).length,
      ((sortedCards s).get ⟨j, h⟩).displayOrder = (j : Int)) →
    (moveCardToPosition s cardId targetIndex).1 = true ∧
    ((moveCardToPosition s cardId targetIndex).2).map idOrder =
      s.map idOrder)

theorem C6_move_to_position (s : State) (cardId : String) (targetIndex : Int)
    (hnd : (s.map Card.id).Nodup) :
    moveToPositionContract s cardId targetIndex := by
  refine ⟨?_, ?_, ?_⟩
  · intro hc
    simp [moveCardToPosition, moveCardGroupToPosition, getCardGroupForMove, hc]
  · intro hrange
    simp only [moveCardToPosition, moveCardGroupToPosition]
    by_cases hempty : (getCardGroupForMove s cardId).isEmpty = true
    · rw [if_pos hempty]
    · rw [if_neg hempty]
      cases hfind : (sortedCards s).findIdx? (fun c => c.id = cardId) with
      | none => rfl
      | some currentIndex =>
        dsimp only
        rw [if_pos (by rw [sortedCards_length]; exact hrange)]
  · intro ci hfind hti hcanon
    subst hti
    obtain ⟨hlt, hpp, _⟩ := List.findIdx?_eq_some_iff_getElem.mp hfind
    have hpivid : ((sortedCards s).get ⟨ci, hlt⟩).id = cardId := by
      simpa [List.get_eq_getElem] using hpp
    have hpivmem : (sortedCards s).get ⟨ci, hlt⟩ ∈ s :=
      (mem_sortedCards s _).mp (List.get_mem _ ci hlt)
    have hgc : getCard s cardId = some ((sortedCards s).get ⟨ci, hlt⟩) := by
      rw [← hpivid]
      exact getCard_of_nodup s _ hnd hpivmem
    have hempty : ¬ (getCardGroupForMove s cardId).isEmpty = true := by
      simp [getCardGroupForMove, hgc]
    have hguard : ¬ ((ci : Int) < 0 ∨ (ci : Int) > ((sortedCards s).length : Int)) := by
      push_neg
      constructor <;> omega
    have hhead : ((spliceRemove (sortedCards s) ci
        (getCardGroupForMove s cardId).length).1).head? =
        some ((sortedCards s).get ⟨ci, hlt⟩) := by
      show (((sortedCards s).drop ci).take
        (getCardGroupForMove s cardId).length).head? = _
      have hlenpos : (getCardGroupForMove s cardId).length ≠ 0 := by
        simp [getCardGroupForMove, hgc]
      rw [List.head?_take, if_neg hlenpos, List.head?_drop,
        List.getElem?_eq_getElem hlt]
      rfl
    simp only [moveCardToPosition, moveCardGroupToPosition, hfind]
    rw [if_neg hempty]
    rw [if_neg hguard]
    have hnotgt : ¬ ((ci : Int) > (ci : Int)) := by omega
    rw [if_neg hnotgt]
    simp only [hhead]
    have harr2 : spliceInsert (spliceRemove (sortedCards s) ci
        (getCardGroupForMove s cardId).length).2 (ci : Int)
        (spliceRemove (sortedCards s) ci
          (getCardGroupForMove s cardId).length).1 = sortedCards s :=
      splice_self (sortedCards s) ci _ (Nat.le_of_lt hlt)
    have hs1io : ((adjustCardHierarchy s ((sortedCards s).get ⟨ci, hlt⟩)
        (determineTargetHierarchyLevel (ci : Int).toNat (sortedCards s)).1
        (determineTargetHierarchyLevel (ci : Int).toNat (sortedCards s)).2).2).map
          idOrder = s.map idOrder :=
      adjustCardHierarchy_idOrder s _ _ _ hnd
    have hnd1 : (((adjustCardHierarchy s ((sortedCards s).get ⟨ci, hlt⟩)
        (determineTargetHierarchyLevel (ci : Int).toNat (sortedCards s)).1
        (determineTargetHierarchyLevel (ci : Int).toNat (sortedCards s)).2).2).map
          Card.id).Nodup := by
      rw [map_id_of_map_idOrder hs1io]; exact hnd
    have harr3 := arr3_map_id
      ((adjustCardHierarchy s ((sortedCards s).get ⟨ci, hlt⟩)
        (determineTargetHierarchyLevel (ci : Int).toNat (sortedCards s)).1
        (determineTargetHierarchyLevel (ci : Int).toNat (sortedCards s)).2).2)
      (spliceInsert (spliceRemove (sortedCards s) ci
        (getCardGroupForMove s cardId).length).2 (ci : Int)
        (spliceRemove (sortedCards s) ci
          (getCardGroupForMove s cardId).length).1)
      cardId
      ((adjustCardHierarchy s ((sortedCards s).get ⟨ci, hlt⟩)
        (determineTargetHierarchyLevel (ci : Int).toNat (sortedCards s)).1
        (determineTargetHierarchyLevel (ci : Int).toNat (sortedCards s)).2).1)
      hpivid
    rw [harr2] at harr3
    refine ⟨trivial, ?_⟩
    rw [harr2]
    rw [recalculateDisplayOrder]
    rw [recalcFrom_idOrder _ _ 0 hnd1 ?_, hs1io]
    intro j h
    have hlens : (List.map Card.id (sortedCards s)).length =
        (sortedCards s).length := by simp
    have hlen3 : ∀ {arr : List Card}, arr.map Card.id =
        (sortedCards s).map Card.id → arr.length = (sortedCards s).length := by
      intro arr he
      have := congrArg List.length he
      simpa using this
    have hji : j < (sortedCards s).length := hlen3 harr3 ▸ h
    have hid3 : ∀ (hh : j < (sortedCards s).length) (arr : List Card)
        (he : arr.map Card.id = (sortedCards s).map Card.id)
        (h2 : j < arr.length),
        (arr.get ⟨j, h2⟩).id = ((sortedCards s).get ⟨j, hh⟩).id := by
      intro hh arr he h2
      have hg := congrArg (fun l => l.get? j) he
      simp only [List.get?_map] at hg
      rw [List.get?_eq_get h2, List.get?_eq_get hh] at hg
      simpa using hg
    rw [hid3 hji _ harr3 h, hs1io]
    have hpair : (((sortedCards s).get ⟨j, hji⟩).id, 0 + (j : Int)) =
        idOrder ((sortedCards s).get ⟨j, hji⟩) := by
      rw [idOrder, hcanon j hji]
      simp
    rw [hpair]
    exact ((sortedCards_perm s).map idOrder).mem_iff.mp
      (List.mem_map.mpr ⟨_, List.get_mem _ j hji, rfl⟩)

theorem C6_move_to_position_witness :
    ((runOps threeFlat []).map Card.id).Nodup ∧
      moveToPositionContract (runOps threeFlat []) "b" 1 :=
  ⟨by decide, C6_move_to_position (runOps threeFlat []) "b" 1 (by decide)⟩

/-! ## Descendant sets depend only on the (id, parentId) projection -/

def idParent (c : Card) : String × Option String := (c.id, c.parentId)

theorem self_mem_setCard (s : State) (c : Card) : c ∈ setCard s c := by
  induction s with
  | nil => simp [setCard]
  | cons a t ih =>
    by_cases ha : a.id = c.id
    · simp [setCard, ha]
    · simp only [setCard, if_neg ha]
      exact List.mem_cons_of_mem _ ih

theorem mem_setCard_of_ne (s : State) (c x : Card) (hx : x ∈ s)
    (hne : x.id ≠ c.id) : x ∈ setCard s c := by
  induction s with
  | nil => simp at hx
  | cons a t ih =>
    by_cases ha : a.id = c.id
    · simp only [setCard, if_pos ha]
      rcases List.mem_cons.mp hx with h | h
      · exact absurd ha (h ▸ hne)
      · exact List.mem_cons_of_mem _ h
    · simp only [setCard, if_neg ha]
      rcases List.mem_cons.mp hx with h | h
      · exact h ▸ List.mem_cons_self _ _
      · exact List.mem_cons_of_mem _ (ih h)

theorem filter_map_id_of_pairs :
    ∀ {s₁ s₂ : State}, s₁.map idParent = s₂.map idParent → ∀ (pid : String),
      (s₁.filter (fun c => c.parentId = some pid)).map Card.id =
        (s₂.filter (fun c => c.parentId = some pid)).map Card.id := by
  intro s₁
  induction s₁ with
  | nil =>
    intro s₂ h pid
    cases s₂ with
    | nil => rfl
    | cons b t₂ => exact absurd h (by simp)
  | cons a t₁ ih =>
    intro s₂ h pid
    cases s₂ with
    | nil => exact absurd h (by simp)
    | cons b t₂ =>
      simp only [List.map_cons, List.cons.injEq] at h
      have hid : a.id = b.id := congrArg Prod.fst h.1
      have hpar : a.parentId = b.parentId := congrArg Prod.snd h.1
      rw [List.filter_cons, List.filter_cons]
      by_cases hp : a.parentId = some pid
      · rw [if_pos (by simpa using hp), if_pos (by simp [← hpar, hp]),
          List.map_cons, List.map_cons, hid, ih h.2 pid]
      · rw [if_neg (by simpa using hp), if_neg (by simp [← hpar, hp]),
          ih h.2 pid]

theorem getChildCards_ids_multiset (s : State) (pid : String) :
    (((getChildCards s pid).map Card.id : List String) : Multiset String) =
      if pid = "" then 0
      else (((s.filter (fun c => c.parentId = some pid)).map Card.id :
        List String) : Multiset String) := by
  by_cases h : pid = ""
  · simp [getChildCards, h]
  · rw [if_neg h]
    unfold getChildCards
    rw [if_neg h]
    exact Multiset.coe_eq_coe.mpr ((List.perm_insertionSort _ _).map Card.id)

theorem descIds_flatMap_multiset (s : State) (fuel : Nat)
    (children : List Card) :
    (((children.flatMap (fun child =>
        if child.id = "" then []
        else getDescendantCardsFuel s fuel child.id)).map Card.id :
      List String) : Multiset String) =
      ((children.map Card.id : List String) : Multiset String).bind
        (fun i => if i = "" then (0 : Multiset String)
          else (((getDescendantCardsFuel s fuel i).map Card.id :
            List String) : Multiset String)) := by
  induction children with
  | nil => simp
  | cons c t ih =>
    rw [List.flatMap_cons, List.map_append, List.map_cons]
    have hcoe : ((((if c.id = "" then []
        else getDescendantCardsFuel s fuel c.id).map Card.id ++
        (t.flatMap (fun child => if child.id = "" then []
          else getDescendantCardsFuel s fuel child.id)).map Card.id :
        List String)) : Multiset String) =
        (((if c.id = "" then []
          else getDescendantCardsFuel s fuel c.id).map Card.id :
          List String) : Multiset String) +
        (((t.flatMap (fun child => if child.id = "" then []
          else getDescendantCardsFuel s fuel child.id)).map Card.id :
          List String) : Multiset String) := by
      simp
    rw [hcoe, ih]
    have hcons : (((c.id :: t.map Card.id : List String)) : Multiset String) =
        c.id ::ₘ ((t.map Card.id : List String) : Multiset String) := by
      simp
    rw [hcons, Multiset.cons_bind]
    congr 1
    by_cases h : c.id = ""
    · simp [h]
    · simp [h]

theorem descIds_congr_of_pairs {s₁ s₂ : State}
    (h : s₁.map idParent = s₂.map idParent) :
    ∀ (fuel : Nat) (pid : String),
      (((getDescendantCardsFuel s₁ fuel pid).map Card.id :
        List String) : Multiset String) =
      (((getDescendantCardsFuel s₂ fuel pid).map Card.id :
        List String) : Multiset String) := by
  intro fuel
  induction fuel with
  | zero => intro pid; rfl
  | succ n ih =>
    intro pid
    have hexp : ∀ (t : State), getDescendantCardsFuel t (n + 1) pid =
        getChildCards t pid ++ (getChildCards t pid).flatMap (fun child =>
          if child.id = "" then []
          else getDescendantCardsFuel t n child.id) := fun t => rfl
    rw [hexp, hexp, List.map_append, List.map_append]
    have hsplit : ∀ (a b : List String),
        (((a ++ b : List String)) : Multiset String) =
          ((a : List String) : Multiset String) +
          ((b : List String) : Multiset String) := by
      intro a b; simp
    rw [hsplit, hsplit, descIds_flatMap_multiset, descIds_flatMap_multiset]
    have hch : (((getChildCards s₁ pid).map Card.id : List String) :
        Multiset String) =
        (((getChildCards s₂ pid).map Card.id : List String) : Multiset String) := by
      rw [getChildCards_ids_multiset, getChildCards_ids_multiset]
      by_cases hp : pid = ""
      · simp [hp]
      · rw [if_neg hp, if_neg hp, filter_map_id_of_pairs h pid]
    rw [hch]
    congr 1
    apply Multiset.bind_congr
    intro i _
    by_cases hi : i = ""
    · simp [hi]
    · rw [if_neg hi, if_neg hi, ih i]

theorem filter_setCard_eq (s : State) (W : Card) (p : Card → Bool)
    (hW : p W = false) (hold : ∀ x ∈ s, x.id = W.id → p x = false) :
    (setCard s W).filter p = s.filter p := by
  induction s with
  | nil => simp [setCard, List.filter_cons, hW]
  | cons a t ih =>
    by_cases ha : a.id = W.id
    · have hpa : p a = false := hold a (by simp) ha
      simp [setCard, ha, List.filter_cons, hW, hpa]
    · have ih' := ih (fun x hx => hold x (List.mem_cons_of_mem _ hx))
      simp only [setCard, if_neg ha, List.filter_cons, ih']

/-- Replacing one card's parent pointer does not change the descendant-id
multiset below any "good" root: a root from whose subtree neither the old
nor the new parent target is reachable as a child-of link. -/
theorem descIds_setCard_congr (s : State) (W : Card)
    (good : String → Prop)
    (hfilter : ∀ pid, good pid →
      (∀ x ∈ s, x.id = W.id → x.parentId ≠ some pid) ∧ W.parentId ≠ some pid)
    (hclosed : ∀ pid, good pid → ∀ x ∈ s, x.parentId = some pid → good x.id) :
    ∀ (fuel : Nat) (pid : String), good pid →
      (((getDescendantCardsFuel (setCard s W) fuel pid).map Card.id :
        List String) : Multiset String) =
      (((getDescendantCardsFuel s fuel pid).map Card.id :
        List String) : Multiset String) := by
  intro fuel
  induction fuel with
  | zero => intro pid _; rfl
  | succ n ih =>
    intro pid hg
    have hexp : ∀ (t : State), getDescendantCardsFuel t (n + 1) pid =
        getChildCards t pid ++ (getChildCards t pid).flatMap (fun child =>
          if child.id = "" then []
          else getDescendantCardsFuel t n child.id) := fun t => rfl
    have hfe : (setCard s W).filter (fun c => c.parentId = some pid) =
        s.filter (fun c => c.parentId = some pid) := by
      apply filter_setCard_eq
      · simp [(hfilter pid hg).2]
      · intro x hx hxid
        simp [(hfilter pid hg).1 x hx hxid]
    have hch : getChildCards (setCard s W) pid = getChildCards s pid := by
      unfold getChildCards
      by_cases hp : pid = ""
      · rw [if_pos hp, if_pos hp]
      · rw [if_neg hp, if_neg hp, hfe]
    rw [hexp, hexp, hch, List.map_append, List.map_append]
    have hsplit : ∀ (a b : List String),
        (((a ++ b : List String)) : Multiset String) =
          ((a : List String) : Multiset String) +
          ((b : List String) : Multiset String) := by
      intro a b; simp
    rw [hsplit, hsplit, descIds_flatMap_multiset, descIds_flatMap_multiset]
    congr 1
    apply Multiset.bind_congr
    intro i hi
    by_cases hie : i = ""
    · simp [hie]
    · rw [if_neg hie, if_neg hie]
      apply ih
      obtain ⟨x, hx, hxid⟩ := List.mem_map.mp (by simpa using hi)
      have hxs : x ∈ s := getChildCards_subset s pid x hx
      have hxp : x.parentId = some pid := by
        have := getChildCards_subset s pid
        unfold getChildCards at hx
        by_cases hp : pid = ""
        · rw [if_pos hp] at hx; simp at hx
        · rw [if_neg hp] at hx
          have := (List.perm_insertionSort _ _).mem_iff.mp hx
          have := List.of_mem_filter this
          simpa using this
      exact hxid ▸ hclosed pid hg x hxs hxp

theorem foldl_set_idParent (ds : List Card) (g : State → Card → State)
    (hg : ∀ st d, d ∈ ds →
      ∃ u : Card, g st d = setCard st u ∧ u.id = d.id ∧ u.parentId = d.parentId) :
    ∀ (s0 : State), (s0.map Card.id).Nodup →
      (∀ d ∈ ds, ∃ y ∈ s0, y.id = d.id ∧ y.parentId = d.parentId) →
      (ds.foldl g s0).map idParent = s0.map idParent := by
  induction ds with
  | nil => intro s0 _ _; rfl
  | cons d t ih =>
    intro s0 hnd hmem
    rw [List.foldl_cons]
    obtain ⟨u, hgu, huid, hupar⟩ := hg s0 d (by simp)
    obtain ⟨y, hy, hyid, hypar⟩ := hmem d (by simp)
    rw [hgu]
    have hstep : (setCard s0 u).map idParent = s0.map idParent := by
      apply setCard_map_of_agree
      · exact huid ▸ hyid ▸ List.mem_map.mpr ⟨y, hy, rfl⟩
      · intro x hx hxid
        have hxy : x = y :=
          eq_of_same_id_of_nodup s0 x y hnd hx hy
            (hxid.trans (huid.trans hyid.symm))
        rw [hxy, idParent, idParent, hypar, hyid, huid, hupar]
    have hnd' : ((setCard s0 u).map Card.id).Nodup := by
      have h1 := congrArg (List.map Prod.fst) hstep
      simp only [List.map_map] at h1
      have h2 : (setCard s0 u).map Card.id = s0.map Card.id := h1
      rw [h2]; exact hnd
    have hmem' : ∀ x ∈ t, ∃ y ∈ setCard s0 u, y.id = x.id ∧ y.parentId = x.parentId := by
      intro x hx
      obtain ⟨y', hy', hyid', hypar'⟩ := hmem x (List.mem_cons_of_mem _ hx)
      have : idParent y' ∈ (setCard s0 u).map idParent := by
        rw [hstep]; exact List.mem_map.mpr ⟨y', hy', rfl⟩
      obtain ⟨z, hz, hzp⟩ := List.mem_map.mp this
      refine ⟨z, hz, ?_, ?_⟩
      · exact (congrArg Prod.fst hzp).trans hyid'
      · exact (congrArg Prod.snd hzp).trans hypar'
    rw [ih (fun st x hx => hg st x (List.mem_cons_of_mem _ hx)) _ hnd' hmem', hstep]

theorem map_id_of_map_idParent {s t : State}
    (h : t.map idParent = s.map idParent) : t.map Card.id = s.map Card.id := by
  have h1 := congrArg (List.map Prod.fst) h
  simpa [List.map_map, Function.comp, idParent] using h1

theorem adjustCardHierarchy_idParent (s : State) (card : Card) (newLevel : Int)
    (newParentId : Option String) (hnd : (s.map Card.id).Nodup)
    (hnoclamp : ∀ d ∈ getDescendantCards s card.id,
      ¬ max 1 (d.hierarchyLevel + (newLevel - card.hierarchyLevel)) = 1) :
    ((adjustCardHierarchy s card newLevel newParentId).2).map idParent =
      s.map idParent := by
  unfold adjustCardHierarchy
  refine foldl_set_idParent _ _ ?_ s hnd ?_
  · intro st d hd
    refine ⟨{ d with
      hierarchyLevel := max 1 (d.hierarchyLevel + (newLevel - card.hierarchyLevel))
      parentId := if max 1 (d.hierarchyLevel + (newLevel - card.hierarchyLevel)) = 1
        then none else d.parentId }, rfl, rfl, ?_⟩
    show (if max 1 (d.hierarchyLevel + (newLevel - card.hierarchyLevel)) = 1
      then none else d.parentId) = d.parentId
    rw [if_neg (hnoclamp d hd)]
  · intro d hd
    exact ⟨d, getDescendantCards_subset s card.id d hd, rfl, rfl⟩

theorem map_eq_of_getCard (f : Card → β) :
    ∀ (s : State) {t : State}, t.map Card.id = s.map Card.id →
      (s.map Card.id).Nodup →
      (∀ z x y, getCard t z = some x → getCard s z = some y → f x = f y) →
      t.map f = s.map f := by
  intro s
  induction s with
  | nil =>
    intro t hid _ _
    have : t = [] := by
      cases t with
      | nil => rfl
      | cons a u => exact absurd hid (by simp)
    rw [this]
  | cons b s' ih =>
    intro t hid hnd h
    cases t with
    | nil => exact absurd hid (by simp)
    | cons a t' =>
      simp only [List.map_cons, List.cons.injEq] at hid
      rw [List.map_cons, List.nodup_cons] at hnd
      have hab : f a = f b := by
        refine h a.id a b ?_ ?_
        · rw [getCard, if_pos rfl]
        · rw [getCard, if_pos hid.1.symm]
      have htail : ∀ z x y, getCard t' z = some x → getCard s' z = some y →
          f x = f y := by
        intro z x y hx hy
        have hzs : z ∈ s'.map Card.id := by
          obtain ⟨hmem, hzid⟩ := getCard_eq_some s' z y hy
          exact List.mem_map.mpr ⟨y, hmem, hzid⟩
        have hzb : ¬ b.id = z := fun hb => hnd.1 (hb ▸ hzs)
        have hza : ¬ a.id = z := by rw [hid.1]; exact hzb
        refine h z x y ?_ ?_
        · rw [getCard, if_neg hza]; exact hx
        · rw [getCard, if_neg hzb]; exact hy
      rw [List.map_cons, List.map_cons, hab, ih hid.2 hnd.2 htail]

theorem refresh_fold_mem (s1 : State) (Q : Card → Prop) :
    ∀ (ds : List Card) (arrA : List Card),
      (∀ x ∈ arrA, Q x) →
      (∀ d ∈ ds, ∀ x, getCard s1 d.id = some x → Q x) →
      ∀ x ∈ ds.foldl (fun arr descendant =>
        match arr.findIdx? (fun c => c.id = descendant.id) with
        | none => arr
        | some descendantIndex =>
          match getCard s1 descendant.id with
          | none => arr
          | some updatedDescendant => arr.set descendantIndex updatedDescendant)
        arrA, Q x := by
  intro ds
  induction ds with
  | nil => intro arrA h0 _ x hx; exact h0 x hx
  | cons d t ih =>
    intro arrA h0 hds x hx
    rw [List.foldl_cons] at hx
    refine ih _ ?_ (fun e he => hds e (List.mem_cons_of_mem _ he)) x hx
    intro y hy
    cases hf : arrA.findIdx? (fun c => c.id = d.id) with
    | none => simp only [hf] at hy; exact h0 y hy
    | some di =>
      simp only [hf] at hy
      cases hg : getCard s1 d.id with
      | none => simp only [hg] at hy; exact h0 y hy
      | some u =>
        simp only [hg] at hy
        rcases List.mem_or_eq_of_mem_set hy with h | h
        · exact h0 y h
        · exact h ▸ hds d (by simp) u hg

theorem refresh_fold_get_eq (s1 : State) (cardId : String) (A : Card)
    (hA : A.id = cardId) :
    ∀ (ds : List Card) (arr : List Card) (mci : Nat),
      (∀ d ∈ ds, d.id ≠ cardId) →
      (arr.map Card.id).Nodup →
      arr.get? mci = some A →
      (ds.foldl (fun arr descendant =>
        match arr.findIdx? (fun c => c.id = descendant.id) with
        | none => arr
        | some descendantIndex =>
          match getCard s1 descendant.id with
          | none => arr
          | some updatedDescendant => arr.set descendantIndex updatedDescendant)
        arr).get? mci = some A := by
  intro ds
  induction ds with
  | nil => intro arr mci _ _ h; exact h
  | cons d t ih =>
    intro arr mci hne hnd hmci
    rw [List.foldl_cons]
    cases hf : arr.findIdx? (fun c => c.id = d.id) with
    | none =>
      simp only [hf]
      exact ih arr mci (fun e he => hne e (List.mem_cons_of_mem _ he)) hnd hmci
    | some di =>
      simp only [hf]
      cases hg : getCard s1 d.id with
      | none =>
        exact ih arr mci (fun e he => hne e (List.mem_cons_of_mem _ he)) hnd hmci
      | some u =>
        have huid : u.id = d.id := (getCard_eq_some s1 d.id u hg).2
        obtain ⟨hdi, hdp, _⟩ := List.findIdx?_eq_some_iff_getElem.mp hf
        have hdid : (arr.get ⟨di, hdi⟩).id = d.id := by
          simpa [List.get_eq_getElem] using hdp
        obtain ⟨hmlt, hmget⟩ := List.get?_eq_some.mp hmci
        have hdimci : di ≠ mci := by
          intro he
          apply hne d (by simp)
          have hfin : (⟨di, hdi⟩ : Fin arr.length) = ⟨mci, hmlt⟩ := Fin.ext he
          rw [← hdid, hfin, hmget, hA]
        have hmap : (arr.set di u).map Card.id = arr.map Card.id :=
          map_id_set_found arr d.id di u hf huid
        refine ih (arr.set di u) mci
          (fun e he => hne e (List.mem_cons_of_mem _ he)) ?_ ?_
        · rw [hmap]; exact hnd
        · rw [← hmci]
          rw [List.get?_eq_getElem?, List.get?_eq_getElem?]
          exact List.getElem?_set_ne hdimci
        
theorem spliceInsert_nonneg (l : List Card) (n : Nat) (items : List Card)
    (hn : n ≤ l.length) :
    spliceInsert l (n : Int) items = l.take n ++ items ++ l.drop n := by
  unfold spliceInsert
  dsimp only
  rw [if_neg (by omega), Int.toNat_natCast, Nat.min_eq_left hn]

theorem get?_append_middle {α : Type} (a b c : List α) (k : Nat) (hk : k < b.length) :
    (a ++ b ++ c).get? (a.length + k) = b.get? k := by
  rw [List.append_assoc, List.get?_append_right (by omega)]
  have : a.length + k - a.length = k := by omega
  rw [this, List.get?_append hk]

/-- If every card of the recalculation array carries the (id, parentId) pair
of a card of `base`, and the array covers `base`, the recalculated store has
the (id, parentId) projection of `base`. -/
theorem recalc_idParent_of_Q (s1 base : State) (arr : List Card)
    (hnd3 : (arr.map Card.id).Nodup)
    (hndb : (base.map Card.id).Nodup)
    (hids : (recalcFrom s1 arr 0).map Card.id = base.map Card.id)
    (hcover : ∀ z, z ∈ base.map Card.id → z ∈ arr.map Card.id)
    (hQ : ∀ x ∈ arr, ∃ y ∈ base, y.id = x.id ∧ y.parentId = x.parentId) :
    (recalcFrom s1 arr 0).map idParent = base.map idParent := by
  refine map_eq_of_getCard idParent base hids hndb ?_
  intro z x y hx hy
  obtain ⟨hymem, hyid⟩ := getCard_eq_some base z y hy
  have hz3 : z ∈ arr.map Card.id :=
    hcover z (List.mem_map.mpr ⟨y, hymem, hyid⟩)
  obtain ⟨v, hv, hvid⟩ := List.mem_map.mp hz3
  obtain ⟨⟨j, hj⟩, hvg⟩ := List.mem_iff_get.mp hv
  have hrec := getCard_recalcFrom_mem arr s1 0 j hj hnd3
  rw [hvg] at hrec
  rw [hvid] at hrec
  have hxv : x = { v with displayOrder := 0 + (j : Int) } := by
    have := hx.symm.trans hrec
    exact Option.some_injective _ this
  obtain ⟨y', hy', hy'id, hy'par⟩ := hQ v hv
  have hyy' : y = y' :=
    eq_of_same_id_of_nodup base y y' hndb hymem hy'
      (hyid.trans (hvid.symm.trans hy'id.symm))
  rw [hxv, hyy']
  show (v.id, v.parentId) = (y'.id, y'.parentId)
  rw [hy'id, hy'par]

/-! ## Claim C4: the amended move/subtree contract -/

/-- C4: when the moved card's subtree occupies a contiguous display slice in
depth-first order (`hslice`), the level shift clamps no descendant, the move
does not create a parent cycle, and the resolved target parent points outside
the subtree, a successful `moveCardToPosition` preserves the descendant-id
multiset of the moved card and moves the whole subtree to the display block
starting at the adjusted target index in the original inner order.  On stores
violating subtree contiguity the relative order is not preserved: see the C4
counterexample. -/
theorem C4_move_preserves_subtree (s : State) (cardId : String)
    (targetIndex : Int) (ci adjNat : Nat) (pivot : Card)
    (hnd : (s.map Card.id).Nodup)
    (hgc : getCard s cardId = some pivot)
    (hfind : (sortedCards s).findIdx? (fun c => c.id = cardId) = some ci)
    (hrange : ¬ (targetIndex < 0 ∨ targetIndex > ((sortedCards s).length : Int)))
    (hadj : (if targetIndex > (ci : Int) then
        targetIndex - ((getCardGroupForMove s cardId).length : Int)
      else targetIndex) = (adjNat : Int))
    (hfit : adjNat + (getCardGroupForMove s cardId).length ≤ s.length)
    (hslice : ((spliceRemove (sortedCards s) ci
        (getCardGroupForMove s cardId).length).1).map Card.id =
      (getCardGroupForMove s cardId).map Card.id)
    (hnoclamp : ∀ d ∈ getDescendantCards s cardId,
      ¬ max 1 (d.hierarchyLevel +
        ((determineTargetHierarchyLevel targetIndex.toNat (sortedCards s)).1 -
          pivot.hierarchyLevel)) = 1)
    (hnocycle : cardId ∉ (getDescendantCards s cardId).map Card.id)
    (hparents : ∀ pid ∈ cardId :: (getDescendantCards s cardId).map Card.id,
      pivot.parentId ≠ some pid ∧
      (determineTargetHierarchyLevel targetIndex.toNat (sortedCards s)).2 ≠
        some pid)
    (hclosed : ∀ pid ∈ cardId :: (getDescendantCards s cardId).map Card.id,
      ∀ x ∈ s, x.parentId = some pid →
        x.id ∈ (getDescendantCards s cardId).map Card.id) :
    (moveCardToPosition s cardId targetIndex).1 = true ∧
    ((((getDescendantCards (moveCardToPosition s cardId targetIndex).2
        cardId).map Card.id : List String)) : Multiset String) =
      (((getDescendantCards s cardId).map Card.id : List String) :
        Multiset String) ∧
    (∀ k (hk : k < ((getCardGroupForMove s cardId).map Card.id).length),
      (getCard (moveCardToPosition s cardId targetIndex).2
        (((getCardGroupForMove s cardId).map Card.id).get ⟨k, hk⟩)).map
          Card.displayOrder = some ((adjNat + k : Nat) : Int)) := by
  obtain ⟨hlt, hpp, _⟩ := List.findIdx?_eq_some_iff_getElem.mp hfind
  have hpivid : pivot.id = cardId := (getCard_eq_some s cardId pivot hgc).2
  have hpivmem : pivot ∈ s := (getCard_eq_some s cardId pivot hgc).1
  have hgetid : ((sortedCards s).get ⟨ci, hlt⟩).id = cardId := by
    simpa [List.get_eq_getElem] using hpp
  have hget_pivot : (sortedCards s).get ⟨ci, hlt⟩ = pivot :=
    eq_of_same_id_of_nodup (sortedCards s) _ pivot (sortedCards_nodup_id s hnd)
      (List.get_mem _ ci hlt) ((mem_sortedCards s pivot).mpr hpivmem)
      (hgetid.trans hpivid.symm)
  have hgroup : getCardGroupForMove s cardId =
      pivot :: getDescendantCards s cardId := by
    unfold getCardGroupForMove; rw [hgc]
  have hLpos : (getCardGroupForMove s cardId).length ≠ 0 := by
    rw [hgroup]; simp
  have hempty : ¬ (getCardGroupForMove s cardId).isEmpty = true := by
    rw [hgroup]; simp
  have hhead : ((spliceRemove (sortedCards s) ci
      (getCardGroupForMove s cardId).length).1).head? = some pivot := by
    show (((sortedCards s).drop ci).take
      (getCardGroupForMove s cardId).length).head? = _
    rw [List.head?_take, if_neg hLpos, List.head?_drop,
      List.getElem?_eq_getElem hlt]
    exact congrArg some hget_pivot
  -- length bookkeeping
  have hslen : (sortedCards s).length = s.length := sortedCards_length s
  have hgrouplen : ((spliceRemove (sortedCards s) ci
      (getCardGroupForMove s cardId).length).1).length =
      (getCardGroupForMove s cardId).length := by
    have := congrArg List.length hslice
    simpa using this
  have hrestlen : ((spliceRemove (sortedCards s) ci
      (getCardGroupForMove s cardId).length).2).length =
      s.length - (getCardGroupForMove s cardId).length := by
    have hmg : ((spliceRemove (sortedCards s) ci
        (getCardGroupForMove s cardId).length).1).length =
        min (getCardGroupForMove s cardId).length ((sortedCards s).length - ci) := by
      show (((sortedCards s).drop ci).take _).length = _
      rw [List.length_take, List.length_drop]
    have hciL : ci + (getCardGroupForMove s cardId).length ≤ s.length := by
      rw [hgrouplen] at hmg
      rw [← hslen]
      omega
    show ((sortedCards s).take ci ++ (sortedCards s).drop
      (ci + (getCardGroupForMove s cardId).length)).length = _
    rw [List.length_append, List.length_take, List.length_drop, hslen]
    omega
  have hadjle : adjNat ≤ ((spliceRemove (sortedCards s) ci
      (getCardGroupForMove s cardId).length).2).length := by
    rw [hrestlen]; omega
  have harr2 : spliceInsert (spliceRemove (sortedCards s) ci
      (getCardGroupForMove s cardId).length).2 (adjNat : Int)
      (spliceRemove (sortedCards s) ci
        (getCardGroupForMove s cardId).length).1 =
      ((spliceRemove (sortedCards s) ci
        (getCardGroupForMove s cardId).length).2).take adjNat ++
      (spliceRemove (sortedCards s) ci
        (getCardGroupForMove s cardId).length).1 ++
      ((spliceRemove (sortedCards s) ci
        (getCardGroupForMove s cardId).length).2).drop adjNat :=
    spliceInsert_nonneg _ _ _ hadjle
  have harr2ids : ((spliceInsert (spliceRemove (sortedCards s) ci
      (getCardGroupForMove s cardId).length).2 (adjNat : Int)
      (spliceRemove (sortedCards s) ci
        (getCardGroupForMove s cardId).length).1).map Card.id).Perm
      (s.map Card.id) :=
    arr2_map_id_perm s ci (getCardGroupForMove s cardId).length (adjNat : Int)
  have hnd2 : ((spliceInsert (spliceRemove (sortedCards s) ci
      (getCardGroupForMove s cardId).length).2 (adjNat : Int)
      (spliceRemove (sortedCards s) ci
        (getCardGroupForMove s cardId).length).1).map Card.id).Nodup :=
    harr2ids.nodup_iff.mpr hnd
  have harr2len : (spliceInsert (spliceRemove (sortedCards s) ci
      (getCardGroupForMove s cardId).length).2 (adjNat : Int)
      (spliceRemove (sortedCards s) ci
        (getCardGroupForMove s cardId).length).1).length = s.length := by
    have := harr2ids.length_eq
    simpa using this
  have harr2mem : ∀ x ∈ spliceInsert (spliceRemove (sortedCards s) ci
      (getCardGroupForMove s cardId).length).2 (adjNat : Int)
      (spliceRemove (sortedCards s) ci
        (getCardGroupForMove s cardId).length).1, x ∈ s := by
    intro x hx
    rw [harr2] at hx
    rcases List.mem_append.mp hx with hx | hx
    · rcases List.mem_append.mp hx with hx | hx
      · have : x ∈ (spliceRemove (sortedCards s) ci
            (getCardGroupForMove s cardId).length).2 := List.take_subset _ _ hx
        rcases List.mem_append.mp this with h | h
        · exact (mem_sortedCards s x).mp (List.take_subset _ _ h)
        · exact (mem_sortedCards s x).mp (List.drop_subset _ _ h)
      · have : x ∈ ((sortedCards s).drop ci).take
            (getCardGroupForMove s cardId).length := hx
        exact (mem_sortedCards s x).mp
          (List.drop_subset _ _ (List.take_subset _ _ this))
    · have : x ∈ (spliceRemove (sortedCards s) ci
          (getCardGroupForMove s cardId).length).2 := List.drop_subset _ _ hx
      rcases List.mem_append.mp this with h | h
      · exact (mem_sortedCards s x).mp (List.take_subset _ _ h)
      · exact (mem_sortedCards s x).mp (List.drop_subset _ _ h)
  have hmidid : ∀ k, k < (getCardGroupForMove s cardId).length →
      ((spliceInsert (spliceRemove (sortedCards s) ci
        (getCardGroupForMove s cardId).length).2 (adjNat : Int)
        (spliceRemove (sortedCards s) ci
          (getCardGroupForMove s cardId).length).1).map Card.id).get?
        (adjNat + k) =
      ((getCardGroupForMove s cardId).map Card.id).get? k := by
    intro k hk
    rw [harr2, List.map_append, List.map_append]
    have htr : ((((spliceRemove (sortedCards s) ci
        (getCardGroupForMove s cardId).length).2).take adjNat).map
          Card.id).length = adjNat := by
      rw [List.length_map, List.length_take, Nat.min_eq_left hadjle]
    have hkb : k < (((spliceRemove (sortedCards s) ci
        (getCardGroupForMove s cardId).length).1).map Card.id).length := by
      rw [List.length_map, hgrouplen]; exact hk
    have := get?_append_middle
      ((((spliceRemove (sortedCards s) ci
        (getCardGroupForMove s cardId).length).2).take adjNat).map Card.id)
      (((spliceRemove (sortedCards s) ci
        (getCardGroupForMove s cardId).length).1).map Card.id)
      ((((spliceRemove (sortedCards s) ci
        (getCardGroupForMove s cardId).length).2).drop adjNat).map Card.id)
      k hkb
    rw [htr] at this
    rw [this, hslice]
  -- reduce the call
  simp only [moveCardToPosition, moveCardGroupToPosition, hfind]
  rw [if_neg hempty]
  rw [if_neg hrange]
  simp only [hhead, hadj]
  cases hm2 : (spliceInsert (spliceRemove (sortedCards s) ci (getCardGroupForMove s cardId).length).2 ((adjNat : Nat) : Int) (spliceRemove (sortedCards s) ci (getCardGroupForMove s cardId).length).1).findIdx? (fun c => c.id = cardId) with
  | none =>
    exfalso
    have hpmem2 : pivot ∈ (spliceInsert (spliceRemove (sortedCards s) ci (getCardGroupForMove s cardId).length).2 ((adjNat : Nat) : Int) (spliceRemove (sortedCards s) ci (getCardGroupForMove s cardId).length).1) := by
      rw [harr2]
      exact List.mem_append.mpr (Or.inl (List.mem_append.mpr
        (Or.inr (List.mem_of_mem_head? hhead))))
    have hfalse := List.findIdx?_eq_none_iff.mp hm2 pivot hpmem2
    simp [hpivid] at hfalse
  | some mci =>
    simp only [hm2]
    obtain ⟨hmlt2, hmp2, _⟩ := List.findIdx?_eq_some_iff_getElem.mp hm2
    have hAid : ((adjustCardHierarchy s pivot (determineTargetHierarchyLevel targetIndex.toNat (sortedCards s)).1 (determineTargetHierarchyLevel targetIndex.toNat (sortedCards s)).2).1).id = cardId := hpivid
    have hs1pairs : ((adjustCardHierarchy s pivot (determineTargetHierarchyLevel targetIndex.toNat (sortedCards s)).1 (determineTargetHierarchyLevel targetIndex.toNat (sortedCards s)).2).2).map idParent = s.map idParent := by
      refine adjustCardHierarchy_idParent s pivot _ _ hnd ?_
      rw [hpivid]
      exact hnoclamp
    have hs1id : ((adjustCardHierarchy s pivot (determineTargetHierarchyLevel targetIndex.toNat (sortedCards s)).1 (determineTargetHierarchyLevel targetIndex.toNat (sortedCards s)).2).2).map Card.id = s.map Card.id :=
      map_id_of_map_idParent hs1pairs
    have hs1len : ((adjustCardHierarchy s pivot (determineTargetHierarchyLevel targetIndex.toNat (sortedCards s)).1 (determineTargetHierarchyLevel targetIndex.toNat (sortedCards s)).2).2).length = s.length := by
      simpa using congrArg List.length hs1id
    have hdescm : (((getDescendantCards (adjustCardHierarchy s pivot (determineTargetHierarchyLevel targetIndex.toNat (sortedCards s)).1 (determineTargetHierarchyLevel targetIndex.toNat (sortedCards s)).2).2 cardId).map Card.id : List String) : Multiset String) =
        (((getDescendantCards s cardId).map Card.id : List String) :
          Multiset String) := by
      show (((getDescendantCardsFuel (adjustCardHierarchy s pivot (determineTargetHierarchyLevel targetIndex.toNat (sortedCards s)).1 (determineTargetHierarchyLevel targetIndex.toNat (sortedCards s)).2).2 ((adjustCardHierarchy s pivot (determineTargetHierarchyLevel targetIndex.toNat (sortedCards s)).1 (determineTargetHierarchyLevel targetIndex.toNat (sortedCards s)).2).2).length cardId).map Card.id :
        List String) : Multiset String) = _
      rw [hs1len]
      exact descIds_congr_of_pairs hs1pairs s.length cardId
    have hds_ne : ∀ d ∈ (getDescendantCards (adjustCardHierarchy s pivot (determineTargetHierarchyLevel targetIndex.toNat (sortedCards s)).1 (determineTargetHierarchyLevel targetIndex.toNat (sortedCards s)).2).2 cardId), d.id ≠ cardId := by
      intro d hd he
      apply hnocycle
      have h1 : d.id ∈ (((getDescendantCards (adjustCardHierarchy s pivot (determineTargetHierarchyLevel targetIndex.toNat (sortedCards s)).1 (determineTargetHierarchyLevel targetIndex.toNat (sortedCards s)).2).2 cardId).map Card.id : List String) : Multiset String) :=
        Multiset.mem_coe.mpr (List.mem_map.mpr ⟨d, hd, rfl⟩)
      rw [hdescm] at h1
      have h2 := Multiset.mem_coe.mp h1
      rw [he] at h2
      exact h2
    have hAmci : ((spliceInsert (spliceRemove (sortedCards s) ci (getCardGroupForMove s cardId).length).2 ((adjNat : Nat) : Int) (spliceRemove (sortedCards s) ci (getCardGroupForMove s cardId).length).1).set mci (adjustCardHierarchy s pivot (determineTargetHierarchyLevel targetIndex.toNat (sortedCards s)).1 (determineTargetHierarchyLevel targetIndex.toNat (sortedCards s)).2).1).get? mci = some (adjustCardHierarchy s pivot (determineTargetHierarchyLevel targetIndex.toNat (sortedCards s)).1 (determineTargetHierarchyLevel targetIndex.toNat (sortedCards s)).2).1 := by
      rw [List.get?_eq_getElem?]
      exact List.getElem?_set_self hmlt2
    have harrAids : ((spliceInsert (spliceRemove (sortedCards s) ci (getCardGroupForMove s cardId).length).2 ((adjNat : Nat) : Int) (spliceRemove (sortedCards s) ci (getCardGroupForMove s cardId).length).1).set mci (adjustCardHierarchy s pivot (determineTargetHierarchyLevel targetIndex.toNat (sortedCards s)).1 (determineTargetHierarchyLevel targetIndex.toNat (sortedCards s)).2).1).map Card.id = (spliceInsert (spliceRemove (sortedCards s) ci (getCardGroupForMove s cardId).length).2 ((adjNat : Nat) : Int) (spliceRemove (sortedCards s) ci (getCardGroupForMove s cardId).length).1).map Card.id :=
      map_id_set_found (spliceInsert (spliceRemove (sortedCards s) ci (getCardGroupForMove s cardId).length).2 ((adjNat : Nat) : Int) (spliceRemove (sortedCards s) ci (getCardGroupForMove s cardId).length).1) cardId mci (adjustCardHierarchy s pivot (determineTargetHierarchyLevel targetIndex.toNat (sortedCards s)).1 (determineTargetHierarchyLevel targetIndex.toNat (sortedCards s)).2).1 hm2 hAid
    have hndA : (((spliceInsert (spliceRemove (sortedCards s) ci (getCardGroupForMove s cardId).length).2 ((adjNat : Nat) : Int) (spliceRemove (sortedCards s) ci (getCardGroupForMove s cardId).length).1).set mci (adjustCardHierarchy s pivot (determineTargetHierarchyLevel targetIndex.toNat (sortedCards s)).1 (determineTargetHierarchyLevel targetIndex.toNat (sortedCards s)).2).1).map Card.id).Nodup := by
      rw [harrAids]; exact hnd2
    have harr3mci : ((getDescendantCards (adjustCardHierarchy s pivot (determineTargetHierarchyLevel targetIndex.toNat (sortedCards s)).1 (determineTargetHierarchyLevel targetIndex.toNat (sortedCards s)).2).2 cardId).foldl (fun arr descendant =>
        match arr.findIdx? (fun c => c.id = descendant.id) with
        | none => arr
        | some descendantIndex =>
          match getCard (adjustCardHierarchy s pivot (determineTargetHierarchyLevel targetIndex.toNat (sortedCards s)).1 (determineTargetHierarchyLevel targetIndex.toNat (sortedCards s)).2).2 descendant.id with
          | none => arr
          | some updatedDescendant => arr.set descendantIndex updatedDescendant)
      ((spliceInsert (spliceRemove (sortedCards s) ci (getCardGroupForMove s cardId).length).2 ((adjNat : Nat) : Int) (spliceRemove (sortedCards s) ci (getCardGroupForMove s cardId).length).1).set mci (adjustCardHierarchy s pivot (determineTargetHierarchyLevel targetIndex.toNat (sortedCards s)).1 (determineTargetHierarchyLevel targetIndex.toNat (sortedCards s)).2).1)).get? mci = some (adjustCardHierarchy s pivot (determineTargetHierarchyLevel targetIndex.toNat (sortedCards s)).1 (determineTargetHierarchyLevel targetIndex.toNat (sortedCards s)).2).1 :=
      refresh_fold_get_eq (adjustCardHierarchy s pivot (determineTargetHierarchyLevel targetIndex.toNat (sortedCards s)).1 (determineTargetHierarchyLevel targetIndex.toNat (sortedCards s)).2).2 cardId (adjustCardHierarchy s pivot (determineTargetHierarchyLevel targetIndex.toNat (sortedCards s)).1 (determineTargetHierarchyLevel targetIndex.toNat (sortedCards s)).2).1 hAid (getDescendantCards (adjustCardHierarchy s pivot (determineTargetHierarchyLevel targetIndex.toNat (sortedCards s)).1 (determineTargetHierarchyLevel targetIndex.toNat (sortedCards s)).2).2 cardId) ((spliceInsert (spliceRemove (sortedCards s) ci (getCardGroupForMove s cardId).length).2 ((adjNat : Nat) : Int) (spliceRemove (sortedCards s) ci (getCardGroupForMove s cardId).length).1).set mci (adjustCardHierarchy s pivot (determineTargetHierarchyLevel targetIndex.toNat (sortedCards s)).1 (determineTargetHierarchyLevel targetIndex.toNat (sortedCards s)).2).1) mci hds_ne hndA hAmci
    have hAmem3 : (adjustCardHierarchy s pivot (determineTargetHierarchyLevel targetIndex.toNat (sortedCards s)).1 (determineTargetHierarchyLevel targetIndex.toNat (sortedCards s)).2).1 ∈ ((getDescendantCards (adjustCardHierarchy s pivot (determineTargetHierarchyLevel targetIndex.toNat (sortedCards s)).1 (determineTargetHierarchyLevel targetIndex.toNat (sortedCards s)).2).2 cardId).foldl (fun arr descendant =>
        match arr.findIdx? (fun c => c.id = descendant.id) with
        | none => arr
        | some descendantIndex =>
          match getCard (adjustCardHierarchy s pivot (determineTargetHierarchyLevel targetIndex.toNat (sortedCards s)).1 (determineTargetHierarchyLevel targetIndex.toNat (sortedCards s)).2).2 descendant.id with
          | none => arr
          | some updatedDescendant => arr.set descendantIndex updatedDescendant)
      ((spliceInsert (spliceRemove (sortedCards s) ci (getCardGroupForMove s cardId).length).2 ((adjNat : Nat) : Int) (spliceRemove (sortedCards s) ci (getCardGroupForMove s cardId).length).1).set mci (adjustCardHierarchy s pivot (determineTargetHierarchyLevel targetIndex.toNat (sortedCards s)).1 (determineTargetHierarchyLevel targetIndex.toNat (sortedCards s)).2).1)) := by
      exact List.get?_mem harr3mci
    have harr3ids : ((getDescendantCards (adjustCardHierarchy s pivot (determineTargetHierarchyLevel targetIndex.toNat (sortedCards s)).1 (determineTargetHierarchyLevel targetIndex.toNat (sortedCards s)).2).2 cardId).foldl (fun arr descendant =>
        match arr.findIdx? (fun c => c.id = descendant.id) with
        | none => arr
        | some descendantIndex =>
          match getCard (adjustCardHierarchy s pivot (determineTargetHierarchyLevel targetIndex.toNat (sortedCards s)).1 (determineTargetHierarchyLevel targetIndex.toNat (sortedCards s)).2).2 descendant.id with
          | none => arr
          | some updatedDescendant => arr.set descendantIndex updatedDescendant)
      ((spliceInsert (spliceRemove (sortedCards s) ci (getCardGroupForMove s cardId).length).2 ((adjNat : Nat) : Int) (spliceRemove (sortedCards s) ci (getCardGroupForMove s cardId).length).1).set mci (adjustCardHierarchy s pivot (determineTargetHierarchyLevel targetIndex.toNat (sortedCards s)).1 (determineTargetHierarchyLevel targetIndex.toNat (sortedCards s)).2).1)).map Card.id = (spliceInsert (spliceRemove (sortedCards s) ci (getCardGroupForMove s cardId).length).2 ((adjNat : Nat) : Int) (spliceRemove (sortedCards s) ci (getCardGroupForMove s cardId).length).1).map Card.id :=
      (refresh_fold_map_id (adjustCardHierarchy s pivot (determineTargetHierarchyLevel targetIndex.toNat (sortedCards s)).1 (determineTargetHierarchyLevel targetIndex.toNat (sortedCards s)).2).2 (getDescendantCards (adjustCardHierarchy s pivot (determineTargetHierarchyLevel targetIndex.toNat (sortedCards s)).1 (determineTargetHierarchyLevel targetIndex.toNat (sortedCards s)).2).2 cardId) ((spliceInsert (spliceRemove (sortedCards s) ci (getCardGroupForMove s cardId).length).2 ((adjNat : Nat) : Int) (spliceRemove (sortedCards s) ci (getCardGroupForMove s cardId).length).1).set mci (adjustCardHierarchy s pivot (determineTargetHierarchyLevel targetIndex.toNat (sortedCards s)).1 (determineTargetHierarchyLevel targetIndex.toNat (sortedCards s)).2).1)).trans harrAids
    have hnd3 : (((getDescendantCards (adjustCardHierarchy s pivot (determineTargetHierarchyLevel targetIndex.toNat (sortedCards s)).1 (determineTargetHierarchyLevel targetIndex.toNat (sortedCards s)).2).2 cardId).foldl (fun arr descendant =>
        match arr.findIdx? (fun c => c.id = descendant.id) with
        | none => arr
        | some descendantIndex =>
          match getCard (adjustCardHierarchy s pivot (determineTargetHierarchyLevel targetIndex.toNat (sortedCards s)).1 (determineTargetHierarchyLevel targetIndex.toNat (sortedCards s)).2).2 descendant.id with
          | none => arr
          | some updatedDescendant => arr.set descendantIndex updatedDescendant)
      ((spliceInsert (spliceRemove (sortedCards s) ci (getCardGroupForMove s cardId).length).2 ((adjNat : Nat) : Int) (spliceRemove (sortedCards s) ci (getCardGroupForMove s cardId).length).1).set mci (adjustCardHierarchy s pivot (determineTargetHierarchyLevel targetIndex.toNat (sortedCards s)).1 (determineTargetHierarchyLevel targetIndex.toNat (sortedCards s)).2).1)).map Card.id).Nodup := by
      rw [harr3ids]; exact hnd2
    have hQ : ∀ x ∈ ((getDescendantCards (adjustCardHierarchy s pivot (determineTargetHierarchyLevel targetIndex.toNat (sortedCards s)).1 (determineTargetHierarchyLevel targetIndex.toNat (sortedCards s)).2).2 cardId).foldl (fun arr descendant =>
        match arr.findIdx? (fun c => c.id = descendant.id) with
        | none => arr
        | some descendantIndex =>
          match getCard (adjustCardHierarchy s pivot (determineTargetHierarchyLevel targetIndex.toNat (sortedCards s)).1 (determineTargetHierarchyLevel targetIndex.toNat (sortedCards s)).2).2 descendant.id with
          | none => arr
          | some updatedDescendant => arr.set descendantIndex updatedDescendant)
      ((spliceInsert (spliceRemove (sortedCards s) ci (getCardGroupForMove s cardId).length).2 ((adjNat : Nat) : Int) (spliceRemove (sortedCards s) ci (getCardGroupForMove s cardId).length).1).set mci (adjustCardHierarchy s pivot (determineTargetHierarchyLevel targetIndex.toNat (sortedCards s)).1 (determineTargetHierarchyLevel targetIndex.toNat (sortedCards s)).2).1)), ∃ y ∈ setCard s (adjustCardHierarchy s pivot (determineTargetHierarchyLevel targetIndex.toNat (sortedCards s)).1 (determineTargetHierarchyLevel targetIndex.toNat (sortedCards s)).2).1,
        y.id = x.id ∧ y.parentId = x.parentId := by
      refine refresh_fold_mem (adjustCardHierarchy s pivot (determineTargetHierarchyLevel targetIndex.toNat (sortedCards s)).1 (determineTargetHierarchyLevel targetIndex.toNat (sortedCards s)).2).2 _ (getDescendantCards (adjustCardHierarchy s pivot (determineTargetHierarchyLevel targetIndex.toNat (sortedCards s)).1 (determineTargetHierarchyLevel targetIndex.toNat (sortedCards s)).2).2 cardId) ((spliceInsert (spliceRemove (sortedCards s) ci (getCardGroupForMove s cardId).length).2 ((adjNat : Nat) : Int) (spliceRemove (sortedCards s) ci (getCardGroupForMove s cardId).length).1).set mci (adjustCardHierarchy s pivot (determineTargetHierarchyLevel targetIndex.toNat (sortedCards s)).1 (determineTargetHierarchyLevel targetIndex.toNat (sortedCards s)).2).1) ?_ ?_
      · intro x hx
        by_cases hxid : x.id = cardId
        · have hxA : x = (adjustCardHierarchy s pivot (determineTargetHierarchyLevel targetIndex.toNat (sortedCards s)).1 (determineTargetHierarchyLevel targetIndex.toNat (sortedCards s)).2).1 :=
            eq_of_same_id_of_nodup ((spliceInsert (spliceRemove (sortedCards s) ci (getCardGroupForMove s cardId).length).2 ((adjNat : Nat) : Int) (spliceRemove (sortedCards s) ci (getCardGroupForMove s cardId).length).1).set mci (adjustCardHierarchy s pivot (determineTargetHierarchyLevel targetIndex.toNat (sortedCards s)).1 (determineTargetHierarchyLevel targetIndex.toNat (sortedCards s)).2).1) x (adjustCardHierarchy s pivot (determineTargetHierarchyLevel targetIndex.toNat (sortedCards s)).1 (determineTargetHierarchyLevel targetIndex.toNat (sortedCards s)).2).1 hndA hx
              (List.get?_mem hAmci)
              (hxid.trans hAid.symm)
          exact ⟨(adjustCardHierarchy s pivot (determineTargetHierarchyLevel targetIndex.toNat (sortedCards s)).1 (determineTargetHierarchyLevel targetIndex.toNat (sortedCards s)).2).1, self_mem_setCard s (adjustCardHierarchy s pivot (determineTargetHierarchyLevel targetIndex.toNat (sortedCards s)).1 (determineTargetHierarchyLevel targetIndex.toNat (sortedCards s)).2).1, by rw [hxA], by rw [hxA]⟩
        · rcases List.mem_or_eq_of_mem_set hx with h | h
          · exact ⟨x, mem_setCard_of_ne s (adjustCardHierarchy s pivot (determineTargetHierarchyLevel targetIndex.toNat (sortedCards s)).1 (determineTargetHierarchyLevel targetIndex.toNat (sortedCards s)).2).1 x (harr2mem x h)
              (by rw [hAid]; exact hxid), rfl, rfl⟩
          · exact absurd (by rw [h]; exact hAid) hxid
      · intro d hd u hu
        have hupair : idParent u ∈ s.map idParent := by
          rw [← hs1pairs]
          exact List.mem_map.mpr ⟨u, (getCard_eq_some _ d.id u hu).1, rfl⟩
        obtain ⟨y, hy, hyp⟩ := List.mem_map.mp hupair
        have hyid : y.id = u.id := congrArg Prod.fst hyp
        have hune : u.id ≠ cardId := by
          rw [(getCard_eq_some _ d.id u hu).2]
          exact hds_ne d hd
        refine ⟨y, mem_setCard_of_ne s (adjustCardHierarchy s pivot (determineTargetHierarchyLevel targetIndex.toNat (sortedCards s)).1 (determineTargetHierarchyLevel targetIndex.toNat (sortedCards s)).2).1 y hy ?_, hyid,
          congrArg Prod.snd hyp⟩
        rw [hyid, hAid]
        exact hune
    have hsub : ∀ c ∈ ((getDescendantCards (adjustCardHierarchy s pivot (determineTargetHierarchyLevel targetIndex.toNat (sortedCards s)).1 (determineTargetHierarchyLevel targetIndex.toNat (sortedCards s)).2).2 cardId).foldl (fun arr descendant =>
        match arr.findIdx? (fun c => c.id = descendant.id) with
        | none => arr
        | some descendantIndex =>
          match getCard (adjustCardHierarchy s pivot (determineTargetHierarchyLevel targetIndex.toNat (sortedCards s)).1 (determineTargetHierarchyLevel targetIndex.toNat (sortedCards s)).2).2 descendant.id with
          | none => arr
          | some updatedDescendant => arr.set descendantIndex updatedDescendant)
      ((spliceInsert (spliceRemove (sortedCards s) ci (getCardGroupForMove s cardId).length).2 ((adjNat : Nat) : Int) (spliceRemove (sortedCards s) ci (getCardGroupForMove s cardId).length).1).set mci (adjustCardHierarchy s pivot (determineTargetHierarchyLevel targetIndex.toNat (sortedCards s)).1 (determineTargetHierarchyLevel targetIndex.toNat (sortedCards s)).2).1)), c.id ∈ ((adjustCardHierarchy s pivot (determineTargetHierarchyLevel targetIndex.toNat (sortedCards s)).1 (determineTargetHierarchyLevel targetIndex.toNat (sortedCards s)).2).2).map Card.id := by
      intro c hc
      have h1 : c.id ∈ ((getDescendantCards (adjustCardHierarchy s pivot (determineTargetHierarchyLevel targetIndex.toNat (sortedCards s)).1 (determineTargetHierarchyLevel targetIndex.toNat (sortedCards s)).2).2 cardId).foldl (fun arr descendant =>
        match arr.findIdx? (fun c => c.id = descendant.id) with
        | none => arr
        | some descendantIndex =>
          match getCard (adjustCardHierarchy s pivot (determineTargetHierarchyLevel targetIndex.toNat (sortedCards s)).1 (determineTargetHierarchyLevel targetIndex.toNat (sortedCards s)).2).2 descendant.id with
          | none => arr
          | some updatedDescendant => arr.set descendantIndex updatedDescendant)
      ((spliceInsert (spliceRemove (sortedCards s) ci (getCardGroupForMove s cardId).length).2 ((adjNat : Nat) : Int) (spliceRemove (sortedCards s) ci (getCardGroupForMove s cardId).length).1).set mci (adjustCardHierarchy s pivot (determineTargetHierarchyLevel targetIndex.toNat (sortedCards s)).1 (determineTargetHierarchyLevel targetIndex.toNat (sortedCards s)).2).1)).map Card.id := List.mem_map.mpr ⟨c, hc, rfl⟩
      rw [harr3ids] at h1
      rw [hs1id]
      exact harr2ids.mem_iff.mp h1
    have hresid : ((recalcFrom (adjustCardHierarchy s pivot (determineTargetHierarchyLevel targetIndex.toNat (sortedCards s)).1 (determineTargetHierarchyLevel targetIndex.toNat (sortedCards s)).2).2 ((getDescendantCards (adjustCardHierarchy s pivot (determineTargetHierarchyLevel targetIndex.toNat (sortedCards s)).1 (determineTargetHierarchyLevel targetIndex.toNat (sortedCards s)).2).2 cardId).foldl (fun arr descendant =>
        match arr.findIdx? (fun c => c.id = descendant.id) with
        | none => arr
        | some descendantIndex =>
          match getCard (adjustCardHierarchy s pivot (determineTargetHierarchyLevel targetIndex.toNat (sortedCards s)).1 (determineTargetHierarchyLevel targetIndex.toNat (sortedCards s)).2).2 descendant.id with
          | none => arr
          | some updatedDescendant => arr.set descendantIndex updatedDescendant)
      ((spliceInsert (spliceRemove (sortedCards s) ci (getCardGroupForMove s cardId).length).2 ((adjNat : Nat) : Int) (spliceRemove (sortedCards s) ci (getCardGroupForMove s cardId).length).1).set mci (adjustCardHierarchy s pivot (determineTargetHierarchyLevel targetIndex.toNat (sortedCards s)).1 (determineTargetHierarchyLevel targetIndex.toNat (sortedCards s)).2).1)) 0)).map Card.id = s.map Card.id :=
      (recalcFrom_map_id ((getDescendantCards (adjustCardHierarchy s pivot (determineTargetHierarchyLevel targetIndex.toNat (sortedCards s)).1 (determineTargetHierarchyLevel targetIndex.toNat (sortedCards s)).2).2 cardId).foldl (fun arr descendant =>
        match arr.findIdx? (fun c => c.id = descendant.id) with
        | none => arr
        | some descendantIndex =>
          match getCard (adjustCardHierarchy s pivot (determineTargetHierarchyLevel targetIndex.toNat (sortedCards s)).1 (determineTargetHierarchyLevel targetIndex.toNat (sortedCards s)).2).2 descendant.id with
          | none => arr
          | some updatedDescendant => arr.set descendantIndex updatedDescendant)
      ((spliceInsert (spliceRemove (sortedCards s) ci (getCardGroupForMove s cardId).length).2 ((adjNat : Nat) : Int) (spliceRemove (sortedCards s) ci (getCardGroupForMove s cardId).length).1).set mci (adjustCardHierarchy s pivot (determineTargetHierarchyLevel targetIndex.toNat (sortedCards s)).1 (determineTargetHierarchyLevel targetIndex.toNat (sortedCards s)).2).1)) (adjustCardHierarchy s pivot (determineTargetHierarchyLevel targetIndex.toNat (sortedCards s)).1 (determineTargetHierarchyLevel targetIndex.toNat (sortedCards s)).2).2 0 hsub).trans hs1id
    have hcidmem : cardId ∈ s.map Card.id :=
      List.mem_map.mpr ⟨pivot, hpivmem, hpivid⟩
    have hsetAid : (setCard s (adjustCardHierarchy s pivot (determineTargetHierarchyLevel targetIndex.toNat (sortedCards s)).1 (determineTargetHierarchyLevel targetIndex.toNat (sortedCards s)).2).1).map Card.id = s.map Card.id :=
      setCard_map_id_of_mem s (adjustCardHierarchy s pivot (determineTargetHierarchyLevel targetIndex.toNat (sortedCards s)).1 (determineTargetHierarchyLevel targetIndex.toNat (sortedCards s)).2).1 (by rw [hAid]; exact hcidmem)
    have hndsetA : ((setCard s (adjustCardHierarchy s pivot (determineTargetHierarchyLevel targetIndex.toNat (sortedCards s)).1 (determineTargetHierarchyLevel targetIndex.toNat (sortedCards s)).2).1).map Card.id).Nodup := by
      rw [hsetAid]; exact hnd
    have hpairsRES : ((recalcFrom (adjustCardHierarchy s pivot (determineTargetHierarchyLevel targetIndex.toNat (sortedCards s)).1 (determineTargetHierarchyLevel targetIndex.toNat (sortedCards s)).2).2 ((getDescendantCards (adjustCardHierarchy s pivot (determineTargetHierarchyLevel targetIndex.toNat (sortedCards s)).1 (determineTargetHierarchyLevel targetIndex.toNat (sortedCards s)).2).2 cardId).foldl (fun arr descendant =>
        match arr.findIdx? (fun c => c.id = descendant.id) with
        | none => arr
        | some descendantIndex =>
          match getCard (adjustCardHierarchy s pivot (determineTargetHierarchyLevel targetIndex.toNat (sortedCards s)).1 (determineTargetHierarchyLevel targetIndex.toNat (sortedCards s)).2).2 descendant.id with
          | none => arr
          | some updatedDescendant => arr.set descendantIndex updatedDescendant)
      ((spliceInsert (spliceRemove (sortedCards s) ci (getCardGroupForMove s cardId).length).2 ((adjNat : Nat) : Int) (spliceRemove (sortedCards s) ci (getCardGroupForMove s cardId).length).1).set mci (adjustCardHierarchy s pivot (determineTargetHierarchyLevel targetIndex.toNat (sortedCards s)).1 (determineTargetHierarchyLevel targetIndex.toNat (sortedCards s)).2).1)) 0)).map idParent = (setCard s (adjustCardHierarchy s pivot (determineTargetHierarchyLevel targetIndex.toNat (sortedCards s)).1 (determineTargetHierarchyLevel targetIndex.toNat (sortedCards s)).2).1).map idParent := by
      refine recalc_idParent_of_Q (adjustCardHierarchy s pivot (determineTargetHierarchyLevel targetIndex.toNat (sortedCards s)).1 (determineTargetHierarchyLevel targetIndex.toNat (sortedCards s)).2).2 (setCard s (adjustCardHierarchy s pivot (determineTargetHierarchyLevel targetIndex.toNat (sortedCards s)).1 (determineTargetHierarchyLevel targetIndex.toNat (sortedCards s)).2).1) ((getDescendantCards (adjustCardHierarchy s pivot (determineTargetHierarchyLevel targetIndex.toNat (sortedCards s)).1 (determineTargetHierarchyLevel targetIndex.toNat (sortedCards s)).2).2 cardId).foldl (fun arr descendant =>
        match arr.findIdx? (fun c => c.id = descendant.id) with
        | none => arr
        | some descendantIndex =>
          match getCard (adjustCardHierarchy s pivot (determineTargetHierarchyLevel targetIndex.toNat (sortedCards s)).1 (determineTargetHierarchyLevel targetIndex.toNat (sortedCards s)).2).2 descendant.id with
          | none => arr
          | some updatedDescendant => arr.set descendantIndex updatedDescendant)
      ((spliceInsert (spliceRemove (sortedCards s) ci (getCardGroupForMove s cardId).length).2 ((adjNat : Nat) : Int) (spliceRemove (sortedCards s) ci (getCardGroupForMove s cardId).length).1).set mci (adjustCardHierarchy s pivot (determineTargetHierarchyLevel targetIndex.toNat (sortedCards s)).1 (determineTargetHierarchyLevel targetIndex.toNat (sortedCards s)).2).1)) hnd3 hndsetA
        (hresid.trans hsetAid.symm) ?_ hQ
      intro z hz
      rw [hsetAid] at hz
      rw [harr3ids]
      exact harr2ids.mem_iff.mpr hz
    refine ⟨trivial, ?_, ?_⟩
    · -- descendant multiset preserved
      have hreslen : ((recalcFrom (adjustCardHierarchy s pivot (determineTargetHierarchyLevel targetIndex.toNat (sortedCards s)).1 (determineTargetHierarchyLevel targetIndex.toNat (sortedCards s)).2).2 ((getDescendantCards (adjustCardHierarchy s pivot (determineTargetHierarchyLevel targetIndex.toNat (sortedCards s)).1 (determineTargetHierarchyLevel targetIndex.toNat (sortedCards s)).2).2 cardId).foldl (fun arr descendant =>
        match arr.findIdx? (fun c => c.id = descendant.id) with
        | none => arr
        | some descendantIndex =>
          match getCard (adjustCardHierarchy s pivot (determineTargetHierarchyLevel targetIndex.toNat (sortedCards s)).1 (determineTargetHierarchyLevel targetIndex.toNat (sortedCards s)).2).2 descendant.id with
          | none => arr
          | some updatedDescendant => arr.set descendantIndex updatedDescendant)
      ((spliceInsert (spliceRemove (sortedCards s) ci (getCardGroupForMove s cardId).length).2 ((adjNat : Nat) : Int) (spliceRemove (sortedCards s) ci (getCardGroupForMove s cardId).length).1).set mci (adjustCardHierarchy s pivot (determineTargetHierarchyLevel targetIndex.toNat (sortedCards s)).1 (determineTargetHierarchyLevel targetIndex.toNat (sortedCards s)).2).1)) 0)).length = s.length := by
        simpa using congrArg List.length hresid
      show (((getDescendantCardsFuel (recalcFrom (adjustCardHierarchy s pivot (determineTargetHierarchyLevel targetIndex.toNat (sortedCards s)).1 (determineTargetHierarchyLevel targetIndex.toNat (sortedCards s)).2).2 ((getDescendantCards (adjustCardHierarchy s pivot (determineTargetHierarchyLevel targetIndex.toNat (sortedCards s)).1 (determineTargetHierarchyLevel targetIndex.toNat (sortedCards s)).2).2 cardId).foldl (fun arr descendant =>
        match arr.findIdx? (fun c => c.id = descendant.id) with
        | none => arr
        | some descendantIndex =>
          match getCard (adjustCardHierarchy s pivot (determineTargetHierarchyLevel targetIndex.toNat (sortedCards s)).1 (determineTargetHierarchyLevel targetIndex.toNat (sortedCards s)).2).2 descendant.id with
          | none => arr
          | some updatedDescendant => arr.set descendantIndex updatedDescendant)
      ((spliceInsert (spliceRemove (sortedCards s) ci (getCardGroupForMove s cardId).length).2 ((adjNat : Nat) : Int) (spliceRemove (sortedCards s) ci (getCardGroupForMove s cardId).length).1).set mci (adjustCardHierarchy s pivot (determineTargetHierarchyLevel targetIndex.toNat (sortedCards s)).1 (determineTargetHierarchyLevel targetIndex.toNat (sortedCards s)).2).1)) 0) ((recalcFrom (adjustCardHierarchy s pivot (determineTargetHierarchyLevel targetIndex.toNat (sortedCards s)).1 (determineTargetHierarchyLevel targetIndex.toNat (sortedCards s)).2).2 ((getDescendantCards (adjustCardHierarchy s pivot (determineTargetHierarchyLevel targetIndex.toNat (sortedCards s)).1 (determineTargetHierarchyLevel targetIndex.toNat (sortedCards s)).2).2 cardId).foldl (fun arr descendant =>
        match arr.findIdx? (fun c => c.id = descendant.id) with
        | none => arr
        | some descendantIndex =>
          match getCard (adjustCardHierarchy s pivot (determineTargetHierarchyLevel targetIndex.toNat (sortedCards s)).1 (determineTargetHierarchyLevel targetIndex.toNat (sortedCards s)).2).2 descendant.id with
          | none => arr
          | some updatedDescendant => arr.set descendantIndex updatedDescendant)
      ((spliceInsert (spliceRemove (sortedCards s) ci (getCardGroupForMove s cardId).length).2 ((adjNat : Nat) : Int) (spliceRemove (sortedCards s) ci (getCardGroupForMove s cardId).length).1).set mci (adjustCardHierarchy s pivot (determineTargetHierarchyLevel targetIndex.toNat (sortedCards s)).1 (determineTargetHierarchyLevel targetIndex.toNat (sortedCards s)).2).1)) 0)).length cardId).map Card.id :
        List String) : Multiset String) = _
      rw [hreslen]
      rw [descIds_congr_of_pairs hpairsRES s.length cardId]
      have hgoodcard : cardId ∈ cardId ::
          (getDescendantCards s cardId).map Card.id := List.mem_cons_self _ _
      have h2 := descIds_setCard_congr s (adjustCardHierarchy s pivot (determineTargetHierarchyLevel targetIndex.toNat (sortedCards s)).1 (determineTargetHierarchyLevel targetIndex.toNat (sortedCards s)).2).1
        (fun pid => pid ∈ cardId :: (getDescendantCards s cardId).map Card.id)
        ?_ ?_ s.length cardId hgoodcard
      · exact h2
      · intro pid hg
        constructor
        · intro x hx hxid
          have hxp : x = pivot :=
            eq_of_same_id_of_nodup s x pivot hnd hx hpivmem
              ((hxid.trans hAid).trans hpivid.symm)
          rw [hxp]
          exact (hparents pid hg).1
        · show (determineTargetHierarchyLevel targetIndex.toNat (sortedCards s)).2 ≠ some pid
          exact (hparents pid hg).2
      · intro pid hg x hx hxp
        exact List.mem_cons_of_mem _ (hclosed pid hg x hx hxp)
    · -- the subtree block in original inner order
      intro k hk
      have hk' : k < (getCardGroupForMove s cardId).length := by
        simpa using hk
      have hlen3 : ((getDescendantCards (adjustCardHierarchy s pivot (determineTargetHierarchyLevel targetIndex.toNat (sortedCards s)).1 (determineTargetHierarchyLevel targetIndex.toNat (sortedCards s)).2).2 cardId).foldl (fun arr descendant =>
        match arr.findIdx? (fun c => c.id = descendant.id) with
        | none => arr
        | some descendantIndex =>
          match getCard (adjustCardHierarchy s pivot (determineTargetHierarchyLevel targetIndex.toNat (sortedCards s)).1 (determineTargetHierarchyLevel targetIndex.toNat (sortedCards s)).2).2 descendant.id with
          | none => arr
          | some updatedDescendant => arr.set descendantIndex updatedDescendant)
      ((spliceInsert (spliceRemove (sortedCards s) ci (getCardGroupForMove s cardId).length).2 ((adjNat : Nat) : Int) (spliceRemove (sortedCards s) ci (getCardGroupForMove s cardId).length).1).set mci (adjustCardHierarchy s pivot (determineTargetHierarchyLevel targetIndex.toNat (sortedCards s)).1 (determineTargetHierarchyLevel targetIndex.toNat (sortedCards s)).2).1)).length = s.length := by
        have h1 := congrArg List.length harr3ids
        simp only [List.length_map] at h1
        rw [h1, harr2len]
      have hj : adjNat + k < ((getDescendantCards (adjustCardHierarchy s pivot (determineTargetHierarchyLevel targetIndex.toNat (sortedCards s)).1 (determineTargetHierarchyLevel targetIndex.toNat (sortedCards s)).2).2 cardId).foldl (fun arr descendant =>
        match arr.findIdx? (fun c => c.id = descendant.id) with
        | none => arr
        | some descendantIndex =>
          match getCard (adjustCardHierarchy s pivot (determineTargetHierarchyLevel targetIndex.toNat (sortedCards s)).1 (determineTargetHierarchyLevel targetIndex.toNat (sortedCards s)).2).2 descendant.id with
          | none => arr
          | some updatedDescendant => arr.set descendantIndex updatedDescendant)
      ((spliceInsert (spliceRemove (sortedCards s) ci (getCardGroupForMove s cardId).length).2 ((adjNat : Nat) : Int) (spliceRemove (sortedCards s) ci (getCardGroupForMove s cardId).length).1).set mci (adjustCardHierarchy s pivot (determineTargetHierarchyLevel targetIndex.toNat (sortedCards s)).1 (determineTargetHierarchyLevel targetIndex.toNat (sortedCards s)).2).1)).length := by
        rw [hlen3]
        omega
      have hgetrec := getCard_recalcFrom_mem ((getDescendantCards (adjustCardHierarchy s pivot (determineTargetHierarchyLevel targetIndex.toNat (sortedCards s)).1 (determineTargetHierarchyLevel targetIndex.toNat (sortedCards s)).2).2 cardId).foldl (fun arr descendant =>
        match arr.findIdx? (fun c => c.id = descendant.id) with
        | none => arr
        | some descendantIndex =>
          match getCard (adjustCardHierarchy s pivot (determineTargetHierarchyLevel targetIndex.toNat (sortedCards s)).1 (determineTargetHierarchyLevel targetIndex.toNat (sortedCards s)).2).2 descendant.id with
          | none => arr
          | some updatedDescendant => arr.set descendantIndex updatedDescendant)
      ((spliceInsert (spliceRemove (sortedCards s) ci (getCardGroupForMove s cardId).length).2 ((adjNat : Nat) : Int) (spliceRemove (sortedCards s) ci (getCardGroupForMove s cardId).length).1).set mci (adjustCardHierarchy s pivot (determineTargetHierarchyLevel targetIndex.toNat (sortedCards s)).1 (determineTargetHierarchyLevel targetIndex.toNat (sortedCards s)).2).1)) (adjustCardHierarchy s pivot (determineTargetHierarchyLevel targetIndex.toNat (sortedCards s)).1 (determineTargetHierarchyLevel targetIndex.toNat (sortedCards s)).2).2 0 (adjNat + k) hj hnd3
      have hididx : (((getDescendantCards (adjustCardHierarchy s pivot (determineTargetHierarchyLevel targetIndex.toNat (sortedCards s)).1 (determineTargetHierarchyLevel targetIndex.toNat (sortedCards s)).2).2 cardId).foldl (fun arr descendant =>
        match arr.findIdx? (fun c => c.id = descendant.id) with
        | none => arr
        | some descendantIndex =>
          match getCard (adjustCardHierarchy s pivot (determineTargetHierarchyLevel targetIndex.toNat (sortedCards s)).1 (determineTargetHierarchyLevel targetIndex.toNat (sortedCards s)).2).2 descendant.id with
          | none => arr
          | some updatedDescendant => arr.set descendantIndex updatedDescendant)
      ((spliceInsert (spliceRemove (sortedCards s) ci (getCardGroupForMove s cardId).length).2 ((adjNat : Nat) : Int) (spliceRemove (sortedCards s) ci (getCardGroupForMove s cardId).length).1).set mci (adjustCardHierarchy s pivot (determineTargetHierarchyLevel targetIndex.toNat (sortedCards s)).1 (determineTargetHierarchyLevel targetIndex.toNat (sortedCards s)).2).1)).get ⟨adjNat + k, hj⟩).id =
          ((getCardGroupForMove s cardId).map Card.id).get ⟨k, hk⟩ := by
        have h1 : (((getDescendantCards (adjustCardHierarchy s pivot (determineTargetHierarchyLevel targetIndex.toNat (sortedCards s)).1 (determineTargetHierarchyLevel targetIndex.toNat (sortedCards s)).2).2 cardId).foldl (fun arr descendant =>
        match arr.findIdx? (fun c => c.id = descendant.id) with
        | none => arr
        | some descendantIndex =>
          match getCard (adjustCardHierarchy s pivot (determineTargetHierarchyLevel targetIndex.toNat (sortedCards s)).1 (determineTargetHierarchyLevel targetIndex.toNat (sortedCards s)).2).2 descendant.id with
          | none => arr
          | some updatedDescendant => arr.set descendantIndex updatedDescendant)
      ((spliceInsert (spliceRemove (sortedCards s) ci (getCardGroupForMove s cardId).length).2 ((adjNat : Nat) : Int) (spliceRemove (sortedCards s) ci (getCardGroupForMove s cardId).length).1).set mci (adjustCardHierarchy s pivot (determineTargetHierarchyLevel targetIndex.toNat (sortedCards s)).1 (determineTargetHierarchyLevel targetIndex.toNat (sortedCards s)).2).1)).map Card.id).get? (adjNat + k) =
            ((getCardGroupForMove s cardId).map Card.id).get? k := by
          rw [harr3ids]
          exact hmidid k hk'
        rw [List.get?_map, List.get?_eq_get hj] at h1
        rw [List.get?_eq_get hk] at h1
        simpa using h1
      show Option.map Card.displayOrder (getCard (recalcFrom (adjustCardHierarchy s pivot (determineTargetHierarchyLevel targetIndex.toNat (sortedCards s)).1 (determineTargetHierarchyLevel targetIndex.toNat (sortedCards s)).2).2 ((getDescendantCards (adjustCardHierarchy s pivot (determineTargetHierarchyLevel targetIndex.toNat (sortedCards s)).1 (determineTargetHierarchyLevel targetIndex.toNat (sortedCards s)).2).2 cardId).foldl (fun arr descendant =>
        match arr.findIdx? (fun c => c.id = descendant.id) with
        | none => arr
        | some descendantIndex =>
          match getCard (adjustCardHierarchy s pivot (determineTargetHierarchyLevel targetIndex.toNat (sortedCards s)).1 (determineTargetHierarchyLevel targetIndex.toNat (sortedCards s)).2).2 descendant.id with
          | none => arr
          | some updatedDescendant => arr.set descendantIndex updatedDescendant)
      ((spliceInsert (spliceRemove (sortedCards s) ci (getCardGroupForMove s cardId).length).2 ((adjNat : Nat) : Int) (spliceRemove (sortedCards s) ci (getCardGroupForMove s cardId).length).1).set mci (adjustCardHierarchy s pivot (determineTargetHierarchyLevel targetIndex.toNat (sortedCards s)).1 (determineTargetHierarchyLevel targetIndex.toNat (sortedCards s)).2).1)) 0)
        (((getCardGroupForMove s cardId).map Card.id).get ⟨k, hk⟩)) =
        some ((adjNat + k : Nat) : Int)
      rw [← hididx, hgetrec]
      show some (0 + ((adjNat + k : Nat) : Int)) = some ((adjNat + k : Nat) : Int)
      rw [Int.zero_add]

theorem C4_move_preserves_subtree_witness :
    (moveCardToPosition (runOps threeFlat [.indent "b"]) "a" 3).1 = true ∧
    ((((getDescendantCards
        (moveCardToPosition (runOps threeFlat [.indent "b"]) "a" 3).2
        "a").map Card.id : List String)) : Multiset String) =
      (((getDescendantCards (runOps threeFlat [.indent "b"]) "a").map Card.id :
        List String) : Multiset String) ∧
    (∀ k (hk : k < ((getCardGroupForMove (runOps threeFlat [.indent "b"])
        "a").map Card.id).length),
      (getCard (moveCardToPosition (runOps threeFlat [.indent "b"]) "a" 3).2
        (((getCardGroupForMove (runOps threeFlat [.indent "b"])
          "a").map Card.id).get ⟨k, hk⟩)).map
          Card.displayOrder = some ((1 + k : Nat) : Int)) :=
  C4_move_preserves_subtree (runOps threeFlat [.indent "b"]) "a" 3 0 1
    (Option.get (getCard (runOps threeFlat [.indent "b"]) "a") (by decide))
    (by decide) (by decide) (by decide) (by decide) (by decide) (by decide)
    (by decide) (by decide) (by decide) (by decide) (by decide)

/-! ## Claim C10: the implicit content/trimming invariant -/

theorem storeContentInvariant_setCard {s : State} {u : Card}
    (hs : storeContentInvariant s) (hu : contentInvariant u) :
    storeContentInvariant (setCard s u) := by
  intro x hx
  rcases mem_setCard s u x hx with h | h
  · exact h ▸ hu
  · exact hs x h

theorem foldl_adjust_content (ds : List Card) (f : Card → Card)
    (hf : ∀ d, contentInvariant d → contentInvariant (f d)) :
    ∀ st : State, storeContentInvariant st → (∀ d ∈ ds, contentInvariant d) →
      storeContentInvariant (ds.foldl (fun st d => setCard st (f d)) st) := by
  induction ds with
  | nil => intro st hst _; exact hst
  | cons d t ih =>
    intro st hst hds
    rw [List.foldl_cons]
    exact ih _ (storeContentInvariant_setCard hst (hf d (hds d (by simp))))
      (fun e he => hds e (List.mem_cons_of_mem _ he))

theorem adjustGroupHierarchy_content (s : State) (pid : String) (diff : Int)
    (hs : storeContentInvariant s) :
    storeContentInvariant (adjustGroupHierarchy s pid diff) := by
  unfold adjustGroupHierarchy
  cases hc : getCard s pid with
  | none => exact hs
  | some _ =>
    dsimp only
    exact foldl_adjust_content _
      (fun d => { d with
        hierarchyLevel := max 1 (d.hierarchyLevel + diff)
        parentId := if max 1 (d.hierarchyLevel + diff) = 1 then none
                    else d.parentId })
      (fun d h => h) _ hs
      (fun d hd => hs d (getDescendantCards_subset s pid d hd))

theorem adjustCardHierarchy_content (s : State) (card : Card) (newLevel : Int)
    (newParentId : Option String) (hs : storeContentInvariant s) :
    storeContentInvariant (adjustCardHierarchy s card newLevel newParentId).2 := by
  unfold adjustCardHierarchy
  exact foldl_adjust_content _
    (fun d => { d with
      hierarchyLevel := max 1 (d.hierarchyLevel + (newLevel - card.hierarchyLevel))
      parentId := if max 1 (d.hierarchyLevel + (newLevel - card.hierarchyLevel)) = 1
                  then none else d.parentId })
    (fun d h => h) _ hs
    (fun d hd => hs d (getDescendantCards_subset s card.id d hd))

theorem adjustFollowingGo_content (oldLevel diff : Int) :
    ∀ (fuel : Nat) (st : State) (arr : List Card) (i : Nat),
      storeContentInvariant st → (∀ x ∈ arr, contentInvariant x) →
      storeContentInvariant (adjustFollowingGo oldLevel diff fuel st arr i) := by
  intro fuel
  induction fuel with
  | zero => intro st arr i hst _; exact hst
  | succ n ih =>
    intro st arr i hst harr
    unfold adjustFollowingGo
    cases hg : arr.get? i with
    | none => exact hst
    | some fc =>
      dsimp only
      by_cases hlev : fc.hierarchyLevel > oldLevel
      · rw [if_pos hlev]
        have hfc : contentInvariant fc := harr fc (List.get?_mem hg)
        refine ih _ _ _ (storeContentInvariant_setCard hst hfc) ?_
        intro x hx
        rcases List.mem_or_eq_of_mem_set hx with h | h
        · exact harr x h
        · exact h ▸ hfc
      · rw [if_neg hlev]; exact hst

theorem adjustFollowingCardsHierarchy_content (s : State) (cardId : String)
    (oldLevel newLevel : Int) (hs : storeContentInvariant s) :
    storeContentInvariant
      (adjustFollowingCardsHierarchy s cardId oldLevel newLevel) := by
  simp only [adjustFollowingCardsHierarchy]
  cases hf : (sortedCards s).findIdx? (fun c => c.id = cardId) with
  | none => exact hs
  | some ci =>
    dsimp only
    by_cases hlen : ci + 1 ≥ (sortedCards s).length
    · rw [if_pos hlen]; exact hs
    · rw [if_neg hlen]
      exact adjustFollowingGo_content _ _ _ s _ _ hs
        (fun x hx => hs x ((mem_sortedCards s x).mp hx))

theorem updateCard_content (s : State) (id : String) (p : CardUpdatePayload)
    (hs : storeContentInvariant s) :
    storeContentInvariant (updateCard s id p).2 := by
  unfold updateCard
  cases hc : getCard s id with
  | none => exact hs
  | some card =>
    dsimp only
    have hcard : contentInvariant card := hs card (getCard_eq_some s id card hc).1
    cases hpc : p.content with
    | none =>
      apply storeContentInvariant_setCard hs
      refine ⟨?_, ?_, ?_⟩
      · show jsTrim (p.content.getD card.content) = p.content.getD card.content
        rw [hpc]
        exact hcard.1
      · exact hcard.2.1
      · show card.hasChanges =
          decide (¬ p.content.getD card.content = card.originalContent)
        rw [hpc]
        exact hcard.2.2
    | some raw =>
      apply storeContentInvariant_setCard hs
      refine ⟨jsTrim_idem raw, hcard.2.1, rfl⟩

theorem clearUnused_content (u : CardUpdatePayload) (da : DisplayAttribute)
    (sa : SemanticAttribute) :
    (clearUnusedAttributeFields u da sa).content = u.content := by
  cases da <;> cases sa <;> rfl

theorem updateCardAttribute_content (s : State) (id : String)
    (da : DisplayAttribute) (sa : SemanticAttribute)
    (hs : storeContentInvariant s) :
    storeContentInvariant (updateCardAttribute s id da sa).2 := by
  unfold updateCardAttribute
  cases hc : getCard s id with
  | none => exact hs
  | some _ => exact updateCard_content s id _ hs

theorem indentCard_content (s : State) (cardId : String)
    (hs : storeContentInvariant s) :
    storeContentInvariant (indentCard s cardId).2 := by
  unfold indentCard
  cases hc : getCard s cardId with
  | none => exact hs
  | some card =>
    dsimp only
    cases hf : (sortedCards s).findIdx? (fun c => c.id = cardId) with
    | none => exact hs
    | some j =>
      cases j with
      | zero => exact hs
      | succ i =>
        dsimp only
        cases hp : (sortedCards s).get? i with
        | none => exact hs
        | some prev =>
          dsimp only
          by_cases hguard : prev.hierarchyLevel < card.hierarchyLevel - 1
          · rw [if_pos hguard]; exact hs
          · rw [if_neg hguard]
            exact adjustFollowingCardsHierarchy_content _ _ _ _
              (adjustGroupHierarchy_content _ _ _
                (updateCard_content _ _ _ hs))

theorem outdentCard_content (s : State) (cardId : String)
    (hs : storeContentInvariant s) :
    storeContentInvariant (outdentCard s cardId).2 := by
  unfold outdentCard
  cases hc : getCard s cardId with
  | none => exact hs
  | some card =>
    dsimp only
    by_cases hlev : card.hierarchyLevel ≤ 1
    · rw [if_pos hlev]; exact hs
    · rw [if_neg hlev]
      cases hpar : getParentCard s cardId with
      | none => exact hs
      | some parent =>
        exact adjustFollowingCardsHierarchy_content _ _ _ _
          (adjustGroupHierarchy_content _ _ _
            (updateCard_content _ _ _ hs))

theorem splice_mem (l : List Card) (ci len : Nat) (adjT : Int) :
    ∀ x ∈ spliceInsert (spliceRemove l ci len).2 adjT
      (spliceRemove l ci len).1, x ∈ l := by
  intro x hx
  unfold spliceInsert spliceRemove at hx
  dsimp only at hx
  rcases List.mem_append.mp hx with hx | hx
  · rcases List.mem_append.mp hx with hx | hx
    · have hx2 := List.take_subset _ _ hx
      rcases List.mem_append.mp hx2 with h | h
      · exact List.take_subset _ _ h
      · exact List.drop_subset _ _ h
    · exact List.drop_subset _ _ (List.take_subset _ _ hx)
  · have hx2 := List.drop_subset _ _ hx
    rcases List.mem_append.mp hx2 with h | h
    · exact List.take_subset _ _ h
    · exact List.drop_subset _ _ h

theorem recalcFrom_content :
    ∀ (arr : List Card) (st : State) (k : Int),
      storeContentInvariant st → (∀ c ∈ arr, contentInvariant c) →
      storeContentInvariant (recalcFrom st arr k) := by
  intro arr
  induction arr with
  | nil => intro st k hst _; exact hst
  | cons c t ih =>
    intro st k hst harr
    rw [recalcFrom]
    exact ih _ _ (storeContentInvariant_setCard hst (harr c (by simp)))
      (fun e he => harr e (List.mem_cons_of_mem _ he))

theorem moveCardGroupToPosition_content (s : State) (cardId : String)
    (targetIndex : Int) (hs : storeContentInvariant s) :
    storeContentInvariant (moveCardGroupToPosition s cardId targetIndex).2 := by
  simp only [moveCardGroupToPosition]
  by_cases hempty : (getCardGroupForMove s cardId).isEmpty = true
  · rw [if_pos hempty]; exact hs
  · rw [if_neg hempty]
    cases hfind : (sortedCards s).findIdx? (fun c => c.id = cardId) with
    | none => exact hs
    | some ci =>
      dsimp only
      by_cases hbound : targetIndex < 0 ∨ targetIndex > ((sortedCards s).length : Int)
      · rw [if_pos hbound]; exact hs
      · rw [if_neg hbound]
        cases hhead : ((spliceRemove (sortedCards s) ci
            (getCardGroupForMove s cardId).length).1).head? with
        | none => exact hs
        | some movedCard =>
          dsimp only
          have hmc : contentInvariant movedCard := by
            apply hs
            have h1 := List.mem_of_mem_head? hhead
            exact (mem_sortedCards s movedCard).mp
              (List.drop_subset _ _ (List.take_subset _ _ h1))
          have hs1 : storeContentInvariant (adjustCardHierarchy s movedCard
              (determineTargetHierarchyLevel targetIndex.toNat (sortedCards s)).1
              (determineTargetHierarchyLevel targetIndex.toNat
                (sortedCards s)).2).2 :=
            adjustCardHierarchy_content _ _ _ _ hs
          apply recalcFrom_content _ _ _ hs1
          intro c hc
          cases hm : (spliceInsert (spliceRemove (sortedCards s) ci
              (getCardGroupForMove s cardId).length).2
              (if targetIndex > (ci : Int) then
                targetIndex - ((getCardGroupForMove s cardId).length : Int)
              else targetIndex)
              (spliceRemove (sortedCards s) ci
                (getCardGroupForMove s cardId).length).1).findIdx?
              (fun c => c.id = cardId) with
          | none =>
            simp only [hm] at hc
            exact hs c ((mem_sortedCards s c).mp (splice_mem _ ci _ _ c hc))
          | some mci =>
            simp only [hm] at hc
            refine refresh_fold_mem _ contentInvariant _ _ ?_ ?_ c hc
            · intro x hx
              rcases List.mem_or_eq_of_mem_set hx with h | h
              · exact hs x ((mem_sortedCards s x).mp (splice_mem _ ci _ _ x h))
              · exact h ▸ hmc
            · intro d hd u hu
              exact hs1 u (getCard_eq_some _ d.id u hu).1

theorem moveCardWithHierarchyIntegrity_content (s : State) (cardId : String)
    (direction : Dir) (hs : storeContentInvariant s) :
    storeContentInvariant (moveCardWithHierarchyIntegrity s cardId direction).2 := by
  simp only [moveCardWithHierarchyIntegrity]
  by_cases hempty : (getCardGroupForMove s cardId).isEmpty = true
  · rw [if_pos hempty]; exact hs
  · rw [if_neg hempty]
    cases hfind : (sortedCards s).findIdx? (fun c => c.id = cardId) with
    | none => exact hs
    | some ci =>
      cases direction with
      | up =>
        dsimp only
        by_cases hpos : ci > 0
        · rw [if_pos hpos]
          cases hget : (sortedCards s).get? (ci - 1) with
          | none => exact hs
          | some prevCard => exact moveCardGroupToPosition_content s cardId _ hs
        · rw [if_neg hpos]; exact hs
      | down =>
        dsimp only
        by_cases hrange : ci + (getCardGroupForMove s cardId).length <
            (sortedCards s).length
        · rw [if_pos hrange]
          cases hget : (sortedCards s).get?
              (ci + (getCardGroupForMove s cardId).length) with
          | none => exact hs
          | some nextCard => exact moveCardGroupToPosition_content s cardId _ hs
        · rw [if_neg hrange]; exact hs

theorem applyOp_content (s : State) (op : Op)
    (hs : storeContentInvariant s) : storeContentInvariant (applyOp s op) := by
  cases op with
  | indent cardId => exact indentCard_content s cardId hs
  | outdent cardId => exact outdentCard_content s cardId hs
  | move cardId direction =>
    exact moveCardWithHierarchyIntegrity_content s cardId direction hs
  | moveToPosition cardId targetIndex =>
    exact moveCardGroupToPosition_content s cardId targetIndex hs
  | update cardId updates => exact updateCard_content s cardId updates hs
  | updateAttribute cardId da sa => exact updateCardAttribute_content s cardId da sa hs

theorem bulkCreateFromSplit_content (items : List (String × String)) :
    storeContentInvariant (bulkCreateFromSplit items) := by
  unfold bulkCreateFromSplit
  have hgen : ∀ (l : List (Nat × String × String)) (st : State),
      storeContentInvariant st →
      storeContentInvariant (l.foldl (fun st p =>
        (createCard st p.2.1 p.2.2 ((p.1 : Nat) : Int)).2) st) := by
    intro l
    induction l with
    | nil => intro st hst; exact hst
    | cons p t ih =>
      intro st hst
      rw [List.foldl_cons]
      apply ih
      apply storeContentInvariant_setCard hst
      refine ⟨jsTrim_idem p.2.2, jsTrim_idem p.2.2, by simp⟩
  exact hgen items.enum [] (fun c hc => absurd hc (by simp))

/-- C10: every reachable store satisfies the trimming invariant (`content`
and `originalContent` are their own trims and `hasChanges` equals their
disequality), and `createCardFromData` recomputes `hasChanges` from the two
trimmed texts, completely ignoring the snapshot's `hasChanges` flag. -/
theorem C10_trimming_invariant :
    (∀ (items : List (String × String)) (ops : List Op),
      storeContentInvariant (runOps items ops)) ∧
    (∀ (s : State) (freshId : String) (cardData : CardData),
      contentInvariant (createCardFromData s freshId cardData).1 ∧
      ((createCardFromData s freshId cardData).1).hasChanges =
        decide (jsTrim cardData.content ≠ jsTrim cardData.originalContent) ∧
      ∀ b : Option Bool,
        createCardFromData s freshId { cardData with hasChanges := b } =
          createCardFromData s freshId cardData) := by
  constructor
  · intro items ops
    unfold runOps
    have : ∀ (l : List Op) (st : State), storeContentInvariant st →
        storeContentInvariant (l.foldl applyOp st) := by
      intro l
      induction l with
      | nil => intro st hst; exact hst
      | cons op t ih =>
        intro st hst
        rw [List.foldl_cons]
        exact ih _ (applyOp_content st op hst)
    exact this ops _ (bulkCreateFromSplit_content items)
  · intro s freshId cardData
    refine ⟨⟨jsTrim_idem _, jsTrim_idem _, rfl⟩, rfl, fun b => rfl⟩

/-! ## Claim C8: the undo/redo round trip -/

theorem updateCard_map_id (s : State) (id : String) (p : CardUpdatePayload) :
    ((updateCard s id p).2).map Card.id = s.map Card.id := by
  unfold updateCard
  cases hc : getCard s id with
  | none => rfl
  | some card =>
    dsimp only
    have hmem : card.id ∈ s.map Card.id :=
      List.mem_map.mpr ⟨card, (getCard_eq_some s id card hc).1, rfl⟩
    cases hpc : p.content with
    | some raw => exact setCard_map_id_of_mem s _ hmem
    | none => exact setCard_map_id_of_mem s _ hmem

theorem applyOp_map_id (s : State) (op : Op) (hnd : (s.map Card.id).Nodup) :
    (applyOp s op).map Card.id = s.map Card.id := by
  cases op with
  | indent cardId => exact map_id_of_map_idOrder (indentCard_idOrder s cardId hnd)
  | outdent cardId => exact map_id_of_map_idOrder (outdentCard_idOrder s cardId hnd)
  | move cardId direction =>
    exact (moveCardWithHierarchyIntegrity_spec s cardId direction hnd).1
  | moveToPosition cardId targetIndex =>
    exact (moveCardGroupToPosition_spec s cardId targetIndex hnd).1
  | update cardId p => exact updateCard_map_id s cardId p
  | updateAttribute cardId da sa =>
    show ((updateCardAttribute s cardId da sa).2).map Card.id = s.map Card.id
    unfold updateCardAttribute
    cases hc : getCard s cardId with
    | none => rfl
    | some _ => exact updateCard_map_id s cardId _

theorem restored_card_id (st : State) (c : Card) :
    ((createCardFromData st "" (cardToData c)).1).id = c.id := by
  show (match (cardToData c).id with
    | some i => if i = "" then "" else i
    | none => "") = c.id
  by_cases h : c.id = ""
  · simp [cardToData, h]
  · simp [cardToData, h]

theorem restored_card_obs (st : State) (c : Card)
    (htrim : jsTrim c.content = c.content) :
    observation ((createCardFromData st "" (cardToData c)).1) = observation c := by
  show (jsTrim c.content, c.displayOrder, c.hierarchyLevel, c.parentId) =
    (c.content, c.displayOrder, c.hierarchyLevel, c.parentId)
  rw [htrim]

theorem restore_go :
    ∀ (cards : List Card) (st : State),
      (∀ c ∈ cards, c.id ∉ st.map Card.id) →
      ((cards.map Card.id).Nodup) →
      (∀ c ∈ cards, jsTrim c.content = c.content) →
      (cards.foldl (fun st c => (createCardFromData st "" (cardToData c)).2)
        st).map observation = st.map observation ++ cards.map observation := by
  intro cards
  induction cards with
  | nil => intro st _ _ _; simp
  | cons c t ih =>
    intro st hdisj hnd htrim
    rw [List.map_cons, List.nodup_cons] at hnd
    rw [List.foldl_cons]
    have hset : (createCardFromData st "" (cardToData c)).2 =
        st ++ [(createCardFromData st "" (cardToData c)).1] := by
      show setCard st (createCardFromData st "" (cardToData c)).1 =
        st ++ [(createCardFromData st "" (cardToData c)).1]
      exact setCard_append_of_not_mem st _
        (by rw [restored_card_id]; exact hdisj c (by simp))
    have hd' : ∀ e ∈ t, e.id ∉
        (st ++ [(createCardFromData st "" (cardToData c)).1]).map Card.id := by
      intro e he hmem
      rw [List.map_append] at hmem
      rcases List.mem_append.mp hmem with hm | hm
      · exact hdisj e (List.mem_cons_of_mem _ he) hm
      · simp only [List.map_cons, List.map_nil, List.mem_singleton] at hm
        rw [restored_card_id] at hm
        exact hnd.1 (hm ▸ List.mem_map.mpr ⟨e, he, rfl⟩)
    have ih' := ih (st ++ [(createCardFromData st "" (cardToData c)).1]) hd'
      hnd.2 (fun e he => htrim e (List.mem_cons_of_mem _ he))
    rw [hset, ih', List.map_append]
    simp only [List.map_cons, List.map_nil]
    rw [restored_card_obs st c (htrim c (by simp))]
    simp [List.append_assoc]

theorem restore_observations (t : State)
    (hnd : (t.map Card.id).Nodup) (hci : storeContentInvariant t) :
    observations (restoreCards (sortedCards t)) = observations t := by
  unfold restoreCards observations
  have h := restore_go (sortedCards t) [] (by simp) (sortedCards_nodup_id t hnd)
    (fun c hc => (hci c ((mem_sortedCards t c).mp hc)).1)
  rw [h]
  simp only [List.map_nil, List.nil_append]
  exact Multiset.coe_eq_coe.mpr ((sortedCards_perm t).map observation)

/-- C8: after any successful mutation (on a well-formed store: no duplicate
ids, trimming invariant), `undo()` restores a card set observationally equal
(content, display order, hierarchy level, parent) to the pre-mutation state,
and `redo()` immediately after restores the post-mutation state. -/
theorem C8_undo_redo_roundtrip (s : State) (h : History) (op : Op)
    (hnd : (s.map Card.id).Nodup) (hci : storeContentInvariant s)
    (hsucc : (applyOpB s op).1 = true) :
    observations (undoStep (performMutation s h op).1
      (performMutation s h op).2).1 = observations s ∧
    observations (redoStep
      (undoStep (performMutation s h op).1 (performMutation s h op).2).1
      (undoStep (performMutation s h op).1 (performMutation s h op).2).2).1 =
      observations (performMutation s h op).1 := by
  have hpm : performMutation s h op = ((applyOpB s op).2,
      { undoStack := capPush (sortedCards s) h.undoStack, redoStack := [] }) := by
    unfold performMutation cloneCards
    rw [if_pos hsucc]
  obtain ⟨rest, hcap⟩ : ∃ rest, capPush (sortedCards s) h.undoStack =
      sortedCards s :: rest := by
    unfold capPush
    dsimp only
    by_cases hl : (sortedCards s :: h.undoStack).length > 10
    · rw [if_pos hl]
      cases hu : h.undoStack with
      | nil => rw [hu] at hl; simp at hl
      | cons b u => exact ⟨(b :: u).dropLast, rfl⟩
    · rw [if_neg hl]; exact ⟨h.undoStack, rfl⟩
  have hundo : undoStep (performMutation s h op).1 (performMutation s h op).2 =
      (restoreCards (sortedCards s),
       { undoStack := rest,
         redoStack := [sortedCards (applyOpB s op).2] }) := by
    rw [hpm]
    show undoStep (applyOpB s op).2
      { undoStack := capPush (sortedCards s) h.undoStack, redoStack := [] } = _
    unfold undoStep cloneCards
    dsimp only
    rw [hcap]
  have happ2 : (applyOpB s op).2 = applyOp s op := by cases op <;> rfl
  have hnd1 : (((applyOpB s op).2).map Card.id).Nodup := by
    rw [happ2, applyOp_map_id s op hnd]; exact hnd
  have hci1 : storeContentInvariant (applyOpB s op).2 := by
    rw [happ2]; exact applyOp_content s op hci
  constructor
  · rw [hundo]
    exact restore_observations s hnd hci
  · rw [hundo]
    show observations (redoStep (restoreCards (sortedCards s))
      { undoStack := rest,
        redoStack := [sortedCards (applyOpB s op).2] }).1 = _
    unfold redoStep cloneCards
    dsimp only
    rw [hpm]
    show observations (restoreCards (sortedCards (applyOpB s op).2)) =
      observations (applyOpB s op).2
    exact restore_observations _ hnd1 hci1

theorem C8_undo_redo_roundtrip_witness :
    observations (undoStep
      (performMutation (runOps threeFlat []) {} (.indent "b")).1
      (performMutation (runOps threeFlat []) {} (.indent "b")).2).1 =
      observations (runOps threeFlat []) ∧
    observations (redoStep
      (undoStep (performMutation (runOps threeFlat []) {} (.indent "b")).1
        (performMutation (runOps threeFlat []) {} (.indent "b")).2).1
      (undoStep (performMutation (runOps threeFlat []) {} (.indent "b")).1
        (performMutation (runOps threeFlat []) {} (.indent "b")).2).2).1 =
      observations (performMutation (runOps threeFlat []) {} (.indent "b")).1 :=
  C8_undo_redo_roundtrip (runOps threeFlat []) {} (.indent "b")
    (by decide) (by decide) (by decide)

/-! ## Claim C9: version-gated hierarchy validation -/

theorem count_flatten_eq (L : List (List VErr)) (e : VErr) :
    L.flatten.count e = (L.map (fun l => l.count e)).sum := by
  induction L with
  | nil => rfl
  | cons a t ih => simp [List.count_append, ih]

theorem enum_sum_single (x : Nat) (i : Nat) :
    ∀ (cards : List JsonCard) (start : Nat),
      ((List.enumFrom start cards).map (fun p =>
        if p.1 = i then x else 0)).sum =
        (if start ≤ i ∧ i - start < cards.length then x else 0) := by
  intro cards
  induction cards with
  | nil => intro start; simp
  | cons c t ih =>
    intro start
    simp only [List.enumFrom_cons, List.map_cons, List.sum_cons]
    rw [ih (start + 1)]
    have hlc : (c :: t).length = t.length + 1 := rfl
    by_cases hsi : start = i
    · subst hsi
      rw [if_pos rfl,
        if_neg (show ¬ (start + 1 ≤ start ∧ start - (start + 1) < t.length) by
          omega),
        if_pos (show start ≤ start ∧ start - start < (c :: t).length by omega)]
      simp
    · rw [if_neg hsi]
      by_cases hlt : start < i
      · by_cases hrange : i - (start + 1) < t.length
        · rw [if_pos (show start + 1 ≤ i ∧ i - (start + 1) < t.length from
              ⟨by omega, hrange⟩),
            if_pos (show start ≤ i ∧ i - start < (c :: t).length by omega)]
          simp
        · rw [if_neg (show ¬ (start + 1 ≤ i ∧ i - (start + 1) < t.length) by
              omega),
            if_neg (show ¬ (start ≤ i ∧ i - start < (c :: t).length) by omega)]
      · rw [if_neg (show ¬ (start + 1 ≤ i ∧ i - (start + 1) < t.length) by
            omega),
          if_neg (show ¬ (start ≤ i ∧ i - start < (c :: t).length) by omega)]

theorem enumFrom_fst_le :
    ∀ (l : List JsonCard) (start : Nat) (p : Nat × JsonCard),
      p ∈ List.enumFrom start l → start ≤ p.1 := by
  intro l
  induction l with
  | nil => intro start p hp; simp at hp
  | cons c t ih =>
    intro start p hp
    rw [List.enumFrom_cons] at hp
    rcases List.mem_cons.mp hp with h | h
    · subst h
      exact Nat.le_refl start
    · have := ih (start + 1) p h
      omega

theorem mem_enumFrom_get? :
    ∀ (l : List JsonCard) (start : Nat) (p : Nat × JsonCard),
      p ∈ List.enumFrom start l → l.get? (p.1 - start) = some p.2 := by
  intro l
  induction l with
  | nil => intro start p hp; simp at hp
  | cons c t ih =>
    intro start p hp
    rw [List.enumFrom_cons] at hp
    rcases List.mem_cons.mp hp with h | h
    · subst h
      simp
    · have h1 := ih (start + 1) p h
      have h2 := enumFrom_fst_le t (start + 1) p h
      rw [show p.1 - start = (p.1 - (start + 1)) + 1 by omega]
      simpa using h1

theorem mem_if_nil_singleton {b : Prop} [Decidable b] {x e : VErr}
    (he : e ∈ (if b then ([] : List VErr) else [x])) : e = x := by
  split at he
  · simp at he
  · simpa using he

/-- Every error pushed by the card loop for index `j` carries message index
`j + 1`. -/
theorem mem_cardErrors (v : Option String) (cs : List JsonCard) (j : Nat)
    (c : JsonCard) :
    ∀ e ∈ cardErrors v cs j c,
      e ∈ ([.cardMissingId (j + 1), .cardBadPosition (j + 1),
        .cardBadStatus (j + 1), .cardMissingDates (j + 1),
        .cardBadDisplayAttribute (j + 1), .cardBadSemanticAttribute (j + 1),
        .cardBadHierarchyLevel (j + 1), .cardMissingParent (j + 1),
        .cardParentRequired (j + 1)] : List VErr) := by
  intro e he
  unfold cardErrors at he
  simp only [List.mem_append] at he
  rcases he with ((((h | h) | h) | h) | h) | h
  · rw [mem_if_nil_singleton h]; simp
  · rw [mem_if_nil_singleton h]; simp
  · rw [mem_if_nil_singleton h]; simp
  · rw [mem_if_nil_singleton h]; simp
  · split at h
    · rcases List.mem_append.mp h with h | h
      · split at h
        · rw [mem_if_nil_singleton h]; simp
        · simp at h
      · split at h
        · rw [mem_if_nil_singleton h]; simp
        · simp at h
    · simp at h
  · split at h
    · rcases List.mem_append.mp h with h | h
      · split at h
        · split at h
          · simp at h; rw [h]; simp
          · simp at h
        · simp at h; rw [h]; simp
      · split at h
        · split at h
          · split at h
            · split at h
              · simp at h; rw [h]; simp
              · simp at h
            · simp at h
          · rw [mem_if_nil_singleton h]; simp
        · split at h
          · split at h
            · simp at h; rw [h]; simp
            · simp at h
          · simp at h
    · simp at h

theorem count_parentRequired_other (v : Option String) (cs : List JsonCard)
    (j : Nat) (c : JsonCard) (n : Nat) (hn : ¬ (n = j + 1)) :
    (cardErrors v cs j c).count (.cardParentRequired n) = 0 := by
  rw [List.count_eq_zero]
  intro hmem
  have h := mem_cardErrors v cs j c _ hmem
  simp at h
  exact hn h

theorem count_missingParent_other (v : Option String) (cs : List JsonCard)
    (j : Nat) (c : JsonCard) (n : Nat) (hn : ¬ (n = j + 1)) :
    (cardErrors v cs j c).count (.cardMissingParent n) = 0 := by
  rw [List.count_eq_zero]
  intro hmem
  have h := mem_cardErrors v cs j c _ hmem
  simp at h
  exact hn h

theorem count_block_zero (b : Prop) [Decidable b] (x e : VErr) (h : ¬ x = e) :
    (if b then ([] : List VErr) else [x]).count e = 0 := by
  rw [List.count_eq_zero]
  intro hmem
  exact h (mem_if_nil_singleton hmem).symm

/-- The first five error blocks of the card loop can only emit the six
non-hierarchy error kinds. -/
theorem not_mem_preBlocks (v : Option String) (c : JsonCard) (j : Nat)
    (e : VErr)
    (h1 : ∀ n, ¬ e = VErr.cardMissingId n)
    (h2 : ∀ n, ¬ e = VErr.cardBadPosition n)
    (h3 : ∀ n, ¬ e = VErr.cardBadStatus n)
    (h4 : ∀ n, ¬ e = VErr.cardMissingDates n)
    (h5 : ∀ n, ¬ e = VErr.cardBadDisplayAttribute n)
    (h6 : ∀ n, ¬ e = VErr.cardBadSemanticAttribute n) :
    e ∉ ((if truthyStr c.id then [] else [VErr.cardMissingId (j + 1)]) ++
      (if c.position.isSome then [] else [VErr.cardBadPosition (j + 1)]) ++
      (if c.status = some "unprocessed" ∨ c.status = some "processing" ∨
          c.status = some "processed" then [] else [VErr.cardBadStatus (j + 1)]) ++
      (if truthyStr c.createdAt ∧ truthyStr c.updatedAt then []
       else [VErr.cardMissingDates (j + 1)]) ++
      (if versionGate v "1.3.0" "1.2.0" then
        (if truthyStr c.displayAttribute then
          (if c.displayAttribute = some "heading" ∨
              c.displayAttribute = some "main" ∨
              c.displayAttribute = some "misc" then []
           else [VErr.cardBadDisplayAttribute (j + 1)])
         else []) ++
        (if truthyStr c.semanticAttribute then
          (if c.semanticAttribute = some "none" ∨
              c.semanticAttribute = some "text" ∨
              c.semanticAttribute = some "figure" ∨
              c.semanticAttribute = some "table" ∨
              c.semanticAttribute = some "test" ∨
              c.semanticAttribute = some "question"
           then [] else [VErr.cardBadSemanticAttribute (j + 1)])
         else [])
       else [])) := by
  intro he
  simp only [List.mem_append] at he
  rcases he with (((h | h) | h) | h) | h
  · exact h1 _ (mem_if_nil_singleton h)
  · exact h2 _ (mem_if_nil_singleton h)
  · exact h3 _ (mem_if_nil_singleton h)
  · exact h4 _ (mem_if_nil_singleton h)
  · split at h
    · rcases List.mem_append.mp h with h | h
      · split at h
        · exact h5 _ (mem_if_nil_singleton h)
        · simp at h
      · split at h
        · exact h6 _ (mem_if_nil_singleton h)
        · simp at h
    · simp at h

theorem count_parentRequired_self (v : Option String) (cs : List JsonCard)
    (i : Nat) (c : JsonCard) (l : Int)
    (hgate : versionGate v "1.4.0" "1.3.0" = true)
    (hl : c.hierarchyLevel = some l) (hl1 : 1 < l) (hpar : c.parentId = none) :
    (cardErrors v cs i c).count (.cardParentRequired (i + 1)) = 1 := by
  unfold cardErrors
  rw [hl, hpar, if_pos hgate]
  dsimp only
  rw [if_neg (show ¬ l < 1 by omega), if_pos (show l > 1 from hl1)]
  rw [List.count_append,
    List.count_eq_zero.mpr (not_mem_preBlocks v c i
      (VErr.cardParentRequired (i + 1)) (by simp) (by simp) (by simp)
      (by simp) (by simp) (by simp))]
  simp

theorem count_missingParent_self (v : Option String) (cs : List JsonCard)
    (i : Nat) (c : JsonCard) (p : String)
    (hgate : versionGate v "1.4.0" "1.3.0" = true)
    (hpar : c.parentId = some p) (hp : ¬ p = "")
    (hmiss : cs.any (fun c => c.id = some p) = false) :
    (cardErrors v cs i c).count (.cardMissingParent (i + 1)) = 1 := by
  have hmiss' : ¬ cs.any (fun c => c.id = some p) = true := by
    rw [hmiss]
    exact Bool.false_ne_true
  unfold cardErrors
  rw [hpar, if_pos hgate]
  cases hll : c.hierarchyLevel with
  | none =>
    dsimp only
    rw [if_neg hp, if_neg hmiss']
    rw [List.count_append,
      List.count_eq_zero.mpr (not_mem_preBlocks v c i
        (VErr.cardMissingParent (i + 1)) (by simp) (by simp) (by simp)
        (by simp) (by simp) (by simp))]
    simp
  | some l =>
    dsimp only
    rw [if_neg hp, if_neg hmiss']
    rw [List.count_append,
      List.count_eq_zero.mpr (not_mem_preBlocks v c i
        (VErr.cardMissingParent (i + 1)) (by simp) (by simp) (by simp)
        (by simp) (by simp) (by simp))]
    by_cases hl1 : l < 1
    · rw [if_pos hl1]
      simp
    · rw [if_neg hl1]
      simp

theorem errors_count_one (dateOk : String → Bool) (d : JsonDoc)
    (cards : List JsonCard) (hcards : d.cards = some cards)
    (e : VErr) (i : Nat) (card : JsonCard) (hi : cards.get? i = some card)
    (hb1 : (if truthyStr d.version then [] else [VErr.missingVersion]).count e = 0)
    (hb2 : (if truthyStr d.originalFile then []
      else [VErr.missingOriginalFile]).count e = 0)
    (hb3 : (if truthyStr d.timestamp then []
      else [VErr.missingTimestamp]).count e = 0)
    (hcoll : (match d.collapsedCardIds with
      | none => ([] : List VErr)
      | some none => [VErr.collapsedNotArray]
      | some (some elems) =>
        if elems.any (fun e => e.isNone) then [VErr.collapsedBadElement]
        else []).count e = 0)
    (hself : (cardErrors d.version cards i card).count e = 1)
    (hother : ∀ j c, ¬ (j = i) → (cardErrors d.version cards j c).count e = 0) :
    (validateSaveData dateOk (some d)).errors.count e = 1 := by
  have herr : (validateSaveData dateOk (some d)).errors =
      ((if truthyStr d.version then [] else [VErr.missingVersion]) ++
       (if truthyStr d.originalFile then [] else [VErr.missingOriginalFile]) ++
       (if truthyStr d.timestamp then [] else [VErr.missingTimestamp])) ++
      (cards.enum.map (fun p => cardErrors d.version cards p.1 p.2)).flatten ++
      (match d.collapsedCardIds with
       | none => ([] : List VErr)
       | some none => [VErr.collapsedNotArray]
       | some (some elems) =>
         if elems.any (fun e => e.isNone) then [VErr.collapsedBadElement]
         else []) := by
    simp only [validateSaveData, hcards]
  rw [herr]
  simp only [List.count_append]
  rw [hb1, hb2, hb3, hcoll, count_flatten_eq]
  have henum : cards.enum = List.enumFrom 0 cards := rfl
  rw [henum]
  have hmapeq : ((List.enumFrom 0 cards).map
      (fun p => cardErrors d.version cards p.1 p.2)).map (fun l => l.count e) =
      (List.enumFrom 0 cards).map (fun p =>
        if p.1 = i then (cardErrors d.version cards i card).count e else 0) := by
    rw [List.map_map]
    apply List.map_congr_left
    intro p hp
    show (cardErrors d.version cards p.1 p.2).count e =
      ite (p.1 = i) ((cardErrors d.version cards i card).count e) 0
    by_cases hpi : p.1 = i
    · rw [if_pos hpi]
      have hget := mem_enumFrom_get? cards 0 p hp
      rw [Nat.sub_zero, hpi, hi] at hget
      have hcard : p.2 = card := (Option.some.inj hget).symm
      rw [hpi, hcard]
    · rw [if_neg hpi]
      exact hother p.1 p.2 hpi
  have hlen : i < cards.length := by
    by_contra hcon
    rw [List.get?_eq_none.mpr (by omega)] at hi
    exact Option.noConfusion hi
  rw [hmapeq, enum_sum_single,
    if_pos (show 0 ≤ i ∧ i - 0 < cards.length by omega), hself]

/-- `parseSaveData` on an invalid document returns `data = null`. -/
theorem parseSaveData_fst_of_isValid_false (dateOk : String → Bool)
    (data : Option JsonDoc)
    (h : (validateSaveData dateOk data).isValid = false) :
    (parseSaveData dateOk data).1 = none := by
  simp only [parseSaveData]
  rw [h]
  simp

/-- `parseSaveData` on a valid document object returns parsed data. -/
theorem parseSaveData_fst_isSome_of_isValid (dateOk : String → Bool)
    (d : JsonDoc)
    (h : (validateSaveData dateOk (some d)).isValid = true) :
    ((parseSaveData dateOk (some d)).1).isSome = true := by
  simp only [parseSaveData]
  rw [h]
  simp

/-- C9: under the version gate that activates the hierarchy checks
(`version === "1.4.0" || version > "1.3.0"`), every card with
`hierarchyLevel > 1` and no `parentId` produces exactly one
`cardParentRequired` error, every card with a dangling non-empty `parentId`
produces exactly one `cardMissingParent` error, validation fails and
`parseSaveData` rejects the document; a document with no errors (warnings
only) is still loadable.  Without the gate the checks are skipped entirely:
see the C9 counterexample. -/
theorem C9_load_validation (dateOk : String → Bool) (d : JsonDoc)
    (cards : List JsonCard) (hcards : d.cards = some cards)
    (hgate : versionGate d.version "1.4.0" "1.3.0" = true) :
    (∀ i card, cards.get? i = some card →
      (∀ l, card.hierarchyLevel = some l → 1 < l → card.parentId = none →
        (validateSaveData dateOk (some d)).errors.count
          (.cardParentRequired (i + 1)) = 1 ∧
        (validateSaveData dateOk (some d)).isValid = false ∧
        (parseSaveData dateOk (some d)).1 = none) ∧
      (∀ p, card.parentId = some p → ¬ p = "" →
        cards.any (fun c => c.id = some p) = false →
        (validateSaveData dateOk (some d)).errors.count
          (.cardMissingParent (i + 1)) = 1 ∧
        (validateSaveData dateOk (some d)).isValid = false ∧
        (parseSaveData dateOk (some d)).1 = none)) ∧
    ((validateSaveData dateOk (some d)).errors = [] →
      ((parseSaveData dateOk (some d)).1).isSome = true) := by
  have hval : (validateSaveData dateOk (some d)).isValid =
      ((validateSaveData dateOk (some d)).errors).isEmpty := rfl
  have hcoll0 : ∀ e : VErr, ¬ e = VErr.collapsedNotArray →
      ¬ e = VErr.collapsedBadElement →
      (match d.collapsedCardIds with
       | none => ([] : List VErr)
       | some none => [VErr.collapsedNotArray]
       | some (some elems) =>
         if elems.any (fun e => e.isNone) then [VErr.collapsedBadElement]
         else []).count e = 0 := by
    intro e he1 he2
    rw [List.count_eq_zero]
    intro hm
    cases hcc : d.collapsedCardIds with
    | none =>
      rw [hcc] at hm
      simp at hm
    | some o =>
      cases o with
      | none =>
        rw [hcc] at hm
        simp at hm
        exact he1 hm
      | some elems =>
        rw [hcc] at hm
        dsimp only at hm
        split at hm
        · simp at hm
          exact he2 hm
        · simp at hm
  have hinvalid : ∀ e : VErr,
      (validateSaveData dateOk (some d)).errors.count e = 1 →
      (validateSaveData dateOk (some d)).isValid = false ∧
      (parseSaveData dateOk (some d)).1 = none := by
    intro e hcount
    have hne : (validateSaveData dateOk (some d)).errors ≠ [] := by
      intro h0
      rw [h0] at hcount
      simp at hcount
    have hfalse : (validateSaveData dateOk (some d)).isValid = false := by
      rw [hval]
      cases herrs : (validateSaveData dateOk (some d)).errors with
      | nil => exact absurd herrs hne
      | cons a t => rfl
    exact ⟨hfalse, parseSaveData_fst_of_isValid_false dateOk (some d) hfalse⟩
  refine ⟨?_, ?_⟩
  · intro i card hi
    constructor
    · intro l hl hl1 hpar
      have hcount : (validateSaveData dateOk (some d)).errors.count
          (.cardParentRequired (i + 1)) = 1 := by
        refine errors_count_one dateOk d cards hcards _ i card hi
          (count_block_zero _ _ _ (by simp)) (count_block_zero _ _ _ (by simp))
          (count_block_zero _ _ _ (by simp))
          (hcoll0 _ (by simp) (by simp))
          (count_parentRequired_self d.version cards i card l hgate hl hl1 hpar)
          (fun j c hji => count_parentRequired_other d.version cards j c (i + 1)
            (by omega))
      exact ⟨hcount, (hinvalid _ hcount).1, (hinvalid _ hcount).2⟩
    · intro p hpar hp hmiss
      have hcount : (validateSaveData dateOk (some d)).errors.count
          (.cardMissingParent (i + 1)) = 1 := by
        refine errors_count_one dateOk d cards hcards _ i card hi
          (count_block_zero _ _ _ (by simp)) (count_block_zero _ _ _ (by simp))
          (count_block_zero _ _ _ (by simp))
          (hcoll0 _ (by simp) (by simp))
          (count_missingParent_self d.version cards i card p hgate hpar hp hmiss)
          (fun j c hji => count_missingParent_other d.version cards j c (i + 1)
            (by omega))
      exact ⟨hcount, (hinvalid _ hcount).1, (hinvalid _ hcount).2⟩
  · intro h0
    have hv : (validateSaveData dateOk (some d)).isValid = true := by
      rw [hval, h0]
      rfl
    exact parseSaveData_fst_isSome_of_isValid dateOk d hv

theorem C9_load_validation_witness :
    ((oldVersionDoc.cards.getD []).get? 0).isSome = true ∧
    ((validateSaveData (fun _ => true)
        (some { oldVersionDoc with version := some "1.4.0" })).errors.count
      (.cardParentRequired 1) = 1 ∧
     (validateSaveData (fun _ => true)
        (some { oldVersionDoc with version := some "1.4.0" })).isValid = false ∧
     (parseSaveData (fun _ => true)
        (some { oldVersionDoc with version := some "1.4.0" })).1 = none) :=
  ⟨by decide,
   ((C9_load_validation (fun _ => true)
      { oldVersionDoc with version := some "1.4.0" }
      ((({ oldVersionDoc with version := some "1.4.0" } : JsonDoc)).cards.getD [])
      (by decide) (by decide)).1 0
      (Option.get ((oldVersionDoc.cards.getD []).get? 0) (by decide))
      (by decide)).1 2 (by decide) (by decide) (by decide)⟩

end MdDivider